import Mathlib

/-! QnA-Genie: a shallow embedding of the backend request handlers.

The document store is a record of four collections (lists of documents in
natural order).  Every route handler of `backend/routes/*.js` is a function
from the store and the request to a response and the next store.  The
external relevance classifier is a parameter of the handlers that call it.

Identifiers are MongoDB ObjectIds, modelled as natural numbers; dates are
milliseconds since the epoch; JSON numbers that are only copied are rationals.
-/

namespace QnAGenie

/-! ## Data model (backend/models) -/

/-- MongoDB ObjectId. -/
abbrev ObjectId := Nat

/-- JavaScript Date, as milliseconds since the epoch. -/
abbrev Date := Nat

/-- models/User.js, userSchema. -/
structure User where
  _id : ObjectId
  email : String
  password : String
  role : String
  profileName : Option String
  profileBio : Option String
  profileOrganization : Option String
  profileAvatar : Option String
  deriving DecidableEq, Repr

/-- models/Topic.js, the nested speakerInfo object of topicSchema. -/
structure SpeakerInfo where
  speakerName : String
  conferenceTime : Date
  duration : Nat
  avatar : Option String
  deriving DecidableEq, Repr

/-- models/Topic.js, topicSchema. -/
structure Topic where
  _id : ObjectId
  name : String
  speakerId : ObjectId
  speakerInfo : SpeakerInfo
  startTime : Date
  endTime : Date
  status : String
  deriving DecidableEq, Repr

/-- models/Question.js, questionSchema. -/
structure Question where
  _id : ObjectId
  userId : ObjectId
  topicId : ObjectId
  speakerId : ObjectId
  content : String
  status : String
  isAnonymous : Bool
  username : String
  userEmail : String
  createdAt : Date
  isRelevant : Bool
  confidence : ℚ
  score : ℚ
  deriving DecidableEq, Repr

/-- models/Feedback.js, feedbackSchema. -/
structure Feedback where
  _id : ObjectId
  userId : ObjectId
  topicId : ObjectId
  rating : ℚ
  comment : String
  createdAt : Date
  deriving DecidableEq, Repr

/-- The document store: one list per collection. -/
structure Store where
  users : List User
  topics : List Topic
  questions : List Question
  feedback : List Feedback
  deriving DecidableEq, Repr

/-- Reading `question.topic`: questionSchema declares no `topic` path, so the
property is undefined on every Question document.  (server.js sets
`strictQuery` to false, so a filter on such a path reaches the store as
written and is compared with this value.) -/
def Question.topic (_q : Question) : Option String := none

/-- Reading `topic.createdBy`: topicSchema declares no `createdBy` path. -/
def Topic.createdBy (_t : Topic) : Option ObjectId := none

/-- Reading `topic.active`: topicSchema declares no `active` path. -/
def Topic.active (_t : Topic) : Option Bool := none

/-- What the storage layer guarantees of a store: `_id` is unique within each
collection, and the unique index `{ speakerId: 1, name: 1 }` of topicSchema
holds. -/
structure Store.WF (st : Store) : Prop where
  topicIds : (st.topics.map (·._id)).Nodup
  questionIds : (st.questions.map (·._id)).Nodup
  topicNames : (st.topics.map (fun t => (t.speakerId, t.name))).Nodup

/-! ## Requests and responses -/

/-- The request context `req.user` set by middleware/auth.js. -/
structure AuthUser where
  userId : ObjectId
  role : String
  deriving DecidableEq, Repr

/-- The result of `.populate('userId', 'email')`. -/
structure PopulatedUser where
  _id : ObjectId
  email : String
  deriving DecidableEq, Repr

/-- The result of `.populate('topicId', 'name')`. -/
structure PopulatedTopic where
  _id : ObjectId
  name : String
  deriving DecidableEq, Repr

/-- A populated Question document after `toObject()`; a populated reference is
`none` (null) when the referenced document does not exist. -/
structure QuestionObj where
  _id : ObjectId
  userId : Option PopulatedUser
  topicId : Option PopulatedTopic
  speakerId : ObjectId
  content : String
  status : String
  isAnonymous : Bool
  username : String
  userEmail : String
  createdAt : Date
  isRelevant : Bool
  confidence : ℚ
  score : ℚ
  deriving DecidableEq, Repr

/-- One value of the `questionsByTopic` object. -/
structure TopicGroup where
  relevant : List QuestionObj
  nonRelevant : List QuestionObj
  deriving DecidableEq, Repr

/-- The claims of a JSON Web Token: the payload passed to `jwt.sign` together
with the issue and expiry times (seconds since the epoch) it adds. -/
structure JwtPayload where
  userId : Option ObjectId
  role : String
  iat : Nat
  exp : Nat
  deriving DecidableEq, Repr

/-- A JSON Web Token, symbolically: its claims and the secret its signature was
made with. -/
structure Jwt where
  payload : JwtPayload
  key : String
  deriving DecidableEq, Repr

/-- JSON response bodies of the handlers; `failure` is a body that carries the
message of the caught error under `error` next to `message`, and
`feedbackCheck found feedback` is the body `{ exists, feedback }` of
`GET /feedback/check/:topicId`. -/
inductive Body where
  | message (message : String)
  | accessDenied (message : String) (currentRole : Option String)
  | topic (t : Topic)
  | question (q : Question)
  | topicDeleted (message : String) (deletedQuestions deletedFeedback : Nat)
  | messageDetails (message details : String)
  | feedbackCreated (message : String) (feedback : Feedback)
  | registered (message : String) (token : Jwt) (email role : String)
  | loggedIn (token : Jwt) (role email : String)
  | failure (message : String)
  | avatarUploaded (message avatar : String)
  | feedbackCheck (found : Bool) (feedback : Option (ℚ × String × Date))
  | noTopics
  | speakerQuestions (questionsByTopic : List (String × TopicGroup))
      (relevant nonRelevant : Nat)
  deriving DecidableEq, Repr

/-- An HTTP response: status code and JSON body. -/
structure Response where
  status : Nat
  body : Body
  deriving DecidableEq, Repr

/-- middleware/roleAuth.js, speakerAuth: `none` when `next()` is called,
otherwise the 403 response. -/
def speakerAuth (user : Option AuthUser) : Option Response :=
  match user with
  | none => some ⟨403, .accessDenied "Access denied. Speaker only." none⟩
  | some u =>
    if u.role ≠ "speaker" then
      some ⟨403, .accessDenied "Access denied. Speaker only." (some u.role)⟩
    else none

/-! ## JavaScript string operations -/

/-- The white space of ECMAScript, which `String.prototype.trim` strips and
the pattern class of white space matches: tab, line feed, vertical tab, form
feed, carriage return, space, no-break space (U+00A0), the other space
separators (U+1680, U+2000 to U+200A, U+202F, U+205F, U+3000), the line and
paragraph separators (U+2028, U+2029) and U+FEFF. -/
def jsIsWhiteSpace (c : Char) : Bool :=
  c.toNat = 0x09 || c.toNat = 0x0A || c.toNat = 0x0B || c.toNat = 0x0C || c.toNat = 0x0D ||
    c.toNat = 0x20 || c.toNat = 0xA0 || c.toNat = 0x1680 ||
    (decide (0x2000 ≤ c.toNat) && decide (c.toNat ≤ 0x200A)) ||
    c.toNat = 0x2028 || c.toNat = 0x2029 || c.toNat = 0x202F || c.toNat = 0x205F ||
    c.toNat = 0x3000 || c.toNat = 0xFEFF

/-- The method `String.prototype.trim`: leading and trailing white space
removed. -/
def jsTrim (s : String) : String :=
  String.mk ((s.toList.dropWhile jsIsWhiteSpace).reverse.dropWhile
    jsIsWhiteSpace).reverse

/-! The method `String.prototype.toLowerCase` applies the lower-case mapping of
the Unicode character database.  It is a parameter `toLowerCase` of every
definition that calls it, like the classifier and the password hash. -/

/-- middleware/roleAuth.js, listenerAuth: `none` when `next()` is called,
otherwise the 403 response. -/
def listenerAuth (user : Option AuthUser) : Option Response :=
  match user with
  | none => some ⟨403, .message "Access denied. Listener only."⟩
  | some u =>
    if u.role ≠ "listener" then some ⟨403, .message "Access denied. Listener only."⟩
    else none

/-! ## jsonwebtoken and middleware/auth.js -/

/-- The call `jwt.sign({ userId, role }, secret, { expiresIn: '24h' })` at clock
`now` (milliseconds). -/
def jwtSign (userId : ObjectId) (role : String) (secret : String) (now : Date) : Jwt :=
  ⟨⟨some userId, role, now / 1000, now / 1000 + 86400⟩, secret⟩

/-- The call `jwt.verify(token, secret)` at clock `now`: the claims when the
signature was made with `secret` and the token has not expired, `none` when
it throws. -/
def jwtVerify (token : Jwt) (secret : String) (now : Date) : Option JwtPayload :=
  if token.key = secret ∧ now / 1000 < token.payload.exp then some token.payload else none

/-- The value of the `x-auth-token` header: missing (or empty), a string that
is not a token, or a token. -/
inductive TokenHeader where
  | absent
  | malformed
  | jwt (token : Jwt)
  deriving DecidableEq, Repr

/-- What the authentication gate does with a request: it answers, or it calls
`next()` with `req.user` set. -/
inductive AuthResult where
  | denied (response : Response)
  | next (user : AuthUser)
  deriving DecidableEq, Repr

/-- middleware/auth.js, auth. -/
def auth (secret : String) (now : Date) (header : TokenHeader) : AuthResult :=
  match header with
  | .absent => .denied ⟨401, .message "No token, authorization denied"⟩
  | .malformed => .denied ⟨401, .message "Token is not valid"⟩
  | .jwt token =>
    match jwtVerify token secret now with
    | none => .denied ⟨401, .message "Token is not valid"⟩
    | some decoded =>
      match decoded.userId with
      | none => .denied ⟨401, .message "Invalid token structure"⟩
      | some userId => .next ⟨userId, decoded.role⟩

/-! ## Collection operations of the ORM -/

/-- The ORM call `Model.deleteMany(filter)`: the remaining documents and `deletedCount`. -/
def deleteMany {α : Type} (p : α → Bool) (docs : List α) : List α × Nat :=
  (docs.filter (fun d => !p d), (docs.filter p).length)

/-- The ORM call `Model.deleteOne(filter)`: removes the first matching document. -/
def deleteOne {α : Type} (p : α → Bool) (docs : List α) : List α :=
  docs.eraseP p

/-- The ORM call `Model.findOne(filter)`: the first matching document, or null. -/
def findOne {α : Type} (p : α → Bool) (docs : List α) : Option α :=
  docs.find? p

/-- The call `doc.save()` of an already stored document: the document with the same
`_id` is replaced in place. -/
def replaceTopic (t : Topic) (docs : List Topic) : List Topic :=
  docs.map (fun d => if d._id = t._id then t else d)

/-! ## routes/topics.js -/

/-- A JSON body for `PATCH /topics/:topicId`: each schema path is present or
absent. -/
structure TopicPatch where
  name : Option String
  speakerId : Option ObjectId
  speakerInfo : Option SpeakerInfo
  startTime : Option Date
  endTime : Option Date
  status : Option String
  deriving DecidableEq, Repr

/-- The call `Object.assign(topic, req.body)`: every present path overwrites the
document's; the schema's `trim: true` setter applies to `name`. -/
def assignTopic (topic : Topic) (body : TopicPatch) : Topic :=
  { topic with
    name := (body.name.map jsTrim).getD topic.name
    speakerId := body.speakerId.getD topic.speakerId
    speakerInfo := body.speakerInfo.getD topic.speakerInfo
    startTime := body.startTime.getD topic.startTime
    endTime := body.endTime.getD topic.endTime
    status := body.status.getD topic.status }

/-- Validation run by `topic.save()`: required strings are non-empty and
`status` is in the schema's enum. -/
def validTopic (t : Topic) : Bool :=
  t.name ≠ "" && t.speakerInfo.speakerName ≠ "" &&
    (t.status = "upcoming" || t.status = "active" || t.status = "completed")

/-- The unique index `{ speakerId: 1, name: 1 }`: writing `t` is refused when
another document holds the same pair. -/
def topicIndexConflict (t : Topic) (docs : List Topic) : Bool :=
  docs.any (fun d => d._id ≠ t._id && d.speakerId = t.speakerId && d.name = t.name)

/-- Handler `router.patch('/:topicId', [auth, speakerAuth], ...)` of
routes/topics.js. -/
def patchTopic (st : Store) (user : AuthUser) (topicId : ObjectId) (body : TopicPatch) :
    Response × Store :=
  match speakerAuth (some user) with
  | some denied => (denied, st)
  | none =>
    match findOne (fun t : Topic => t._id = topicId && t.speakerId = user.userId) st.topics with
    | none => (⟨404, .message "Topic not found or unauthorized"⟩, st)
    | some topic =>
      let topic := assignTopic topic body
      if validTopic topic && !topicIndexConflict topic st.topics then
        (⟨200, .topic topic⟩, { st with topics := replaceTopic topic st.topics })
      else
        (⟨500, .message "Error updating topic"⟩, st)

/-- Handler `router.delete('/:topicId', [auth, speakerAuth], ...)` of
routes/topics.js. -/
def deleteTopic (st : Store) (user : AuthUser) (topicId : ObjectId) : Response × Store :=
  match speakerAuth (some user) with
  | some denied => (denied, st)
  | none =>
    match findOne (fun t : Topic => t._id = topicId && t.speakerId = user.userId) st.topics with
    | none => (⟨404, .message "Topic not found or unauthorized"⟩, st)
    | some topic =>
      let deletedQuestions :=
        deleteMany (fun q : Question => q.topicId = topic._id || q.topic = some topic.name)
          st.questions
      let deletedFeedback :=
        deleteMany (fun f : Feedback => f.topicId = topic._id) st.feedback
      let topics := deleteOne (fun t : Topic => t._id = topic._id) st.topics
      (⟨200, .topicDeleted "Topic and all associated data deleted successfully"
          deletedQuestions.2 deletedFeedback.2⟩,
       { st with questions := deletedQuestions.1, feedback := deletedFeedback.1,
                 topics := topics })

/-- A date value of a JSON body: missing (or otherwise falsy), a value that
`new Date` cannot parse, or a date. -/
inductive DateInput where
  | missing
  | unparsable
  | date (d : Date)
  deriving DecidableEq, Repr

/-- The call `new Date(x)`; `none` is the Invalid Date, which the schema
refuses. -/
def newDate : DateInput → Option Date
  | .date d => some d
  | _ => none

/-- The `speakerInfo` object of the body of `POST /topics`. -/
structure SpeakerInfoBody where
  speakerName : Option String
  conferenceTime : DateInput
  duration : Option Nat
  deriving DecidableEq, Repr

/-- The JSON body of `POST /topics`. -/
structure CreateTopicBody where
  name : Option String
  speakerInfo : Option SpeakerInfoBody
  startTime : DateInput
  endTime : DateInput
  deriving DecidableEq, Repr

/-- The expression `speakerInfo.duration || 60`. -/
def durationOrDefault (duration : Option Nat) : Nat :=
  match duration with
  | some d => if d = 0 then 60 else d
  | none => 60

/-- The expression `speaker.profile?.avatar || null`. -/
def avatarOrNull (avatar : Option String) : Option String :=
  match avatar with
  | some a => if a = "" then none else some a
  | none => none

/-- Handler `router.post('/', auth, speakerAuth, ...)` of routes/topics.js.
`newId` is the ObjectId generated for the new document.  A failing
`topic.save()` (an invalid date, the unique index, a stored `_id`) is
answered 500. -/
def createTopic (newId : ObjectId) (st : Store) (user : AuthUser) (body : CreateTopicBody) :
    Response × Store :=
  match speakerAuth (some user) with
  | some denied => (denied, st)
  | none =>
    match body.name with
    | none => (⟨400, .message "Topic name is required"⟩, st)
    | some name =>
      if name = "" ∨ jsTrim name = "" then (⟨400, .message "Topic name is required"⟩, st)
      else
        match body.speakerInfo with
        | none => (⟨400, .message "Speaker information is incomplete"⟩, st)
        | some speakerInfo =>
          match speakerInfo.speakerName with
          | none => (⟨400, .message "Speaker information is incomplete"⟩, st)
          | some speakerName =>
            if speakerName = "" ∨ speakerInfo.conferenceTime = .missing then
              (⟨400, .message "Speaker information is incomplete"⟩, st)
            else
              match findOne (fun t : Topic =>
                  t.speakerId = user.userId && t.name = jsTrim name) st.topics with
              | some _ => (⟨400, .message "You already have a topic with this name"⟩, st)
              | none =>
                match findOne (fun u : User => u._id = user.userId) st.users with
                | none => (⟨404, .message "Speaker not found"⟩, st)
                | some speaker =>
                  match newDate speakerInfo.conferenceTime, newDate body.startTime,
                      newDate body.endTime with
                  | some conferenceTime, some startTime, some endTime =>
                    let topic : Topic :=
                      { _id := newId
                        name := jsTrim name
                        speakerId := user.userId
                        speakerInfo :=
                          { speakerName := speakerName
                            conferenceTime := conferenceTime
                            duration := durationOrDefault speakerInfo.duration
                            avatar := avatarOrNull speaker.profileAvatar }
                        startTime := startTime
                        endTime := endTime
                        status := "upcoming" }
                    if validTopic topic && !topicIndexConflict topic st.topics &&
                        !st.topics.any (fun t => t._id = newId) then
                      (⟨201, .topic topic⟩, { st with topics := st.topics ++ [topic] })
                    else (⟨500, .failure "Error creating topic"⟩, st)
                  | _, _, _ => (⟨500, .failure "Error creating topic"⟩, st)

/-- One request to the topic routes that write. -/
inductive TopicReq where
  | create (user : AuthUser) (newId : ObjectId) (body : CreateTopicBody)
  | patch (user : AuthUser) (topicId : ObjectId) (body : TopicPatch)
  | delete (user : AuthUser) (topicId : ObjectId)
  deriving DecidableEq, Repr

/-- The store after one topic request. -/
def topicStep (st : Store) : TopicReq → Store
  | .create user newId body => (createTopic newId st user body).2
  | .patch user topicId body => (patchTopic st user topicId body).2
  | .delete user topicId => (deleteTopic st user topicId).2

/-- The store after a sequence of topic requests. -/
def runTopics (st : Store) (reqs : List TopicReq) : Store :=
  reqs.foldl topicStep st

/-! ## services/aiService.js -/

/-- The JSON body posted to `/predict`. -/
structure PredictRequest where
  question : Option String
  topic : String
  deriving DecidableEq, Repr

/-- The JSON body of the classifier's answer; each field may be missing. -/
structure PredictData where
  result : Option String
  confidence : Option ℚ
  score : Option ℚ
  deriving DecidableEq, Repr

/-- What the outbound HTTP call meets: no answer at all, or an answer with a
status code and a body. -/
inductive HttpOutcome where
  | networkError
  | answered (status : Nat) (data : Option PredictData)
  deriving DecidableEq, Repr

/-- The call `axios.post`: resolves with the body for a 2xx status and rejects
otherwise. -/
def axiosPost (outcome : HttpOutcome) : Option (Option PredictData) :=
  match outcome with
  | .networkError => none
  | .answered status data => if 200 ≤ status ∧ status < 300 then some data else none

/-- The object returned by `analyzeQuestion`. -/
structure Analysis where
  isRelevant : Bool
  confidence : Option ℚ
  score : Option ℚ
  deriving DecidableEq, Repr

/-- Method `AIService.analyzeQuestion(question, topic)`; `none` is a thrown error
(the rejected call is rethrown, and reading a field of a missing body
throws). -/
def analyzeQuestion (predict : PredictRequest → HttpOutcome) (question : Option String)
    (topic : String) : Option Analysis :=
  match axiosPost (predict ⟨question, topic⟩) with
  | none => none
  | some none => none
  | some (some data) =>
    some { isRelevant := data.result = some "Relevant"
           confidence := data.confidence
           score := data.score }

/-! ## routes/questions.js -/

/-- The JSON body of `POST /questions`. -/
structure SubmitBody where
  topicId : ObjectId
  speakerId : ObjectId
  content : Option String
  isAnonymous : Option Bool
  username : Option String
  userEmail : Option String
  deriving DecidableEq, Repr

/-- The outcome of a handler that calls the classifier: the response, the next
store and the requests sent to the classifier, in order. -/
structure SubmitResult where
  response : Response
  store : Store
  aiCalls : List PredictRequest
  deriving DecidableEq, Repr

/-- JavaScript truthiness of the `isAnonymous` value of the body. -/
def truthy (b : Option Bool) : Bool := b.getD false

/-- The calls `new Question({...})` followed by `question.save()`: the schema
defaults fill the missing paths (`isAnonymous` true, `username` empty, `confidence` and
`score` 0, `status` pending, `createdAt` now); `none` is a validation error
(the required `content` or `userEmail` missing or empty). -/
def newQuestion (newId : ObjectId) (now : Date) (user : AuthUser) (topic : Topic)
    (body : SubmitBody) (aiAnalysis : Analysis) : Option Question :=
  match body.content, body.userEmail with
  | some content, some userEmail =>
    if content ≠ "" ∧ userEmail ≠ "" then
      some { _id := newId
             userId := user.userId
             topicId := topic._id
             speakerId := body.speakerId
             content := content
             status := "pending"
             isAnonymous := body.isAnonymous.getD true
             username := (if truthy body.isAnonymous then some "" else body.username).getD ""
             userEmail := userEmail
             createdAt := now
             isRelevant := aiAnalysis.isRelevant
             confidence := aiAnalysis.confidence.getD 0
             score := aiAnalysis.score.getD 0 }
    else none
  | _, _ => none

/-- Handler `router.post('/', auth, ...)` of routes/questions.js.  `predict`
is the external classifier, `newId` the ObjectId generated for the new
document and `now` the clock; inserting an `_id` that is already stored is
refused by the store. -/
def submitQuestion (predict : PredictRequest → HttpOutcome) (newId : ObjectId) (now : Date)
    (st : Store) (user : AuthUser) (body : SubmitBody) : SubmitResult :=
  match findOne (fun t : Topic => t._id = body.topicId && t.speakerId = body.speakerId)
      st.topics with
  | none => ⟨⟨404, .message "Topic not found"⟩, st, []⟩
  | some topic =>
    let call : PredictRequest := ⟨body.content, topic.name⟩
    match analyzeQuestion predict body.content topic.name with
    | none => ⟨⟨500, .message "Error creating question"⟩, st, [call]⟩
    | some aiAnalysis =>
      match newQuestion newId now user topic body aiAnalysis with
      | none => ⟨⟨500, .message "Error creating question"⟩, st, [call]⟩
      | some question =>
        if st.questions.any (fun q => q._id = newId) then
          ⟨⟨500, .message "Error creating question"⟩, st, [call]⟩
        else
          ⟨⟨201, .question question⟩,
            { st with questions := st.questions ++ [question] }, [call]⟩

/-- The calls `.populate('userId', 'email').populate('topicId', 'name')` and
`toObject()` on one question. -/
def populate (st : Store) (q : Question) : QuestionObj :=
  { _id := q._id
    userId := (st.users.find? (fun u => u._id = q.userId)).map (fun u => ⟨u._id, u.email⟩)
    topicId := (st.topics.find? (fun t => t._id = q.topicId)).map (fun t => ⟨t._id, t.name⟩)
    speakerId := q.speakerId
    content := q.content
    status := q.status
    isAnonymous := q.isAnonymous
    username := q.username
    userEmail := q.userEmail
    createdAt := q.createdAt
    isRelevant := q.isRelevant
    confidence := q.confidence
    score := q.score }

/-- The query option `.sort({ createdAt: -1 })`. -/
def sortNewestFirst (qs : List Question) : List Question :=
  qs.insertionSort (fun a b => a.createdAt ≥ b.createdAt)

/-- The callback of `questions.map` in the speaker listing: the anonymity
scrub. -/
def processQuestion (questionObj : QuestionObj) : QuestionObj :=
  if questionObj.isAnonymous then
    { questionObj with username := "Anonymous", userEmail := "" }
  else questionObj

/-- Whether a property key is an array index: the decimal form, without a
leading zero, of an integer from 0 to 2^32 - 2. -/
def arrayIndex (key : String) : Option Nat :=
  let cs := key.toList
  if cs ≠ [] ∧ cs.all Char.isDigit ∧ (cs.head? ≠ some '0' ∨ cs.length = 1) then
    let n := cs.foldl (fun n c => 10 * n + (c.toNat - 48)) 0
    if n < 4294967295 then some n else none
  else none

/-- Whether the entry `e` of an object is listed before a new property whose
key is the array index `n`: its key is a smaller array index. -/
def indexBefore (n : Nat) (e : String × TopicGroup) : Bool :=
  match arrayIndex e.1 with
  | some m => decide (m < n)
  | none => false

/-- Assignment `obj[key] = value` on an object created by `{}`, whose value
is an object.  The list holds the own properties in the order in which
`JSON.stringify` writes them: array-index keys in ascending order, then the
other keys in order of creation; an existing key keeps its place.  Assigning
under the key `__proto__` calls the setter inherited from `Object.prototype`,
which makes the value the prototype of the object and creates no own
property. -/
def objSet (obj : List (String × TopicGroup)) (key : String) (value : TopicGroup) :
    List (String × TopicGroup) :=
  if key = "__proto__" then obj
  else if obj.any (fun e => e.1 = key) then
    obj.map (fun e => if e.1 = key then (key, value) else e)
  else
    match arrayIndex key with
    | some n => obj.takeWhile (indexBefore n) ++ (key, value) :: obj.dropWhile (indexBefore n)
    | none => obj ++ [(key, value)]

/-- The own property `key` of an object, as the JSON text of the response
carries it. -/
def objGet (obj : List (String × TopicGroup)) (key : String) : Option TopicGroup :=
  (obj.find? (fun e => e.1 = key)).map (·.2)

/-- The questions of one topic among the processed ones:
`q.topicId._id.toString() === topic._id.toString()`. -/
def topicQuestions (topic : Topic) (processedQuestions : List QuestionObj) : List QuestionObj :=
  processedQuestions.filter (fun q => (q.topicId.map (·._id)) = some topic._id)

/-- The value stored under one topic's name: its questions split by the
`isRelevant` flag. -/
def topicGroup (topic : Topic) (processedQuestions : List QuestionObj) : TopicGroup :=
  let tq := topicQuestions topic processedQuestions
  { relevant := tq.filter (fun q => q.isRelevant)
    nonRelevant := tq.filter (fun q => !q.isRelevant) }

/-- The `topics.forEach` loop that fills `questionsByTopic`. -/
def groupByTopic (topics : List Topic) (processedQuestions : List QuestionObj) :
    List (String × TopicGroup) :=
  topics.foldl (fun questionsByTopic topic =>
    objSet questionsByTopic topic.name (topicGroup topic processedQuestions)) []

/-- The processed questions of `GET /questions/speaker-questions`, given the
speaker's topics. -/
def speakerProcessedQuestions (st : Store) (topics : List Topic) : List QuestionObj :=
  let topicIds := topics.map (·._id)
  let questions := (sortNewestFirst (st.questions.filter (fun q => q.topicId ∈ topicIds))).map
    (populate st)
  questions.map processQuestion

/-- Handler `router.get('/speaker-questions', auth, speakerAuth, ...)`.
Reading `q.topicId._id` of a question whose populated topic is null throws,
which the handler answers with 500; with at least one topic the loop reads
every processed question.  The handler only reads: the next store is the
store. -/
def getSpeakerQuestions (st : Store) (user : AuthUser) : Response × Store :=
  match speakerAuth (some user) with
  | some denied => (denied, st)
  | none =>
    let topics := st.topics.filter (fun t => t.speakerId = user.userId)
    if topics.length = 0 then (⟨200, .noTopics⟩, st)
    else
      let processedQuestions := speakerProcessedQuestions st topics
      if processedQuestions.all (fun q => q.topicId.isSome) then
        (⟨200, .speakerQuestions (groupByTopic topics processedQuestions)
          (processedQuestions.filter (fun q => q.isRelevant)).length
          (processedQuestions.filter (fun q => !q.isRelevant)).length⟩, st)
      else (⟨500, .message "Error fetching questions"⟩, st)

/-- Handler `router.delete('/:questionId', [auth, speakerAuth], ...)`.  The
topic query filters on `createdBy` and `active`, and `includes` compares the
topic names with `question.topic`, which may be undefined (`none`). -/
def deleteQuestion (st : Store) (user : AuthUser) (questionId : ObjectId) : Response × Store :=
  match speakerAuth (some user) with
  | some denied => (denied, st)
  | none =>
    match findOne (fun q : Question => q._id = questionId) st.questions with
    | none => (⟨404, .message "Question not found"⟩, st)
    | some question =>
      let speakerTopics := st.topics.filter
        (fun t => t.createdBy = some user.userId && t.active = some true)
      let speakerTopicNames := speakerTopics.map (fun t => some t.name)
      if !speakerTopicNames.contains question.topic then
        (⟨403, .message "You can only delete questions for your own topics"⟩, st)
      else
        (⟨200, .message "Question deleted successfully"⟩,
          { st with
            questions := (deleteOne (fun q : Question => q._id = questionId) st.questions) })

/-- Validation run by `question.save()`: the required strings are non-empty
and `status` is in the schema's enum. -/
def validQuestion (q : Question) : Bool :=
  q.content ≠ "" && q.userEmail ≠ "" &&
    (q.status = "pending" || q.status = "approved" || q.status = "rejected")

/-- The call `question.save()` of an already stored question: the document
with the same `_id` is replaced in place. -/
def replaceQuestion (q : Question) (docs : List Question) : List Question :=
  docs.map (fun d => if d._id = q._id then q else d)

/-- Handler `router.patch('/:questionId/status', [auth, speakerAuth], ...)`;
`status` is the string sent as `req.body.status`. -/
def patchQuestionStatus (st : Store) (user : AuthUser) (questionId : ObjectId)
    (status : String) : Response × Store :=
  match speakerAuth (some user) with
  | some denied => (denied, st)
  | none =>
    match findOne (fun q : Question => q._id = questionId) st.questions with
    | none => (⟨404, .message "Question not found"⟩, st)
    | some question =>
      let question := { question with status := status }
      if validQuestion question then
        (⟨200, .question question⟩,
          { st with questions := (replaceQuestion question st.questions) })
      else (⟨500, .message "Error updating question status"⟩, st)

/-! ## routes/feedback.js -/

/-- The JSON body of `POST /feedback`.  A `rating` that is missing or not a
number, and a `comment` that is missing or not a string, are `none`. -/
structure FeedbackBody where
  topicId : Option ObjectId
  rating : Option ℚ
  comment : Option String
  deriving DecidableEq, Repr

/-- Validation run by `feedback.save()`: the `min`/`max` of `rating` and the
`minlength` of `comment`. -/
def validFeedback (f : Feedback) : Bool :=
  decide (1 ≤ f.rating) && decide (f.rating ≤ 5) && decide (1 ≤ f.comment.length)

/-- Handler `router.post('/', auth, ...)` of routes/feedback.js.  `newId` is
the ObjectId generated for the new document and `now` the clock. -/
def submitFeedback (newId : ObjectId) (now : Date) (st : Store) (user : AuthUser)
    (body : FeedbackBody) : Response × Store :=
  match body.topicId with
  | none => (⟨400, .message "Topic ID is required"⟩, st)
  | some topicId =>
    match body.rating with
    | none => (⟨400, .message "Rating must be a number between 1 and 5"⟩, st)
    | some rating =>
      if rating = 0 ∨ rating < 1 ∨ rating > 5 then
        (⟨400, .message "Rating must be a number between 1 and 5"⟩, st)
      else
        match body.comment with
        | none => (⟨400, .message "Comment is required"⟩, st)
        | some comment =>
          if comment = "" ∨ (jsTrim comment).length = 0 then
            (⟨400, .message "Comment is required"⟩, st)
          else
            match findOne (fun t : Topic => t._id = topicId) st.topics with
            | none => (⟨400, .message "Topic not found"⟩, st)
            | some _ =>
              match findOne (fun f : Feedback =>
                  f.userId = user.userId && f.topicId = topicId) st.feedback with
              | some _ =>
                (⟨400, .messageDetails "Feedback already exists"
                  "You have already provided feedback for this topic"⟩, st)
              | none =>
                let feedback : Feedback :=
                  ⟨newId, user.userId, topicId, rating, jsTrim comment, now⟩
                if !validFeedback feedback then
                  (⟨400, .message "Feedback validation failed"⟩, st)
                else if st.feedback.any (fun f => f._id = newId) then
                  (⟨500, .message "Error submitting feedback"⟩, st)
                else
                  (⟨201, .feedbackCreated "Feedback submitted successfully" feedback⟩,
                    { st with feedback := st.feedback ++ [feedback] })

/-- One feedback submission: who sends it, the generated id, the clock and the
body. -/
structure FeedbackReq where
  user : AuthUser
  newId : ObjectId
  now : Date
  body : FeedbackBody
  deriving DecidableEq, Repr

/-- The store after a sequence of feedback submissions. -/
def runFeedback (st : Store) (reqs : List FeedbackReq) : Store :=
  reqs.foldl (fun st r => (submitFeedback r.newId r.now st r.user r.body).2) st

/-- At most one feedback record per (user, topic). -/
def FeedbackUnique (st : Store) : Prop :=
  (st.feedback.map (fun f => (f.userId, f.topicId))).Nodup

/-! ## routes/auth.js -/

/-- The JSON body of `POST /auth/register` and `POST /auth/login`. -/
structure CredentialsBody where
  email : Option String
  password : Option String
  role : Option String
  deriving DecidableEq, Repr

/-- The setters `trim: true` and `lowercase: true` of the `email` path; they
run when a document is built and when a query filter is cast. -/
def normEmail (toLowerCase : String → String) (email : String) : String :=
  toLowerCase (jsTrim email)

/-- The test of the `match` pattern of the `email` path: one or more
non-space characters, an at sign, one or more non-space characters, a dot,
one or more non-space characters. -/
def emailMatch (s : String) : Bool :=
  let cs := s.toList
  cs.all (fun c => !jsIsWhiteSpace c) &&
    (List.range cs.length).any (fun i => (List.range cs.length).any (fun j =>
      decide (1 ≤ i) && decide (i + 2 ≤ j) && decide (j + 2 ≤ cs.length) &&
        cs[i]? == some '@' && cs[j]? == some '.'))

/-- Validation run by `user.save()`: `email` required and matching the
pattern, `password` required with at least 6 characters, `role` in the enum. -/
def validUser (u : User) : Bool :=
  u.email ≠ "" && emailMatch u.email && decide (6 ≤ u.password.length) &&
    (u.role = "listener" || u.role = "speaker")

/-- The unique index `{ email: 1, role: 1 }` of userSchema. -/
def userIndexConflict (u : User) (docs : List User) : Bool :=
  docs.any (fun d => d.email = u.email && d.role = u.role)

/-- Handler `router.post('/register', ...)`.  `hash` is `bcrypt.hash` with the
salt generated for this request, `secret` is `JWT_SECRET`, `newId` the
ObjectId generated for the new document and `now` the clock. -/
def register (toLowerCase : String → String) (hash : String → String) (secret : String)
    (newId : ObjectId) (now : Date) (st : Store) (body : CredentialsBody) :
    Response × Store :=
  match body.email, body.password, body.role with
  | some email, some password, some role =>
    if email = "" ∨ password = "" ∨ role = "" then
      (⟨400, .message "All fields are required"⟩, st)
    else
      match findOne (fun u : User => u.email = normEmail toLowerCase email && u.role = role)
          st.users with
      | some _ => (⟨400, .message "User already exists with this role"⟩, st)
      | none =>
        let user : User :=
          ⟨newId, normEmail toLowerCase email, hash password, role, none, none, none, none⟩
        if validUser user && !userIndexConflict user st.users &&
            !st.users.any (fun u => u._id = newId) then
          (⟨201, .registered "Registration successful" (jwtSign user._id user.role secret now)
              user.email user.role⟩,
            { st with users := st.users ++ [user] })
        else (⟨500, .message "Server error during registration"⟩, st)
  | _, _, _ => (⟨400, .message "All fields are required"⟩, st)

/-- Handler `router.post('/login', ...)`.  `compare` is `bcrypt.compare`. -/
def login (toLowerCase : String → String) (compare : String → String → Bool)
    (secret : String) (now : Date) (st : Store) (body : CredentialsBody) :
    Response × Store :=
  match body.email, body.password, body.role with
  | some email, some password, some role =>
    if email = "" ∨ password = "" ∨ role = "" then
      (⟨400, .message "All fields are required"⟩, st)
    else
      match findOne (fun u : User => u.email = normEmail toLowerCase email && u.role = role)
          st.users with
      | none => (⟨400, .message "Invalid credentials"⟩, st)
      | some user =>
        if !compare password user.password then
          (⟨400, .message "Invalid credentials"⟩, st)
        else
          (⟨200, .loggedIn (jwtSign user._id user.role secret now) user.role user.email⟩, st)
  | _, _, _ => (⟨400, .message "All fields are required"⟩, st)

/-- One registration: the hash function of the request, the generated id, the
clock and the body. -/
structure RegisterReq where
  hash : String → String
  newId : ObjectId
  now : Date
  body : CredentialsBody

/-- The store after a sequence of registrations. -/
def runRegister (toLowerCase : String → String) (secret : String) (st : Store)
    (reqs : List RegisterReq) : Store :=
  reqs.foldl (fun st r => (register toLowerCase r.hash secret r.newId r.now st r.body).2) st

/-- No two stored users share (email, role). -/
def UsersUnique (st : Store) : Prop :=
  (st.users.map (fun u => (u.email, u.role))).Nodup

/-- The part of `router.post('/', auth, ...)` of routes/feedback.js up to and
including the existence query: the answer it gives, or the document it is
about to save. -/
inductive FeedbackChecked where
  | answered (response : Response)
  | ready (feedback : Feedback)
  deriving DecidableEq, Repr

/-- The input validation and the two queries of `POST /feedback`, which only
read the store. -/
def feedbackCheck (newId : ObjectId) (now : Date) (st : Store) (user : AuthUser)
    (body : FeedbackBody) : FeedbackChecked :=
  match body.topicId with
  | none => .answered ⟨400, .message "Topic ID is required"⟩
  | some topicId =>
    match body.rating with
    | none => .answered ⟨400, .message "Rating must be a number between 1 and 5"⟩
    | some rating =>
      if rating = 0 ∨ rating < 1 ∨ rating > 5 then
        .answered ⟨400, .message "Rating must be a number between 1 and 5"⟩
      else
        match body.comment with
        | none => .answered ⟨400, .message "Comment is required"⟩
        | some comment =>
          if comment = "" ∨ (jsTrim comment).length = 0 then
            .answered ⟨400, .message "Comment is required"⟩
          else
            match findOne (fun t : Topic => t._id = topicId) st.topics with
            | none => .answered ⟨400, .message "Topic not found"⟩
            | some _ =>
              match findOne (fun f : Feedback =>
                  f.userId = user.userId && f.topicId = topicId) st.feedback with
              | some _ =>
                .answered ⟨400, .messageDetails "Feedback already exists"
                  "You have already provided feedback for this topic"⟩
              | none => .ready ⟨newId, user.userId, topicId, rating, jsTrim comment, now⟩

/-- The call `feedback.save()` of `POST /feedback` and the answer after it.
feedbackSchema declares no index, so only a stored `_id` makes the insert
fail. -/
def feedbackSave (st : Store) (feedback : Feedback) : Response × Store :=
  if !validFeedback feedback then
    (⟨400, .message "Feedback validation failed"⟩, st)
  else if st.feedback.any (fun f => f._id = feedback._id) then
    (⟨500, .message "Error submitting feedback"⟩, st)
  else
    (⟨201, .feedbackCreated "Feedback submitted successfully" feedback⟩,
      { st with feedback := st.feedback ++ [feedback] })

/-- How far the handling of one feedback submission has got. -/
inductive FeedbackPhase where
  | start
  | checked (feedback : Feedback)
  | done (response : Response)
  deriving DecidableEq, Repr

/-- One step of the handling of a feedback submission: from `start` the
validation and the queries, from `checked` the save. -/
def feedbackAdvance (req : FeedbackReq) (st : Store) (phase : FeedbackPhase) :
    FeedbackPhase × Store :=
  match phase with
  | .start =>
    match feedbackCheck req.newId req.now st req.user req.body with
    | .answered response => (.done response, st)
    | .ready feedback => (.checked feedback, st)
  | .checked feedback => ((.done (feedbackSave st feedback).1), (feedbackSave st feedback).2)
  | .done response => (.done response, st)

/-- Two feedback submissions handled concurrently: the store and the phase of
each. -/
structure FeedbackRace where
  st : Store
  first : FeedbackPhase
  second : FeedbackPhase
  deriving DecidableEq, Repr

/-- The race after a schedule: `false` lets the first submission take its next
step, `true` the second. -/
def runRace (a b : FeedbackReq) (race : FeedbackRace) (schedule : List Bool) : FeedbackRace :=
  schedule.foldl (fun r who =>
    if who then
      { r with st := (feedbackAdvance b r.st r.second).2,
               second := (feedbackAdvance b r.st r.second).1 }
    else
      { r with st := (feedbackAdvance a r.st r.first).2,
               first := (feedbackAdvance a r.st r.first).1 }) race

/-- Handler `router.get('/check/:topicId', auth, ...)` of routes/feedback.js. -/
def checkFeedback (st : Store) (user : AuthUser) (topicId : ObjectId) : Response × Store :=
  let feedback := findOne (fun f : Feedback =>
    f.userId = user.userId && f.topicId = topicId) st.feedback
  (⟨200, .feedbackCheck feedback.isSome
      (feedback.map (fun f => (f.rating, f.comment, f.createdAt)))⟩, st)

/-! ## routes/users.js -/

/-- The file object multer passes to `fileFilter`, with the size of the
upload. -/
structure UploadedFile where
  originalname : String
  mimetype : String
  size : Nat
  deriving DecidableEq, Repr

/-- Whether `pat` occurs in `s` as a run of consecutive characters. -/
def hasSubstr (pat s : List Char) : Bool :=
  s.tails.any (fun t => pat.isPrefixOf t)

/-- The call `path.extname(p)`: from the last dot of the last portion of the
path to its end; empty when that portion has no dot, or none after its first
character. -/
def extname (p : String) : String :=
  let trimmed := (p.toList.reverse.dropWhile (fun c => c = '/')).reverse
  let base := (trimmed.reverse.takeWhile (fun c => c ≠ '/')).reverse
  let afterDot := (base.reverse.takeWhile (fun c => c ≠ '.')).reverse
  if afterDot.length = base.length then ""
  else if base.length - afterDot.length - 1 = 0 then ""
  else if base = ['.', '.'] then ""
  else String.mk ('.' :: afterDot)

/-- The test `/jpeg|jpg|png|gif/.test(s)`. -/
def allowedTypes (s : String) : Bool :=
  hasSubstr "jpeg".toList s.toList || hasSubstr "jpg".toList s.toList ||
    hasSubstr "png".toList s.toList || hasSubstr "gif".toList s.toList

/-- The `fileFilter` of the avatar upload: `true` when the file is passed
on, `false` when the callback gets the error 'Only image files are
allowed!'. -/
def fileFilter (toLowerCase : String → String) (file : UploadedFile) : Bool :=
  let extnameOk := allowedTypes (toLowerCase (extname file.originalname))
  let mimetypeOk := allowedTypes file.mimetype
  extnameOk && mimetypeOk

/-- Handler `router.post('/avatar', auth, ...)`: the multer upload with its
filter and its 5 MB limit, then the update of `profile.avatar`.
`uniqueSuffix` is the time-and-random part of the generated file name. -/
def uploadAvatar (toLowerCase : String → String) (uniqueSuffix : String) (st : Store)
    (user : AuthUser) (file : Option UploadedFile) : Response × Store :=
  match file with
  | none => (⟨400, .message "No file uploaded"⟩, st)
  | some file =>
    if !fileFilter toLowerCase file then
      (⟨400, .message "Only image files are allowed!"⟩, st)
    else if file.size > 5 * 1024 * 1024 then (⟨400, .message "File too large"⟩, st)
    else
      let filename := "avatar-" ++ uniqueSuffix ++ extname file.originalname
      let avatarPath := "/uploads/avatars/" ++ filename
      (⟨200, .avatarUploaded "Avatar uploaded successfully" avatarPath⟩,
        { st with users := st.users.map (fun u =>
            if u._id = user.userId then { u with profileAvatar := some avatarPath } else u) })

/-! ## Requests that do not delete a question -/

/-- A request after a question was stored, among those that do not delete it:
a status update, a topic update, a feedback submission, a listing. -/
inductive LaterReq where
  | statusUpdate (user : AuthUser) (questionId : ObjectId) (status : String)
  | topicUpdate (user : AuthUser) (topicId : ObjectId) (body : TopicPatch)
  | feedback (user : AuthUser) (newId : ObjectId) (now : Date) (body : FeedbackBody)
  | listing (user : AuthUser)
  deriving DecidableEq, Repr

/-- The store after one such request. -/
def laterStep (st : Store) : LaterReq → Store
  | .statusUpdate user questionId status => (patchQuestionStatus st user questionId status).2
  | .topicUpdate user topicId body => (patchTopic st user topicId body).2
  | .feedback user newId now body => (submitFeedback newId now st user body).2
  | .listing user => (getSpeakerQuestions st user).2

/-- The store after a sequence of such requests. -/
def runLater (st : Store) (reqs : List LaterReq) : Store :=
  reqs.foldl laterStep st

/-- A question without its status: every other field. -/
def Question.withoutStatus (q : Question) : Question := { q with status := "" }

/-! ## frontend/src/pages/SpeakerDashboard.jsx -/

/-- A question as the dashboard keeps it after `fetchTopicsAndQuestions`: the
fields that `getSortedQuestions` reads. -/
structure DashQuestion where
  _id : ObjectId
  topic : Option String
  isRelevant : Bool
  content : String
  status : String
  createdAt : Date
  deriving DecidableEq, Repr

/-- Reading `statusOrder[status]` as a number; `none` is a value that is no
number (undefined for a key the object lacks), with which the difference is
NaN. -/
def statusOrder (status : String) : Option Int :=
  if status = "approved" then some (-1)
  else if status = "pending" then some 0
  else if status = "rejected" then some 1
  else none

/-- The comparator passed to `sort`; `none` is NaN. -/
def compareQuestions (sortBy : String) (a b : DashQuestion) : Option Int :=
  if sortBy = "latest" then some ((b.createdAt : Int) - (a.createdAt : Int))
  else if sortBy = "earliest" then some ((a.createdAt : Int) - (b.createdAt : Int))
  else if sortBy = "status" then
    match statusOrder a.status, statusOrder b.status with
    | some x, some y => some (x - y)
    | _, _ => none
  else some 0

/-- Whether `sort` may leave `a` before `b`: the comparator's value is not
positive (NaN counts as zero). -/
def notAfter (compare : DashQuestion → DashQuestion → Option Int) (a b : DashQuestion) : Bool :=
  match compare a b with
  | some v => decide (v ≤ 0)
  | none => true

/-- The method `Array.prototype.sort(compare)`, a stable sort: for a
comparator that orders the elements consistently the result is the one stable
sorted arrangement, which insertion sort computes. -/
def jsSort (compare : DashQuestion → DashQuestion → Option Int) (l : List DashQuestion) :
    List DashQuestion :=
  l.insertionSort (fun a b => notAfter compare a b = true)

/-- The method `String.prototype.includes`. -/
def jsIncludes (s pat : String) : Bool := hasSubstr pat.toList s.toList

/-- The names of the properties of `Object.prototype`.  Reading one of them
from a plain object that has no own property of that name gives the inherited
value, a function (the prototype object for `__proto__`), which is truthy. -/
def objectPrototypeKeys : List String :=
  ["constructor", "__defineGetter__", "__defineSetter__", "hasOwnProperty",
   "__lookupGetter__", "__lookupSetter__", "isPrototypeOf", "propertyIsEnumerable",
   "toString", "valueOf", "__proto__", "toLocaleString"]

/-- The expression `sortByMap[topicName] || 'latest'`, where `sortByMap` gives
the own properties of the state object (the choices made with the selector,
which are strings): `none` is an inherited value, which is no string. -/
def sortByOf (sortByMap : String → Option String) (topicName : String) : Option String :=
  match sortByMap topicName with
  | some v => if v = "" then some "latest" else some v
  | none => if topicName ∈ objectPrototypeKeys then none else some "latest"

/-- The function `getSortedQuestions(questions, topicName)` of the dashboard;
`searchQuery` and `sortByMap` are the component state it reads.  A `sortBy`
that is no string reaches the `default` case of the switch, whose value is
0. -/
def getSortedQuestions (toLowerCase : String → String) (searchQuery : String)
    (sortByMap : String → Option String) (questions : List DashQuestion)
    (topicName : String) : List DashQuestion :=
  let topicQuestions := questions.filter (fun q => q.topic = some topicName)
  let filteredQuestions := topicQuestions.filter (fun q => q.isRelevant = true)
  let filteredQuestions :=
    if searchQuery ≠ "" then
      filteredQuestions.filter (fun q =>
        jsIncludes (toLowerCase q.content) (toLowerCase searchQuery))
    else filteredQuestions
  let sortBy := sortByOf sortByMap topicName
  jsSort (fun a b =>
    match sortBy with
    | some mode => compareQuestions mode a b
    | none => some 0) filteredQuestions

/-! ## frontend/src/pages/QuestionSubmission.jsx -/

/-- A JavaScript value as far as the feedback flag needs it. -/
inductive JsValue where
  | undefined
  | null
  | bool (b : Bool)
  | object
  deriving DecidableEq, Repr

/-- Reading the property `key` of `response.data` for an answer of
`GET /feedback/check/:topicId`, whose body has exactly the properties
`exists` and `feedback`. -/
def feedbackCheckProp (response : Response) (key : String) : JsValue :=
  match response.body with
  | .feedbackCheck found feedback =>
    if key = "exists" then .bool found
    else if key = "feedback" then (if feedback.isSome then .object else .null)
    else .undefined
  | _ => .undefined

/-- The value that `handleSubmit` stores in `hasProvidedFeedback` under the
topic id after the submission succeeded: `feedbackResponse.data.hasFeedback`.
`none` when the submission fails and the map is left alone. -/
def handleSubmitFeedbackFlag (predict : PredictRequest → HttpOutcome) (newId : ObjectId)
    (now : Date) (st : Store) (user : AuthUser) (body : SubmitBody) : Option JsValue :=
  let r := submitQuestion predict newId now st user body
  if 200 ≤ r.response.status ∧ r.response.status < 300 then
    some (feedbackCheckProp (checkFeedback r.store user body.topicId).1 "hasFeedback")
  else none

/-- The value that `checkExistingFeedback` and the effect on
`lastSubmittedTopic` store: `response.data.exists`. -/
def checkExistingFeedbackFlag (st : Store) (user : AuthUser) (topicId : ObjectId) : JsValue :=
  feedbackCheckProp (checkFeedback st user topicId).1 "exists"

/-! ## frontend/src/utils/dateUtils.js -/

/-- The calendar fields a `Date` getter returns; `month` counts from 0. -/
structure DateFields where
  year : Int
  month : Nat
  date : Nat
  hours : Nat
  minutes : Nat
  deriving DecidableEq, Repr

/-- The browser's calendar: the fields in UTC of an instant (milliseconds
since the epoch) and the value of `getTimezoneOffset()` in minutes of the Date
at an instant, which changes with daylight saving time. -/
structure Clock where
  utcFields : Int → DateFields
  timezoneOffset : Int → Int

/-- The local-time getters `getDate`, `getMonth`, `getFullYear`, `getHours`,
`getMinutes` of the Date at instant `time`: the fields of the local time,
which is behind UTC by the offset in force at that instant. -/
def localFields (clock : Clock) (time : Int) : DateFields :=
  clock.utcFields (time - clock.timezoneOffset time * 60000)

/-- The call `s.padStart(2, '0')`. -/
def padStart2 (s : String) : String :=
  String.mk (List.replicate (2 - s.length) '0') ++ s

/-- The function `formatDateTime(dateString)`; `time` is `date.getTime()` of
the parsed date. -/
def formatDateTime (clock : Clock) (time : Int) : String :=
  let utcDate := time + clock.timezoneOffset time * 60000
  let day := padStart2 (toString (localFields clock utcDate).date)
  let month := padStart2 (toString ((localFields clock utcDate).month + 1))
  let year := (localFields clock utcDate).year
  let formattedDate := day ++ "-" ++ month ++ "-" ++ toString year
  let hours := (localFields clock utcDate).hours
  let minutes := padStart2 (toString (localFields clock utcDate).minutes)
  let ampm := if hours ≥ 12 then "PM" else "AM"
  let hours := hours % 12
  let hours := if hours ≠ 0 then hours else 12
  let formattedTime := toString hours ++ ":" ++ minutes ++ " " ++ ampm
  formattedDate ++ " " ++ formattedTime

/-! ## Example data -/

/-- The number 0.9, in lowest terms. -/
def num09 : ℚ := ⟨9, 10, by decide, by decide⟩

/-- The number 0.1, in lowest terms. -/
def num01 : ℚ := ⟨1, 10, by decide, by decide⟩

/-- The number 0.5, in lowest terms. -/
def num05 : ℚ := ⟨1, 2, by decide, by decide⟩

/-- A speaker account. -/
def exSpeaker : User := ⟨1, "ada@conf.org", "hash1", "speaker", none, none, none, none⟩

/-- A second speaker account. -/
def exSpeaker2 : User := ⟨2, "bob@conf.org", "hash2", "speaker", none, none, none, none⟩

/-- A listener account. -/
def exListener : User := ⟨3, "eve@mail.org", "hash3", "listener", none, none, none, none⟩

/-- A topic of the first speaker. -/
def exTopic : Topic := ⟨10, "Intro to Systems", 1, ⟨"Ada", 1000, 60, none⟩, 1000, 2000, "upcoming"⟩

/-- A topic of the second speaker. -/
def exTopic2 : Topic := ⟨11, "Databases", 2, ⟨"Bob", 3000, 60, none⟩, 3000, 4000, "upcoming"⟩

/-- An anonymous question on the first topic. -/
def exQuestion : Question :=
  ⟨20, 3, 10, 1, "What is your opinion?", "pending", true, "", "eve@mail.org", 500, true, num09, 2⟩

/-- A signed question on the first topic. -/
def exQuestion2 : Question :=
  ⟨21, 3, 10, 1, "Why?", "pending", false, "Eve", "eve@mail.org", 600, false, num01, 0⟩

/-- A question on the second topic. -/
def exQuestion3 : Question :=
  ⟨22, 3, 11, 2, "How?", "pending", false, "Eve", "eve@mail.org", 700, true, num05, 1⟩

/-- Feedback on the first topic. -/
def exFeedback : Feedback := ⟨30, 3, 10, 5, "Great", 800⟩

/-- Feedback on the second topic. -/
def exFeedback2 : Feedback := ⟨31, 3, 11, 4, "Good", 900⟩

/-- A store with two speakers, a topic each, three questions and feedback. -/
def exStore : Store :=
  ⟨[exSpeaker, exSpeaker2, exListener], [exTopic, exTopic2],
   [exQuestion, exQuestion2, exQuestion3], [exFeedback, exFeedback2]⟩

/-- The request context of the first speaker. -/
def exAuth : AuthUser := ⟨1, "speaker"⟩

/-- The request context of the second speaker. -/
def exAuth2 : AuthUser := ⟨2, "speaker"⟩

/-- The request context of the listener. -/
def exAuthListener : AuthUser := ⟨3, "listener"⟩

/-- A classifier that answers every request with 200 and a relevant verdict. -/
def exPredict : PredictRequest → HttpOutcome :=
  fun _ => .answered 200 (some ⟨some "Relevant", some num09, some 2⟩)

/-- A classifier that cannot be reached. -/
def exPredictDown : PredictRequest → HttpOutcome := fun _ => .networkError

/-- An anonymous submission by the listener to the first topic. -/
def exBody : SubmitBody :=
  ⟨10, 1, some "What is your opinion?", some true, some "Eve", some "eve@mail.org"⟩

/-- A signed submission by the listener to the first topic. -/
def exBodySigned : SubmitBody :=
  ⟨10, 1, some "What is your opinion?", some false, some "Eve", some "eve@mail.org"⟩

/-- A submission that names the first topic with the wrong speaker. -/
def exBodyWrongSpeaker : SubmitBody :=
  ⟨10, 2, some "What is your opinion?", some true, some "Eve", some "eve@mail.org"⟩

/-- The question stored for `exBody` with id 23 at time 1000. -/
def exCreated : Question :=
  ⟨23, 3, 10, 1, "What is your opinion?", "pending", true, "", "eve@mail.org", 1000, true,
    num09, 2⟩

/-- The `questionsByTopic` object the first speaker receives for `exStore`. -/
def exListing : List (String × TopicGroup) :=
  [("Intro to Systems",
    ⟨[processQuestion (populate exStore exQuestion)],
     [processQuestion (populate exStore exQuestion2)]⟩)]

/-- A store whose only question is anonymous. -/
def exAnonStore : Store := ⟨[exSpeaker, exListener], [exTopic], [exQuestion], []⟩

/-- The same store after the submitter's account email, and the name and
email kept on the anonymous question, are replaced. -/
def exAnonStore2 : Store :=
  ⟨[exSpeaker, { exListener with email := "mallory@mail.org" }], [exTopic],
   [{ exQuestion with username := "Mallory", userEmail := "mallory@mail.org" }], []⟩

/-- The lower-case mapping on strings whose cased characters are all ASCII,
where `toLowerCase` turns A-Z into a-z and keeps every other character; it
stands for `toLowerCase` in the examples, whose strings are ASCII. -/
def exToLowerCase (s : String) : String :=
  String.mk (s.toList.map Char.toLower)

/-- A stand-in for `bcrypt.hash` with a fixed salt. -/
def exHash : String → String := fun password => "$2a$10$" ++ password

/-- A stand-in for `bcrypt.compare` matching `exHash`. -/
def exCompare : String → String → Bool := fun password stored => stored = exHash password

/-- A store whose accounts were registered through `exHash`. -/
def exAccounts : Store :=
  ⟨[⟨1, "ada@conf.org", exHash "secret1", "speaker", none, none, none, none⟩], [], [], []⟩

/-- A registration of a new listener account. -/
def exRegBody : CredentialsBody := ⟨some "Eve@mail.org", some "pw", some "listener"⟩

/-- The login of the stored speaker account. -/
def exLoginBody : CredentialsBody := ⟨some "Ada@conf.org", some "secret1", some "speaker"⟩

/-- A complete body for a new topic of the first speaker. -/
def exTopicBody : CreateTopicBody :=
  ⟨some " Networks ", some ⟨some "Ada", .date 5000, none⟩, .date 5000, .date 9000⟩

/-- The same body without `startTime`. -/
def exTopicBodyNoStart : CreateTopicBody :=
  ⟨some " Networks ", some ⟨some "Ada", .date 5000, none⟩, .missing, .date 9000⟩

/-- A body for `PATCH /topics/:id` that carries only a speakerId. -/
def exGiveAway : TopicPatch := ⟨none, some 2, none, none, none, none⟩

/-- A create, a refused rename onto an existing (speakerId, name) pair and a
delete. -/
def exTopicReqs : List TopicReq :=
  [.create exAuth 12 exTopicBody,
   .patch exAuth 12 ⟨some "Databases", some 2, none, none, none, none⟩,
   .delete exAuth 10]

/-- A create by the first speaker followed by a PATCH of the new topic whose
body carries another speakerId. -/
def exCreateThenGiveAway : List TopicReq :=
  [.create exAuth 12 exTopicBody, .patch exAuth 12 exGiveAway]

/-- The UTC calendar fields of an instant at or after the epoch, in the
Gregorian calendar. -/
def exUtcFields (time : Int) : DateFields :=
  let minutes := time.toNat / 60000
  let days := minutes / 1440
  let z := days + 719468
  let era := z / 146097
  let doe := z - era * 146097
  let yoe := (doe - doe / 1460 + doe / 36524 - doe / 146096) / 365
  let doy := doe - (365 * yoe + yoe / 4 - yoe / 100)
  let mp := (5 * doy + 2) / 153
  let d := doy - (153 * mp + 2) / 5 + 1
  let m := if mp < 10 then mp + 3 else mp - 9
  let y := yoe + era * 400 + (if m ≤ 2 then 1 else 0)
  ⟨(y : Int), m - 1, d, (minutes % 1440) / 60, minutes % 60⟩

/-- The instant 2025-03-05T00:07:00Z. -/
def exInstant : Int := 1741133220000

/-- A browser in a zone five and a half hours ahead of UTC all year. -/
def exClock : Clock := ⟨exUtcFields, fun _ => -330⟩

/-- The instant 2025-03-09T03:30:00Z. -/
def exInstantSpring : Int := 1741491000000

/-- A browser in the zone America/New_York in 2025: five hours behind UTC
until 2025-03-09T07:00:00Z, four hours behind from then until
2025-11-02T06:00:00Z, then five again. -/
def exClockNewYork : Clock :=
  ⟨exUtcFields, fun time =>
    if 1741503600000 ≤ time ∧ time < 1762063200000 then 240 else 300⟩

/-- Three questions of one topic and one of another, as the dashboard keeps
them. -/
def exDash : List DashQuestion :=
  [⟨20, some "Intro to Systems", true, "What is your Opinion?", "pending", 500⟩,
   ⟨21, some "Intro to Systems", false, "Why?", "pending", 600⟩,
   ⟨23, some "Intro to Systems", true, "Any opinion on caches?", "approved", 700⟩,
   ⟨24, some "Intro to Systems", true, "How fast?", "rejected", 650⟩,
   ⟨22, some "Databases", true, "How?", "pending", 700⟩]

/-- Three relevant questions of a topic named 'constructor', as the dashboard
keeps them. -/
def exDashConstructor : List DashQuestion :=
  [⟨20, some "constructor", true, "What is your Opinion?", "pending", 500⟩,
   ⟨23, some "constructor", true, "Any opinion on caches?", "approved", 700⟩,
   ⟨24, some "constructor", true, "How fast?", "rejected", 650⟩]

/-- A complete body for a new topic named `__proto__`. -/
def exTopicBodyProto : CreateTopicBody :=
  ⟨some "__proto__", some ⟨some "Ada", .date 5000, none⟩, .date 5000, .date 9000⟩

/-- The topic that `exTopicBodyProto` creates for the first speaker with id
12. -/
def exTopicProto : Topic :=
  ⟨12, "__proto__", 1, ⟨"Ada", 5000, 60, none⟩, 5000, 9000, "upcoming"⟩

/-- A relevant question on the topic named `__proto__`. -/
def exQuestionProto : Question :=
  ⟨25, 3, 12, 1, "When?", "pending", false, "Eve", "eve@mail.org", 900, true, num05, 1⟩

/-- The example store with the topic named `__proto__` and its question. -/
def exStoreProto : Store :=
  ⟨[exSpeaker, exSpeaker2, exListener], [exTopic, exTopic2, exTopicProto],
   [exQuestion, exQuestion2, exQuestion3, exQuestionProto], [exFeedback, exFeedback2]⟩

/-- The `questionsByTopic` object the first speaker receives for
`exStoreProto`. -/
def exListingProto : List (String × TopicGroup) :=
  [("Intro to Systems",
    ⟨[processQuestion (populate exStoreProto exQuestion)],
     [processQuestion (populate exStoreProto exQuestion2)]⟩)]

/-- A status update, a topic rename, a feedback submission and a listing. -/
def exLaterReqs : List LaterReq :=
  [.statusUpdate exAuth 20 "approved",
   .topicUpdate exAuth 10 ⟨some "Systems", none, none, none, none, none⟩,
   .feedback exAuth 32 1000 ⟨some 10, some 4, some "Nice"⟩,
   .listing exAuth]

/-- A submission without content to the first topic. -/
def exBodyNoContent : SubmitBody :=
  ⟨10, 1, none, some true, some "Eve", some "eve@mail.org"⟩

/-- A valid feedback body for a topic id that is not stored. -/
def exFeedbackNoTopic : FeedbackBody := ⟨some 99, some 4, some "Nice"⟩

/-- Two valid feedback submissions of the first speaker for the first topic. -/
def exRaceA : FeedbackReq := ⟨exAuth, 32, 1000, ⟨some 10, some 4, some "Nice"⟩⟩

/-- The second of the two submissions. -/
def exRaceB : FeedbackReq := ⟨exAuth, 33, 1001, ⟨some 10, some 5, some "Again"⟩⟩

/-! ## Theorems -/

/-- Removing the first document with a given `_id` removes every such document
when ids are unique. -/
theorem eraseP_id_eq_filter {α : Type} (f : α → ObjectId) (a : ObjectId) (l : List α)
    (h : (l.map f).Nodup) :
    l.eraseP (fun d => decide (f d = a)) = l.filter (fun d => !decide (f d = a)) := by
  induction l with
  | nil => rfl
  | cons x xs ih =>
    rw [List.map_cons, List.nodup_cons] at h
    by_cases hx : f x = a
    · have hnot : ∀ y ∈ xs, f y ≠ a := by
        intro y hy hya
        exact h.1 (List.mem_map.2 ⟨y, hy, by rw [hya, hx]⟩)
      have hfil : xs.filter (fun d => !decide (f d = a)) = xs :=
        List.filter_eq_self.2 (fun y hy => by simpa using hnot y hy)
      simp [List.eraseP_cons, hx, hfil]
    · simp [List.eraseP_cons, hx, ih h.2]

/-- The ownership query of the topic routes finds a topic exactly when the
stored topic with that id belongs to the requester. -/
theorem findOne_owned_topic (st : Store) (uid T : ObjectId) (t : Topic)
    (ht : t ∈ st.topics) (hid : t._id = T) (hown : t.speakerId = uid) :
    ∃ topic, findOne (fun t : Topic => t._id = T && t.speakerId = uid) st.topics = some topic ∧
      topic._id = T ∧ topic.speakerId = uid ∧ topic ∈ st.topics := by
  unfold findOne
  cases hf : st.topics.find? (fun t : Topic => t._id = T && t.speakerId = uid) with
  | none =>
    rw [List.find?_eq_none] at hf
    have := hf t ht
    simp [hid, hown] at this
  | some topic =>
    have hp := List.find?_some hf
    have hm := List.mem_of_find?_eq_some hf
    simp at hp
    exact ⟨topic, rfl, hp.1, hp.2, hm⟩

/-- C1: for a topic T owned by the requesting speaker, DELETE /topics/T
answers 200 and leaves exactly the questions and feedback whose topicId is not
T and the topics other than T, every remaining record unchanged and in place;
the reported deletedQuestions and deletedFeedback are the numbers of questions
and feedback records with topicId T, which are the numbers removed. -/
theorem deleteTopic_cascade (st : Store) (user : AuthUser) (T : ObjectId) (t : Topic)
    (hwf : st.WF) (hrole : user.role = "speaker")
    (ht : t ∈ st.topics) (hid : t._id = T) (hown : t.speakerId = user.userId) :
    (deleteTopic st user T).1 =
        ⟨200, .topicDeleted "Topic and all associated data deleted successfully"
          (st.questions.filter (fun q => q.topicId = T)).length
          (st.feedback.filter (fun f => f.topicId = T)).length⟩ ∧
      (deleteTopic st user T).2.questions = st.questions.filter (fun q => q.topicId ≠ T) ∧
      (deleteTopic st user T).2.feedback = st.feedback.filter (fun f => f.topicId ≠ T) ∧
      (deleteTopic st user T).2.topics = st.topics.filter (fun t => t._id ≠ T) ∧
      (deleteTopic st user T).2.users = st.users ∧
      (st.questions.filter (fun q => q.topicId = T)).length +
        (deleteTopic st user T).2.questions.length = st.questions.length ∧
      (st.feedback.filter (fun f => f.topicId = T)).length +
        (deleteTopic st user T).2.feedback.length = st.feedback.length := by
  obtain ⟨topic, hfind, htid, -, -⟩ := findOne_owned_topic st user.userId T t ht hid hown
  have hq := st.questions.length_eq_length_filter_add (fun q => decide (q.topicId = T))
  have hf := st.feedback.length_eq_length_filter_add (fun f => decide (f.topicId = T))
  have he := eraseP_id_eq_filter (fun t : Topic => t._id) T st.topics hwf.topicIds
  simp only [deleteTopic, speakerAuth, hrole, hfind, deleteMany, deleteOne, Question.topic, htid]
  simp [he]
  omega

/-- C1, at an instance: the first speaker deletes their topic from the example
store. -/
theorem deleteTopic_cascade_witness :
    (deleteTopic exStore exAuth 10).1 =
        ⟨200, .topicDeleted "Topic and all associated data deleted successfully"
          (exStore.questions.filter (fun q => q.topicId = 10)).length
          (exStore.feedback.filter (fun f => f.topicId = 10)).length⟩ ∧
      (deleteTopic exStore exAuth 10).2.questions =
        exStore.questions.filter (fun q => q.topicId ≠ 10) ∧
      (deleteTopic exStore exAuth 10).2.feedback =
        exStore.feedback.filter (fun f => f.topicId ≠ 10) ∧
      (deleteTopic exStore exAuth 10).2.topics = exStore.topics.filter (fun t => t._id ≠ 10) ∧
      (deleteTopic exStore exAuth 10).2.users = exStore.users ∧
      (exStore.questions.filter (fun q => q.topicId = 10)).length +
        (deleteTopic exStore exAuth 10).2.questions.length = exStore.questions.length ∧
      (exStore.feedback.filter (fun f => f.topicId = 10)).length +
        (deleteTopic exStore exAuth 10).2.feedback.length = exStore.feedback.length :=
  deleteTopic_cascade exStore exAuth 10 exTopic ⟨by decide, by decide, by decide⟩
    (by decide) (by decide) (by decide) (by decide)

/-- The ownership query of the topic routes finds nothing when the stored
topic with that id belongs to somebody else. -/
theorem findOne_foreign_topic (st : Store) (uid T : ObjectId) (t : Topic)
    (hwf : st.WF) (ht : t ∈ st.topics) (hid : t._id = T) (hown : t.speakerId ≠ uid) :
    findOne (fun t : Topic => t._id = T && t.speakerId = uid) st.topics = none := by
  unfold findOne
  rw [List.find?_eq_none]
  intro d hd hp
  simp at hp
  have hdt : d = t :=
    List.inj_on_of_nodup_map hwf.topicIds hd ht (by simp [hp.1, hid])
  exact hown (hdt ▸ hp.2)

/-- C2: when topic T belongs to speaker S and another authenticated speaker
sends PATCH /topics/T (with any body) or DELETE /topics/T, the answer is 404
'Topic not found or unauthorized' and the store is unchanged. -/
theorem topic_write_by_other_speaker_404 (st : Store) (user : AuthUser) (T : ObjectId)
    (t : Topic) (body : TopicPatch)
    (hwf : st.WF) (hrole : user.role = "speaker")
    (ht : t ∈ st.topics) (hid : t._id = T) (hown : t.speakerId ≠ user.userId) :
    patchTopic st user T body = (⟨404, .message "Topic not found or unauthorized"⟩, st) ∧
      deleteTopic st user T = (⟨404, .message "Topic not found or unauthorized"⟩, st) := by
  have hfind := findOne_foreign_topic st user.userId T t hwf ht hid hown
  constructor
  · simp only [patchTopic, speakerAuth, hrole, hfind]
    simp
  · simp only [deleteTopic, speakerAuth, hrole, hfind]
    simp

/-- C2, at an instance: the second speaker tries to rename and to delete the
first speaker's topic. -/
theorem topic_write_by_other_speaker_404_witness :
    patchTopic exStore exAuth2 10 ⟨some "Mine now", some 2, none, none, none, none⟩ =
        (⟨404, .message "Topic not found or unauthorized"⟩, exStore) ∧
      deleteTopic exStore exAuth2 10 =
        (⟨404, .message "Topic not found or unauthorized"⟩, exStore) :=
  topic_write_by_other_speaker_404 exStore exAuth2 10 exTopic
    ⟨some "Mine now", some 2, none, none, none, none⟩
    ⟨by decide, by decide, by decide⟩ (by decide) (by decide) (by decide) (by decide)

/-- Whenever the speaker gate answers, it answers 403. -/
theorem speakerAuth_denied_status (user : Option AuthUser) (denied : Response)
    (h : speakerAuth user = some denied) : denied.status = 403 := by
  unfold speakerAuth at h
  split at h
  · simp at h; rw [← h]
  · split at h
    · simp at h; rw [← h]
    · simp at h

/-- C3: the speaker who owns a question's topic is refused.  In the example
store the first speaker owns the topic of the stored question 20, and
DELETE /questions/20 by that speaker answers 403 and removes nothing; indeed
no request to this route ever changes the store. -/
theorem deleteQuestion_owner_rejected :
    exQuestion ∈ exStore.questions ∧ exTopic ∈ exStore.topics ∧
      exQuestion.topicId = exTopic._id ∧ exTopic.speakerId = exAuth.userId ∧
      exAuth.role = "speaker" ∧
      deleteQuestion exStore exAuth exQuestion._id =
        (⟨403, .message "You can only delete questions for your own topics"⟩, exStore) ∧
      ∀ (st : Store) (user : AuthUser) (questionId : ObjectId),
        (deleteQuestion st user questionId).2 = st ∧
          (deleteQuestion st user questionId).1.status ≠ 200 := by
  refine ⟨by decide, by decide, by decide, by decide, by decide, by decide, ?_⟩
  intro st user questionId
  unfold deleteQuestion
  cases hgate : speakerAuth (some user) with
  | some denied =>
    simp [speakerAuth_denied_status _ _ hgate]
  | none =>
    cases findOne (fun q : Question => q._id = questionId) st.questions with
    | none => simp
    | some question => simp [Question.topic]

/-- The method `analyzeQuestion` returns a result exactly when the classifier answered
with a 2xx status and a body, and the result translates that body. -/
theorem analyzeQuestion_eq_some (predict : PredictRequest → HttpOutcome)
    (question : Option String) (topic : String) (ai : Analysis)
    (h : analyzeQuestion predict question topic = some ai) :
    ∃ code data, predict ⟨question, topic⟩ = .answered code (some data) ∧
      200 ≤ code ∧ code < 300 ∧
      ai = ⟨decide (data.result = some "Relevant"), data.confidence, data.score⟩ := by
  unfold analyzeQuestion axiosPost at h
  cases hp : predict ⟨question, topic⟩ with
  | networkError => simp [hp] at h
  | answered code data =>
    rw [hp] at h
    by_cases hc : 200 ≤ code ∧ code < 300
    · cases data with
      | none => simp [hc] at h
      | some d =>
        simp [hc] at h
        exact ⟨code, d, rfl, hc.1, hc.2, h.symm⟩
    · simp [hc] at h

/-- The fields of a question that passed validation. -/
theorem newQuestion_eq_some (newId : ObjectId) (now : Date) (user : AuthUser) (topic : Topic)
    (body : SubmitBody) (ai : Analysis) (q : Question)
    (h : newQuestion newId now user topic body ai = some q) :
    body.content = some q.content ∧ body.userEmail = some q.userEmail ∧
      q.content ≠ "" ∧ q.userEmail ≠ "" ∧ q._id = newId ∧ q.userId = user.userId ∧
      q.topicId = topic._id ∧ q.speakerId = body.speakerId ∧ q.status = "pending" ∧
      q.isAnonymous = body.isAnonymous.getD true ∧
      q.username = (if truthy body.isAnonymous then some "" else body.username).getD "" ∧
      q.createdAt = now ∧ q.isRelevant = ai.isRelevant ∧
      q.confidence = ai.confidence.getD 0 ∧ q.score = ai.score.getD 0 := by
  unfold newQuestion at h
  split at h
  · rename_i content userEmail hc he
    split at h
    · rename_i hne
      simp at h
      subst h
      simp [hc, he, hne.1, hne.2]
    · simp at h
  · simp at h

/-- A submission answered 201 went through every step of the handler: the
topic was found, the classifier returned a result, the question passed
validation and was appended to the store. -/
theorem submitQuestion_created (predict : PredictRequest → HttpOutcome) (newId : ObjectId)
    (now : Date) (st : Store) (user : AuthUser) (body : SubmitBody)
    (hok : (submitQuestion predict newId now st user body).response.status = 201) :
    ∃ topic ai q,
      findOne (fun t : Topic => t._id = body.topicId && t.speakerId = body.speakerId)
        st.topics = some topic ∧
      analyzeQuestion predict body.content topic.name = some ai ∧
      newQuestion newId now user topic body ai = some q ∧
      submitQuestion predict newId now st user body =
        ⟨⟨201, .question q⟩, { st with questions := st.questions ++ [q] },
          [⟨body.content, topic.name⟩]⟩ := by
  unfold submitQuestion at hok ⊢
  cases hf : findOne (fun t : Topic => t._id = body.topicId && t.speakerId = body.speakerId)
      st.topics with
  | none => simp [hf] at hok
  | some topic =>
    cases ha : analyzeQuestion predict body.content topic.name with
    | none => simp [hf, ha] at hok
    | some ai =>
      cases hn : newQuestion newId now user topic body ai with
      | none => simp [hf, ha, hn] at hok
      | some q =>
        by_cases hdup : st.questions.any (fun q => q._id = newId) = true
        · simp only [hf, ha, hn, hdup] at hok
          simp at hok
        · refine ⟨topic, ai, q, rfl, ha, hn, ?_⟩
          simp only [ha, hn, hdup]
          simp

/-- The topic found by the submission query is the stored topic named by the
body. -/
theorem findOne_submit_topic (st : Store) (body : SubmitBody) (topic : Topic)
    (h : findOne (fun t : Topic => t._id = body.topicId && t.speakerId = body.speakerId)
      st.topics = some topic) :
    topic ∈ st.topics ∧ topic._id = body.topicId ∧ topic.speakerId = body.speakerId := by
  unfold findOne at h
  have hp := List.find?_some h
  simp at hp
  exact ⟨List.mem_of_find?_eq_some h, hp.1, hp.2⟩

/-- C4: every submission answered 201 named a stored topic, sent exactly one
classifier request carrying the submitted text and that topic's stored name,
received a 2xx answer with a body, and appended one question whose isRelevant
is true exactly when the answer's result is the string "Relevant" and whose
confidence and score are the answer's (0 for a value the answer lacks). -/
theorem submitQuestion_mirrors_classifier (predict : PredictRequest → HttpOutcome)
    (newId : ObjectId) (now : Date) (st : Store) (user : AuthUser) (body : SubmitBody)
    (hok : (submitQuestion predict newId now st user body).response.status = 201) :
    ∃ topic q code data,
      topic ∈ st.topics ∧ topic._id = body.topicId ∧ topic.speakerId = body.speakerId ∧
      body.content = some q.content ∧
      (submitQuestion predict newId now st user body).aiCalls =
        [⟨some q.content, topic.name⟩] ∧
      predict ⟨some q.content, topic.name⟩ = .answered code (some data) ∧
      200 ≤ code ∧ code < 300 ∧
      (submitQuestion predict newId now st user body).response.body = .question q ∧
      (submitQuestion predict newId now st user body).store =
        { st with questions := st.questions ++ [q] } ∧
      q.topicId = topic._id ∧
      q.isRelevant = decide (data.result = some "Relevant") ∧
      q.confidence = data.confidence.getD 0 ∧ q.score = data.score.getD 0 := by
  obtain ⟨topic, ai, q, hf, ha, hn, hres⟩ :=
    submitQuestion_created predict newId now st user body hok
  obtain ⟨code, data, hp, h1, h2, hai⟩ := analyzeQuestion_eq_some predict _ _ ai ha
  obtain ⟨hm, hid, hsp⟩ := findOne_submit_topic st body topic hf
  have hq := newQuestion_eq_some newId now user topic body ai q hn
  obtain ⟨hc, -, -, -, -, -, htid, -, -, -, -, -, hrel, hconf, hscore⟩ := hq
  refine ⟨topic, q, code, data, hm, hid, hsp, hc, ?_, ?_, h1, h2, ?_, ?_, htid, ?_, ?_, ?_⟩
  · rw [hres, hc]
  · rw [← hc]; exact hp
  · rw [hres]
  · rw [hres]
  · rw [hrel, hai]
  · rw [hconf, hai]
  · rw [hscore, hai]

/-- C4, at an instance: the listener's question on the first topic with a
classifier that answers "Relevant", 0.9, 2. -/
theorem submitQuestion_mirrors_classifier_witness :
    (submitQuestion exPredict 23 1000 exStore exAuthListener exBody).response.status = 201 ∧
    ∃ topic q code data,
      topic ∈ exStore.topics ∧ topic._id = exBody.topicId ∧
      topic.speakerId = exBody.speakerId ∧
      exBody.content = some q.content ∧
      (submitQuestion exPredict 23 1000 exStore exAuthListener exBody).aiCalls =
        [⟨some q.content, topic.name⟩] ∧
      exPredict ⟨some q.content, topic.name⟩ = .answered code (some data) ∧
      200 ≤ code ∧ code < 300 ∧
      (submitQuestion exPredict 23 1000 exStore exAuthListener exBody).response.body =
        .question q ∧
      (submitQuestion exPredict 23 1000 exStore exAuthListener exBody).store =
        { exStore with questions := exStore.questions ++ [q] } ∧
      q.topicId = topic._id ∧
      q.isRelevant = decide (data.result = some "Relevant") ∧
      q.confidence = data.confidence.getD 0 ∧ q.score = data.score.getD 0 :=
  ⟨by decide,
    submitQuestion_mirrors_classifier exPredict 23 1000 exStore exAuthListener exBody
      (by decide)⟩

/-- C5: when the topic is found and the classifier call throws (no answer, a
non-2xx answer, or an answer without a body), the submission is answered 500
and the store is unchanged; and whenever a submission changes the store, the
topic was found and the classifier returned a result. -/
theorem submitQuestion_fail_closed (predict : PredictRequest → HttpOutcome)
    (newId : ObjectId) (now : Date) (st : Store) (user : AuthUser) (body : SubmitBody) :
    (∀ topic,
      findOne (fun t : Topic => t._id = body.topicId && t.speakerId = body.speakerId)
        st.topics = some topic →
      analyzeQuestion predict body.content topic.name = none →
      submitQuestion predict newId now st user body =
        ⟨⟨500, .message "Error creating question"⟩, st, [⟨body.content, topic.name⟩]⟩) ∧
    ((submitQuestion predict newId now st user body).store ≠ st →
      ∃ topic ai,
        findOne (fun t : Topic => t._id = body.topicId && t.speakerId = body.speakerId)
          st.topics = some topic ∧
        analyzeQuestion predict body.content topic.name = some ai) := by
  constructor
  · intro topic hf ha
    simp only [submitQuestion, hf, ha]
  · intro hne
    unfold submitQuestion at hne
    cases hf : findOne (fun t : Topic => t._id = body.topicId && t.speakerId = body.speakerId)
        st.topics with
    | none => simp [hf] at hne
    | some topic =>
      cases ha : analyzeQuestion predict body.content topic.name with
      | none => simp [hf, ha] at hne
      | some ai => exact ⟨topic, ai, rfl, ha⟩

/-- C5, at an instance: the listener's question when the classifier cannot be
reached. -/
theorem submitQuestion_fail_closed_witness :
    analyzeQuestion exPredictDown exBody.content exTopic.name = none ∧
      submitQuestion exPredictDown 23 1000 exStore exAuthListener exBody =
        ⟨⟨500, .message "Error creating question"⟩, exStore,
          [⟨exBody.content, exTopic.name⟩]⟩ :=
  ⟨by decide,
    (submitQuestion_fail_closed exPredictDown 23 1000 exStore exAuthListener exBody).1 exTopic
      (by decide) (by decide)⟩

/-- C6: a submission whose topicId is the id of no stored topic, or of a
stored topic whose speakerId is not the submitted speakerId, is answered 404
'Topic not found'; no classifier request is sent and the store is unchanged. -/
theorem submitQuestion_topic_not_found (predict : PredictRequest → HttpOutcome)
    (newId : ObjectId) (now : Date) (st : Store) (user : AuthUser) (body : SubmitBody)
    (hwf : st.WF)
    (h : (∀ t ∈ st.topics, t._id ≠ body.topicId) ∨
      (∃ t ∈ st.topics, t._id = body.topicId ∧ t.speakerId ≠ body.speakerId)) :
    submitQuestion predict newId now st user body =
      ⟨⟨404, .message "Topic not found"⟩, st, []⟩ := by
  have hf : findOne (fun t : Topic => t._id = body.topicId && t.speakerId = body.speakerId)
      st.topics = none := by
    rcases h with h | ⟨t, ht, hid, hsp⟩
    · unfold findOne
      rw [List.find?_eq_none]
      intro d hd hp
      simp at hp
      exact h d hd hp.1
    · exact findOne_foreign_topic st body.speakerId body.topicId t hwf ht hid hsp
  simp only [submitQuestion, hf]

/-- C6, at an instance: the first topic named together with the second
speaker. -/
theorem submitQuestion_topic_not_found_witness :
    submitQuestion exPredict 23 1000 exStore exAuthListener exBodyWrongSpeaker =
      ⟨⟨404, .message "Topic not found"⟩, exStore, []⟩ :=
  submitQuestion_topic_not_found exPredict 23 1000 exStore exAuthListener exBodyWrongSpeaker
    ⟨by decide, by decide, by decide⟩
    (Or.inr ⟨exTopic, by decide, by decide, by decide⟩)

/-- C9 as stated fails: the anonymous submission `exBody` is answered 201 and
the stored question keeps the submitted userEmail, so it is not the case that
every successful anonymous submission persists a blank userEmail. -/
theorem submitQuestion_anonymous_email_not_blank :
    ¬ ∀ (predict : PredictRequest → HttpOutcome) (newId : ObjectId) (now : Date) (st : Store)
        (user : AuthUser) (body : SubmitBody) (q : Question),
        (submitQuestion predict newId now st user body).response = ⟨201, .question q⟩ →
        (body.isAnonymous = some false → q.username = body.username.getD "") ∧
        (body.isAnonymous = some true → q.username = "" ∧ q.userEmail = "") := by
  intro h
  have h1 := (h exPredict 23 1000 exStore exAuthListener exBody exCreated (by decide)).2
    (by decide)
  exact absurd h1.2 (by decide)

/-- C9, amended: every submission answered 201 appended one question whose
userEmail is the submitted, non-empty userEmail; if the submitted isAnonymous
is false its username is the submitted display name (empty when none was
sent), and if the submitted isAnonymous is true its username is blank. -/
theorem submitQuestion_persisted_identity (predict : PredictRequest → HttpOutcome)
    (newId : ObjectId) (now : Date) (st : Store) (user : AuthUser) (body : SubmitBody)
    (hok : (submitQuestion predict newId now st user body).response.status = 201) :
    ∃ q,
      (submitQuestion predict newId now st user body).response.body = .question q ∧
      (submitQuestion predict newId now st user body).store.questions =
        st.questions ++ [q] ∧
      body.userEmail = some q.userEmail ∧ q.userEmail ≠ "" ∧
      (body.isAnonymous = some false →
        q.username = body.username.getD "" ∧ q.isAnonymous = false) ∧
      (body.isAnonymous = some true → q.username = "" ∧ q.isAnonymous = true) := by
  obtain ⟨topic, ai, q, -, -, hn, hres⟩ :=
    submitQuestion_created predict newId now st user body hok
  obtain ⟨-, he, -, hene, -, -, -, -, -, hanon, huser, -⟩ :=
    newQuestion_eq_some newId now user topic body ai q hn
  refine ⟨q, by rw [hres], by rw [hres], he, hene, ?_, ?_⟩
  · intro hb
    rw [hb] at hanon huser
    simp [truthy] at hanon huser
    exact ⟨huser, hanon⟩
  · intro hb
    rw [hb] at hanon huser
    simp [truthy] at hanon huser
    exact ⟨huser, hanon⟩

/-- C9 amended, at an instance: the signed submission `exBodySigned`. -/
theorem submitQuestion_persisted_identity_witness :
    (submitQuestion exPredict 23 1000 exStore exAuthListener exBodySigned).response.status
        = 201 ∧
    ∃ q,
      (submitQuestion exPredict 23 1000 exStore exAuthListener exBodySigned).response.body =
        .question q ∧
      (submitQuestion exPredict 23 1000 exStore exAuthListener exBodySigned).store.questions =
        exStore.questions ++ [q] ∧
      exBodySigned.userEmail = some q.userEmail ∧ q.userEmail ≠ "" ∧
      (exBodySigned.isAnonymous = some false →
        q.username = exBodySigned.username.getD "" ∧ q.isAnonymous = false) ∧
      (exBodySigned.isAnonymous = some true → q.username = "" ∧ q.isAnonymous = true) :=
  ⟨by decide,
    submitQuestion_persisted_identity exPredict 23 1000 exStore exAuthListener exBodySigned
      (by decide)⟩

/-- The anonymity scrub keeps every field but username and userEmail. -/
theorem processQuestion_fields (qo : QuestionObj) :
    (processQuestion qo)._id = qo._id ∧ (processQuestion qo).userId = qo.userId ∧
      (processQuestion qo).topicId = qo.topicId ∧
      (processQuestion qo).isAnonymous = qo.isAnonymous ∧
      (processQuestion qo).createdAt = qo.createdAt ∧
      (processQuestion qo).isRelevant = qo.isRelevant := by
  unfold processQuestion
  split <;> simp

/-- A question whose topic is stored is populated with that topic's id. -/
theorem populate_topicId (st : Store) (q : Question) (t : Topic) (ht : t ∈ st.topics)
    (hq : q.topicId = t._id) :
    (populate st q).topicId.map (fun p => p._id) = some q.topicId := by
  cases hf : st.topics.find? (fun t => t._id = q.topicId) with
  | none =>
    rw [List.find?_eq_none] at hf
    have := hf t ht
    simp [hq] at this
  | some d =>
    have hp := List.find?_some hf
    simp at hp
    simp [populate, hf, hp]

/-- The processed questions of the listing are the scrubbed, populated stored
questions on the given topics. -/
theorem mem_speakerProcessedQuestions (st : Store) (topics : List Topic) (qo : QuestionObj) :
    qo ∈ speakerProcessedQuestions st topics ↔
      ∃ q ∈ st.questions, q.topicId ∈ topics.map (fun t => t._id) ∧
        qo = processQuestion (populate st q) := by
  simp only [speakerProcessedQuestions, sortNewestFirst, List.mem_map]
  constructor
  · rintro ⟨po, ⟨q, hq, rfl⟩, rfl⟩
    have hq2 := ((List.perm_insertionSort _ _).mem_iff).1 hq
    simp only [List.mem_filter, decide_eq_true_eq] at hq2
    exact ⟨q, hq2.1, by simpa using hq2.2, rfl⟩
  · rintro ⟨q, hq, hid, rfl⟩
    refine ⟨populate st q, ⟨q, ?_, rfl⟩, rfl⟩
    apply ((List.perm_insertionSort _ _).mem_iff).2
    simp only [List.mem_filter, decide_eq_true_eq]
    exact ⟨hq, by simpa using hid⟩

/-- Every entry after `obj[key] = value` is an old entry or the new one. -/
theorem mem_objSet (obj : List (String × TopicGroup)) (key : String) (value : TopicGroup)
    (e : String × TopicGroup) (h : e ∈ objSet obj key value) :
    e ∈ obj ∨ e = (key, value) := by
  unfold objSet at h
  split at h
  · exact Or.inl h
  · split at h
    · rw [List.mem_map] at h
      obtain ⟨d, hd, hde⟩ := h
      by_cases hk : d.1 = key
      · right; simp [hk] at hde; exact hde.symm
      · left; simp [hk] at hde; rw [← hde]; exact hd
    · split at h
      · rw [List.mem_append, List.mem_cons] at h
        rcases h with h | h | h
        · exact Or.inl ((List.takeWhile_sublist _).subset h)
        · exact Or.inr h
        · exact Or.inl ((List.dropWhile_sublist _).subset h)
      · rw [List.mem_append, List.mem_singleton] at h
        exact h

/-- Reading a key from a list of entries into which an entry with another key
was inserted. -/
theorem objGet_insert_other (l1 l2 : List (String × TopicGroup)) (key key2 : String)
    (value : TopicGroup) (hne : key2 ≠ key) :
    objGet (l1 ++ (key, value) :: l2) key2 = objGet (l1 ++ l2) key2 := by
  induction l1 with
  | nil => simp [objGet, hne.symm]
  | cons x xs ih =>
    by_cases hx2 : x.1 = key2
    · simp [objGet, hx2]
    · simpa [objGet, hx2] using ih

/-- Reading the key of an entry inserted after entries with other keys. -/
theorem objGet_insert_same (l1 l2 : List (String × TopicGroup)) (key : String)
    (value : TopicGroup) (h : ∀ e ∈ l1, e.1 ≠ key) :
    objGet (l1 ++ (key, value) :: l2) key = some value := by
  induction l1 with
  | nil => simp [objGet]
  | cons x xs ih =>
    have hx : ¬ x.1 = key := h x (List.mem_cons_self _ _)
    have := ih (fun e he => h e (List.mem_cons_of_mem _ he))
    simpa [objGet, hx] using this

/-- Reading the key just written, when it is not `__proto__`. -/
theorem objGet_objSet_same (obj : List (String × TopicGroup)) (key : String)
    (value : TopicGroup) (hkey : key ≠ "__proto__") :
    objGet (objSet obj key value) key = some value := by
  unfold objSet
  rw [if_neg hkey]
  split
  · rename_i hany
    clear hkey
    induction obj with
    | nil => simp at hany
    | cons x xs ih =>
      by_cases hx : x.1 = key
      · simp [objGet, hx]
      · have hany2 : xs.any (fun e => decide (e.1 = key)) = true := by
          simpa [hx] using hany
        simpa [objGet, hx] using ih hany2
  · rename_i hany
    have hno : ∀ e ∈ obj, e.1 ≠ key := by
      intro e he hk
      apply hany
      rw [List.any_eq_true]
      exact ⟨e, he, by simpa using hk⟩
    split
    · exact objGet_insert_same _ _ _ _ (fun e he => hno e ((List.takeWhile_sublist _).subset he))
    · have := objGet_insert_same obj [] key value hno
      simpa using this

/-- Reading another key than the one just written. -/
theorem objGet_objSet_other (obj : List (String × TopicGroup)) (key key2 : String)
    (value : TopicGroup) (hne : key2 ≠ key) :
    objGet (objSet obj key value) key2 = objGet obj key2 := by
  have hmap : ∀ l : List (String × TopicGroup),
      objGet (l.map (fun e => if e.1 = key then (key, value) else e)) key2 = objGet l key2 := by
    intro l
    induction l with
    | nil => rfl
    | cons x xs ih =>
      by_cases hx : x.1 = key
      · have hx2 : ¬ x.1 = key2 := fun h => hne (h.symm.trans hx)
        simpa [objGet, hx, hne.symm, hx2] using ih
      · by_cases hx2 : x.1 = key2
        · simp [objGet, hx2, hne]
        · simpa [objGet, hx, hx2] using ih
  unfold objSet
  split
  · rfl
  · split
    · exact hmap obj
    · split
      · rw [objGet_insert_other _ _ _ _ _ hne, List.takeWhile_append_dropWhile]
      · have := objGet_insert_other obj [] key key2 value hne
        simpa using this

/-- Writing a new key other than `__proto__` adds one entry and keeps the
others. -/
theorem objSet_perm (obj : List (String × TopicGroup)) (key : String) (value : TopicGroup)
    (hkey : key ≠ "__proto__") (hno : ∀ e ∈ obj, e.1 ≠ key) :
    (objSet obj key value).Perm (obj ++ [(key, value)]) := by
  have hany : ¬ (obj.any (fun e => decide (e.1 = key)) = true) := by
    rw [List.any_eq_true]
    rintro ⟨e, he, hk⟩
    exact hno e he (by simpa using hk)
  unfold objSet
  rw [if_neg hkey, if_neg hany]
  split
  · rename_i n _
    have h1 : (obj.takeWhile (indexBefore n) ++ (key, value) ::
        obj.dropWhile (indexBefore n)).Perm
        ((key, value) :: (obj.takeWhile (indexBefore n) ++ obj.dropWhile (indexBefore n))) :=
      List.perm_middle
    rw [List.takeWhile_append_dropWhile] at h1
    exact h1.trans (List.perm_append_singleton _ _).symm
  · exact List.Perm.refl _

/-- Every entry of `questionsByTopic` was written for one of the topics. -/
theorem mem_groupByTopic (topics : List Topic) (pq : List QuestionObj)
    (e : String × TopicGroup) (h : e ∈ groupByTopic topics pq) :
    ∃ t ∈ topics, e = (t.name, topicGroup t pq) := by
  have gen : ∀ (ts : List Topic) (acc : List (String × TopicGroup)),
      e ∈ ts.foldl (fun o t => objSet o t.name (topicGroup t pq)) acc →
      e ∈ acc ∨ ∃ t ∈ ts, e = (t.name, topicGroup t pq) := by
    intro ts
    induction ts with
    | nil => intro acc h; exact Or.inl h
    | cons t ts ih =>
      intro acc h
      rw [List.foldl_cons] at h
      rcases ih _ h with h1 | ⟨t2, ht2, he⟩
      · rcases mem_objSet _ _ _ _ h1 with h2 | h2
        · exact Or.inl h2
        · exact Or.inr ⟨t, List.mem_cons_self _ _, h2⟩
      · exact Or.inr ⟨t2, List.mem_cons_of_mem _ ht2, he⟩
  rcases gen topics [] h with h1 | h1
  · simp at h1
  · exact h1

/-- With pairwise distinct topic names, the entry of each topic whose name is
not `__proto__` is found under its name. -/
theorem objGet_groupByTopic (topics : List Topic) (pq : List QuestionObj) (t : Topic)
    (hnd : (topics.map (fun t => t.name)).Nodup) (ht : t ∈ topics)
    (hname0 : t.name ≠ "__proto__") :
    objGet (groupByTopic topics pq) t.name = some (topicGroup t pq) := by
  unfold groupByTopic
  induction topics using List.reverseRecOn with
  | nil => simp at ht
  | append_singleton ts last ih =>
    rw [List.foldl_append, List.foldl_cons, List.foldl_nil]
    rw [List.map_append, List.nodup_append] at hnd
    obtain ⟨hnd1, -, hdis⟩ := hnd
    by_cases hname : t.name = last.name
    · have htl : t = last := by
        rcases List.mem_append.1 ht with h | h
        · exact absurd (List.mem_map.2 ⟨t, h, hname⟩)
            (fun hm => hdis hm (by simp))
        · simpa using h
      rw [htl] at hname0 ⊢
      exact objGet_objSet_same _ _ _ hname0
    · rw [objGet_objSet_other _ _ _ _ hname]
      rcases List.mem_append.1 ht with h | h
      · exact ih hnd1 h
      · simp at h
        exact absurd (by rw [h]) hname

/-- The topics of one speaker have pairwise distinct names. -/
theorem speakerTopics_names_nodup (st : Store) (uid : ObjectId) (hwf : st.WF) :
    ((st.topics.filter (fun t => t.speakerId = uid)).map (fun t => t.name)).Nodup := by
  have h1 : ((st.topics.filter (fun t => t.speakerId = uid)).map
      (fun t => (t.speakerId, t.name))).Nodup :=
    hwf.topicNames.sublist ((List.filter_sublist _).map _)
  have h2 := List.Nodup.map_on (f := Prod.snd) (l := (st.topics.filter
      (fun t => t.speakerId = uid)).map (fun t => (t.speakerId, t.name))) (by
    intro x hx y hy hxy
    rw [List.mem_map] at hx hy
    obtain ⟨a, ha, rfl⟩ := hx
    obtain ⟨b, hb, rfl⟩ := hy
    simp only [List.mem_filter, decide_eq_true_eq] at ha hb
    simp only at hxy
    rw [Prod.mk.injEq]
    exact ⟨ha.2.trans hb.2.symm, hxy⟩) h1
  simpa [List.map_map] using h2

/-- The questions listed under a stored topic are the scrubbed, populated
questions of that topic, in the sorted order. -/
theorem topicQuestions_eq (st : Store) (topics : List Topic) (t : Topic)
    (hsub : ∀ d ∈ topics, d ∈ st.topics) :
    topicQuestions t (speakerProcessedQuestions st topics) =
      ((sortNewestFirst (st.questions.filter
          (fun q => q.topicId ∈ topics.map (fun t => t._id)))).filter
        (fun q => q.topicId = t._id)).map (fun q => processQuestion (populate st q)) := by
  unfold topicQuestions speakerProcessedQuestions
  simp only [List.map_map, List.filter_map]
  congr 1
  apply List.filter_congr
  intro q hq
  have hq2 := ((List.perm_insertionSort _ _).mem_iff).1 hq
  simp only [List.mem_filter, decide_eq_true_eq, List.mem_map] at hq2
  obtain ⟨-, d, hd, hdq⟩ := hq2
  have hpop := populate_topicId st q d (hsub d hd) hdq.symm
  simp only [Function.comp_apply, (processQuestion_fields _).2.2.1, hpop]
  simp

/-- Every processed question of the listing has its topic populated. -/
theorem speakerProcessed_all_populated (st : Store) (topics : List Topic)
    (hsub : ∀ d ∈ topics, d ∈ st.topics) :
    (speakerProcessedQuestions st topics).all (fun q => q.topicId.isSome) = true := by
  rw [List.all_eq_true]
  intro qo hqo
  obtain ⟨q, -, hid, rfl⟩ := (mem_speakerProcessedQuestions st topics qo).1 hqo
  rw [List.mem_map] at hid
  obtain ⟨d, hd, hdq⟩ := hid
  have hpop := populate_topicId st q d (hsub d hd) hdq.symm
  rw [(processQuestion_fields _).2.2.1]
  cases hx : (populate st q).topicId with
  | none => simp [hx] at hpop
  | some v => rfl

/-- The listing of a speaker who has at least one topic. -/
theorem getSpeakerQuestions_eq (st : Store) (user : AuthUser) (t : Topic)
    (hrole : user.role = "speaker") (ht : t ∈ st.topics) (hown : t.speakerId = user.userId) :
    getSpeakerQuestions st user =
      (⟨200, .speakerQuestions
          (groupByTopic (st.topics.filter (fun t => t.speakerId = user.userId))
            (speakerProcessedQuestions st
              (st.topics.filter (fun t => t.speakerId = user.userId))))
          ((speakerProcessedQuestions st
              (st.topics.filter (fun t => t.speakerId = user.userId))).filter
            (fun q => q.isRelevant)).length
          ((speakerProcessedQuestions st
              (st.topics.filter (fun t => t.speakerId = user.userId))).filter
            (fun q => !q.isRelevant)).length⟩, st) := by
  have hmem : t ∈ st.topics.filter (fun t => t.speakerId = user.userId) := by
    simp [List.mem_filter, ht, hown]
  have hlen : (st.topics.filter (fun t => t.speakerId = user.userId)).length ≠ 0 := by
    intro h0
    rw [List.length_eq_zero] at h0
    rw [h0] at hmem
    simp at hmem
  have hall := speakerProcessed_all_populated st
    (st.topics.filter (fun t => t.speakerId = user.userId))
    (fun d hd => (List.mem_filter.1 hd).1)
  simp only [getSpeakerQuestions, speakerAuth, hrole]
  simp only [ne_eq, not_true_eq_false, if_false, hlen, hall, if_true]

/-- A 200 listing with a `questionsByTopic` object is the grouping of the
speaker's topics. -/
theorem getSpeakerQuestions_listing (st : Store) (user : AuthUser)
    (qbt : List (String × TopicGroup)) (r n : Nat)
    (h : (getSpeakerQuestions st user).1 = ⟨200, .speakerQuestions qbt r n⟩) :
    qbt = groupByTopic (st.topics.filter (fun t => t.speakerId = user.userId))
      (speakerProcessedQuestions st
        (st.topics.filter (fun t => t.speakerId = user.userId))) := by
  unfold getSpeakerQuestions at h
  cases hgate : speakerAuth (some user) with
  | some denied =>
    have := speakerAuth_denied_status _ _ hgate
    simp only [hgate] at h
    rw [h] at this
    simp at this
  | none =>
    simp only [hgate] at h
    split at h
    · simp at h
    · split at h
      · simp at h
        exact h.1.symm
      · simp at h

/-- C8: in every 200 listing of GET /questions/speaker-questions, each
returned question is a stored question (same _id and isAnonymous flag); if the
stored flag is true the returned username is "Anonymous" and the returned
userEmail is empty, and if it is false both equal the stored values.  The
next store is the store. -/
theorem speakerQuestions_scrub (st : Store) (user : AuthUser)
    (qbt : List (String × TopicGroup)) (r n : Nat)
    (h : (getSpeakerQuestions st user).1 = ⟨200, .speakerQuestions qbt r n⟩) :
    (getSpeakerQuestions st user).2 = st ∧
    ∀ e ∈ qbt, ∀ qo ∈ e.2.relevant ++ e.2.nonRelevant,
      ∃ q ∈ st.questions, qo._id = q._id ∧ qo.isAnonymous = q.isAnonymous ∧
        (q.isAnonymous = true → qo.username = "Anonymous" ∧ qo.userEmail = "") ∧
        (q.isAnonymous = false →
          qo.username = q.username ∧ qo.userEmail = q.userEmail) := by
  constructor
  · unfold getSpeakerQuestions
    cases speakerAuth (some user) with
    | some denied => rfl
    | none =>
      simp only
      split
      · rfl
      · split <;> rfl
  · intro e he qo hqo
    rw [getSpeakerQuestions_listing st user qbt r n h] at he
    obtain ⟨t, -, rfl⟩ := mem_groupByTopic _ _ e he
    have hpq : qo ∈ speakerProcessedQuestions st
        (st.topics.filter (fun t => t.speakerId = user.userId)) := by
      simp only [topicGroup, topicQuestions, List.mem_append, List.mem_filter] at hqo
      rcases hqo with h1 | h1 <;> exact h1.1.1
    obtain ⟨q, hq, -, rfl⟩ := (mem_speakerProcessedQuestions st _ qo).1 hpq
    refine ⟨q, hq, ?_, ?_, ?_, ?_⟩
    · rw [(processQuestion_fields _).1]; rfl
    · rw [(processQuestion_fields _).2.2.2.1]; rfl
    · intro ha
      simp [processQuestion, populate, ha]
    · intro ha
      simp [processQuestion, populate, ha]

/-- C8, at an instance: the first speaker's listing of the example store. -/
theorem speakerQuestions_scrub_witness :
    (getSpeakerQuestions exStore exAuth).1 = ⟨200, .speakerQuestions exListing 1 1⟩ ∧
    (getSpeakerQuestions exStore exAuth).2 = exStore ∧
    ∀ e ∈ exListing, ∀ qo ∈ e.2.relevant ++ e.2.nonRelevant,
      ∃ q ∈ exStore.questions, qo._id = q._id ∧ qo.isAnonymous = q.isAnonymous ∧
        (q.isAnonymous = true → qo.username = "Anonymous" ∧ qo.userEmail = "") ∧
        (q.isAnonymous = false →
          qo.username = q.username ∧ qo.userEmail = q.userEmail) :=
  ⟨by decide, speakerQuestions_scrub exStore exAuth exListing 1 1 (by decide)⟩

/-- For a speaker with at least one topic the listing is answered 200 with a
`questionsByTopic` object in which every topic of the speaker whose name is
not `__proto__` has an entry under its name; the entry's relevant and
nonRelevant lists share no
element, together are a rearrangement of the (scrubbed, populated) stored
questions whose topicId is that topic, hold only questions with isRelevant
true, respectively false, and are each in newest-first createdAt order; and
every question in any entry is a stored question on a topic of this
speaker. -/
theorem speakerQuestions_grouping (st : Store) (user : AuthUser) (t0 : Topic)
    (hwf : st.WF) (hrole : user.role = "speaker")
    (ht0 : t0 ∈ st.topics) (hown0 : t0.speakerId = user.userId) :
    ∃ qbt r n,
      (getSpeakerQuestions st user).1 = ⟨200, .speakerQuestions qbt r n⟩ ∧
      (∀ t ∈ st.topics, t.speakerId = user.userId → t.name ≠ "__proto__" →
        ∃ g, objGet qbt t.name = some g ∧
          (∀ q ∈ g.relevant, q ∉ g.nonRelevant) ∧
          (g.relevant ++ g.nonRelevant).Perm
            ((st.questions.filter (fun q => q.topicId = t._id)).map
              (fun q => processQuestion (populate st q))) ∧
          (∀ q ∈ g.relevant, q.isRelevant = true) ∧
          (∀ q ∈ g.nonRelevant, q.isRelevant = false) ∧
          g.relevant.Sorted (fun a b => a.createdAt ≥ b.createdAt) ∧
          g.nonRelevant.Sorted (fun a b => a.createdAt ≥ b.createdAt)) ∧
      (∀ e ∈ qbt, ∀ qo ∈ e.2.relevant ++ e.2.nonRelevant,
        ∃ q ∈ st.questions, qo = processQuestion (populate st q) ∧
          ∃ t ∈ st.topics, t.speakerId = user.userId ∧ q.topicId = t._id) := by
  have heq := getSpeakerQuestions_eq st user t0 hrole ht0 hown0
  have hsub : ∀ d ∈ st.topics.filter (fun t => t.speakerId = user.userId), d ∈ st.topics :=
    fun d hd => (List.mem_filter.1 hd).1
  refine ⟨_, _, _, by rw [heq], ?_, ?_⟩
  · intro t ht hown hname
    have hmem : t ∈ st.topics.filter (fun t => t.speakerId = user.userId) := by
      simp [List.mem_filter, ht, hown]
    refine ⟨_, objGet_groupByTopic _ _ t (speakerTopics_names_nodup st user.userId hwf) hmem
      hname, ?_, ?_, ?_, ?_, ?_, ?_⟩
    · intro q hq hq2
      simp only [topicGroup, List.mem_filter] at hq hq2
      have h1 := hq.2
      have h2 := hq2.2
      rw [h1] at h2
      simp at h2
    · have hsplit := List.filter_append_perm (fun q : QuestionObj => q.isRelevant)
        (topicQuestions t (speakerProcessedQuestions st
          (st.topics.filter (fun t => t.speakerId = user.userId))))
      refine hsplit.trans ?_
      rw [topicQuestions_eq st _ t hsub]
      apply List.Perm.map
      refine ((List.perm_insertionSort _ _).filter _).trans ?_
      rw [List.filter_filter]
      apply List.Perm.of_eq
      apply List.filter_congr
      intro q _
      by_cases hq : q.topicId = t._id
      · have : ∃ a, (a ∈ st.topics ∧ a.speakerId = user.userId) ∧ a._id = t._id :=
          ⟨t, ⟨ht, hown⟩, rfl⟩
        simp [hq, this]
      · simp [hq]
    · intro q hq
      simp only [topicGroup, List.mem_filter] at hq
      exact hq.2
    · intro q hq
      simp only [topicGroup, List.mem_filter] at hq
      simpa using hq.2
    · simp only [topicGroup]
      rw [topicQuestions_eq st _ t hsub]
      apply List.Pairwise.filter
      rw [List.pairwise_map]
      apply List.Pairwise.filter
      have hs := @List.sorted_insertionSort Question (fun a b => a.createdAt ≥ b.createdAt) _
        ⟨fun a b => Nat.le_total b.createdAt a.createdAt⟩
        ⟨fun a b c hab hbc => Nat.le_trans hbc hab⟩
        (st.questions.filter (fun q => q.topicId ∈
          (st.topics.filter (fun t => t.speakerId = user.userId)).map (fun t => t._id)))
      refine List.Pairwise.imp ?_ hs
      intro a b hab
      rw [(processQuestion_fields _).2.2.2.2.1, (processQuestion_fields _).2.2.2.2.1]
      exact hab
    · simp only [topicGroup]
      rw [topicQuestions_eq st _ t hsub]
      apply List.Pairwise.filter
      rw [List.pairwise_map]
      apply List.Pairwise.filter
      have hs := @List.sorted_insertionSort Question (fun a b => a.createdAt ≥ b.createdAt) _
        ⟨fun a b => Nat.le_total b.createdAt a.createdAt⟩
        ⟨fun a b c hab hbc => Nat.le_trans hbc hab⟩
        (st.questions.filter (fun q => q.topicId ∈
          (st.topics.filter (fun t => t.speakerId = user.userId)).map (fun t => t._id)))
      refine List.Pairwise.imp ?_ hs
      intro a b hab
      rw [(processQuestion_fields _).2.2.2.2.1, (processQuestion_fields _).2.2.2.2.1]
      exact hab
  · intro e he qo hqo
    obtain ⟨t, -, rfl⟩ := mem_groupByTopic _ _ e he
    have hpq : qo ∈ speakerProcessedQuestions st
        (st.topics.filter (fun t => t.speakerId = user.userId)) := by
      simp only [topicGroup, topicQuestions, List.mem_append, List.mem_filter] at hqo
      rcases hqo with h1 | h1 <;> exact h1.1.1
    obtain ⟨q, hq, hid, rfl⟩ := (mem_speakerProcessedQuestions st _ qo).1 hpq
    rw [List.mem_map] at hid
    obtain ⟨d, hd, hdq⟩ := hid
    rw [List.mem_filter] at hd
    exact ⟨q, hq, rfl, d, hd.1, by simpa using hd.2, hdq.symm⟩

/-- The grouping at an instance: the first speaker's listing of the example
store. -/
theorem speakerQuestions_grouping_witness :
    ∃ qbt r n,
      (getSpeakerQuestions exStore exAuth).1 = ⟨200, .speakerQuestions qbt r n⟩ ∧
      (∀ t ∈ exStore.topics, t.speakerId = exAuth.userId → t.name ≠ "__proto__" →
        ∃ g, objGet qbt t.name = some g ∧
          (∀ q ∈ g.relevant, q ∉ g.nonRelevant) ∧
          (g.relevant ++ g.nonRelevant).Perm
            ((exStore.questions.filter (fun q => q.topicId = t._id)).map
              (fun q => processQuestion (populate exStore q))) ∧
          (∀ q ∈ g.relevant, q.isRelevant = true) ∧
          (∀ q ∈ g.nonRelevant, q.isRelevant = false) ∧
          g.relevant.Sorted (fun a b => a.createdAt ≥ b.createdAt) ∧
          g.nonRelevant.Sorted (fun a b => a.createdAt ≥ b.createdAt)) ∧
      (∀ e ∈ qbt, ∀ qo ∈ e.2.relevant ++ e.2.nonRelevant,
        ∃ q ∈ exStore.questions, qo = processQuestion (populate exStore q) ∧
          ∃ t ∈ exStore.topics, t.speakerId = exAuth.userId ∧ q.topicId = t._id) :=
  speakerQuestions_grouping exStore exAuth exTopic ⟨by decide, by decide, by decide⟩
    (by decide) (by decide) (by decide)

/-- C7: the listing reveals the submitter's account email of an anonymous
question.  The two example stores hold one anonymous question and differ only
in the submitter's account email and in the name and email kept on that
question, yet the speaker's listings differ: the populated userId reference of
the returned record carries the account email. -/
theorem speakerQuestions_leaks_account_email :
    exAnonStore.topics = exAnonStore2.topics ∧
    exAnonStore.feedback = exAnonStore2.feedback ∧
    exAnonStore.users.map (fun u => { u with email := "" }) =
      exAnonStore2.users.map (fun u => { u with email := "" }) ∧
    exAnonStore.questions.map (fun q => { q with username := "", userEmail := "" }) =
      exAnonStore2.questions.map (fun q => { q with username := "", userEmail := "" }) ∧
    (∀ q ∈ exAnonStore.questions, q.isAnonymous = true) ∧
    (∀ q ∈ exAnonStore2.questions, q.isAnonymous = true) ∧
    (getSpeakerQuestions exAnonStore exAuth).1 =
      ⟨200, .speakerQuestions
        [("Intro to Systems",
          ⟨[{ populate exAnonStore exQuestion with
                userId := some ⟨3, "eve@mail.org"⟩,
                username := "Anonymous", userEmail := "" }], []⟩)] 1 0⟩ ∧
    (getSpeakerQuestions exAnonStore2 exAuth).1 =
      ⟨200, .speakerQuestions
        [("Intro to Systems",
          ⟨[{ populate exAnonStore exQuestion with
                userId := some ⟨3, "mallory@mail.org"⟩,
                username := "Anonymous", userEmail := "" }], []⟩)] 1 0⟩ ∧
    (getSpeakerQuestions exAnonStore exAuth).1 ≠
      (getSpeakerQuestions exAnonStore2 exAuth).1 := by
  refine ⟨by decide, by decide, by decide, by decide, by decide, by decide, by decide,
    by decide, by decide⟩

/-- A string of length zero is the empty string. -/
theorem string_length_zero (s : String) : s.length = 0 ↔ s = "" := by
  constructor
  · intro h
    have hd : s.data = [] := List.length_eq_zero.1 h
    cases s
    simp_all
  · intro h
    rw [h]
    rfl

/-- A valid first feedback by a user for a stored topic is stored and answered
201. -/
theorem submitFeedback_accept (newId : ObjectId) (now : Date) (st : Store) (user : AuthUser)
    (T : ObjectId) (r : ℚ) (c : String)
    (hr : 1 ≤ r ∧ r ≤ 5) (hc : jsTrim c ≠ "") (ht : ∃ t ∈ st.topics, t._id = T)
    (hnone : ∀ f ∈ st.feedback, ¬ (f.userId = user.userId ∧ f.topicId = T))
    (hfresh : ∀ f ∈ st.feedback, f._id ≠ newId) :
    submitFeedback newId now st user ⟨some T, some r, some c⟩ =
      (⟨201, .feedbackCreated "Feedback submitted successfully"
          ⟨newId, user.userId, T, r, jsTrim c, now⟩⟩,
        { st with feedback := st.feedback ++ [⟨newId, user.userId, T, r, jsTrim c, now⟩] }) := by
  have h1 : ¬ (r = 0 ∨ r < 1 ∨ r > 5) := by
    rintro (h | h | h)
    · rw [h] at hr; exact absurd hr.1 (by norm_num)
    · exact absurd hr.1 (not_le.2 h)
    · exact absurd hr.2 (not_le.2 h)
  have h2 : ¬ (c = "" ∨ (jsTrim c).length = 0) := by
    rintro (h | h)
    · rw [h] at hc; exact hc (by decide)
    · exact hc ((string_length_zero _).1 h)
  have h3 : ∃ t, findOne (fun t : Topic => t._id = T) st.topics = some t := by
    obtain ⟨t, htm, hid⟩ := ht
    cases hf : findOne (fun t : Topic => t._id = T) st.topics with
    | none =>
      unfold findOne at hf
      rw [List.find?_eq_none] at hf
      exact absurd (by simpa using hid) (hf t htm)
    | some d => exact ⟨d, rfl⟩
  obtain ⟨d, h3⟩ := h3
  have h4 : findOne (fun f : Feedback => f.userId = user.userId && f.topicId = T)
      st.feedback = none := by
    unfold findOne
    rw [List.find?_eq_none]
    intro f hf hp
    simp at hp
    exact hnone f hf hp
  have h5 : validFeedback ⟨newId, user.userId, T, r, jsTrim c, now⟩ = true := by
    have hl : 1 ≤ (jsTrim c).length := by
      rcases Nat.eq_zero_or_pos (jsTrim c).length with h | h
      · exact absurd ((string_length_zero _).1 h) hc
      · exact h
    simp [validFeedback, hr.1, hr.2, hl]
  have h6 : st.feedback.any (fun f => f._id = newId) = false := by
    rw [List.any_eq_false]
    intro f hf
    simpa using hfresh f hf
  simp only [submitFeedback, h3, h4]
  rw [if_neg h1, if_neg h2]
  simp [h5, h6]

/-- A numeric rating outside [1, 5] is answered 400 before anything else is
looked at. -/
theorem submitFeedback_reject_rating (newId : ObjectId) (now : Date) (st : Store)
    (user : AuthUser) (T : ObjectId) (r : ℚ) (c : Option String)
    (hr : ¬ (1 ≤ r ∧ r ≤ 5)) :
    submitFeedback newId now st user ⟨some T, some r, c⟩ =
      (⟨400, .message "Rating must be a number between 1 and 5"⟩, st) := by
  have h1 : r = 0 ∨ r < 1 ∨ r > 5 := by
    by_cases h : 1 ≤ r
    · right; right
      exact not_le.1 (fun h5 => hr ⟨h, h5⟩)
    · right; left
      exact not_le.1 h
  simp only [submitFeedback]
  rw [if_pos h1]

/-- A feedback submission either leaves the store as it is or appends one
record of the requester for a (user, topic) pair that had none. -/
theorem submitFeedback_store (newId : ObjectId) (now : Date) (st : Store) (user : AuthUser)
    (body : FeedbackBody) :
    (submitFeedback newId now st user body).2 = st ∨
      ∃ f, (submitFeedback newId now st user body).2 =
          { st with feedback := st.feedback ++ [f] } ∧
        f.userId = user.userId ∧
        ∀ g ∈ st.feedback, ¬ (g.userId = f.userId ∧ g.topicId = f.topicId) := by
  unfold submitFeedback
  cases body.topicId with
  | none => exact Or.inl rfl
  | some topicId =>
    cases body.rating with
    | none => exact Or.inl rfl
    | some rating =>
      simp only
      split
      · exact Or.inl rfl
      · cases body.comment with
        | none => exact Or.inl rfl
        | some comment =>
          simp only
          split
          · exact Or.inl rfl
          · cases findOne (fun t : Topic => t._id = topicId) st.topics with
            | none => exact Or.inl rfl
            | some t =>
              cases hf : findOne (fun f : Feedback =>
                  f.userId = user.userId && f.topicId = topicId) st.feedback with
              | some g => exact Or.inl rfl
              | none =>
                simp only
                split
                · exact Or.inl rfl
                · split
                  · exact Or.inl rfl
                  · refine Or.inr ⟨_, rfl, rfl, ?_⟩
                    intro g hg hp
                    unfold findOne at hf
                    rw [List.find?_eq_none] at hf
                    exact hf g hg (by simpa using hp)

/-- One feedback submission keeps at most one record per (user, topic). -/
theorem submitFeedback_unique (newId : ObjectId) (now : Date) (st : Store) (user : AuthUser)
    (body : FeedbackBody) (h : FeedbackUnique st) :
    FeedbackUnique (submitFeedback newId now st user body).2 := by
  rcases submitFeedback_store newId now st user body with h1 | ⟨f, h1, -, h3⟩
  · rw [h1]; exact h
  · rw [h1]
    unfold FeedbackUnique at h ⊢
    simp only [List.map_append, List.map_cons, List.map_nil]
    rw [List.nodup_append]
    refine ⟨h, List.nodup_singleton _, ?_⟩
    intro p hp hq
    rw [List.mem_singleton] at hq
    rw [List.mem_map] at hp
    obtain ⟨g, hg, hgp⟩ := hp
    rw [hq] at hgp
    simp only [Prod.mk.injEq] at hgp
    exact h3 g hg hgp

/-- C11: when user U has no feedback for the stored topic T, the first of two
valid submissions by U for T is answered 201 and the second 400 'Feedback
already exists' with the store unchanged, so exactly one record for (U, T) is
stored afterwards; and every sequence of feedback submissions started from a
store with at most one record per (user, topic) ends in such a store. -/
theorem feedback_twice_one_record (st : Store) (user : AuthUser) (T : ObjectId)
    (r1 r2 : ℚ) (c1 c2 : String) (id1 id2 : ObjectId) (now1 now2 : Date)
    (ht : ∃ t ∈ st.topics, t._id = T)
    (hnone : ∀ f ∈ st.feedback, ¬ (f.userId = user.userId ∧ f.topicId = T))
    (hfresh : ∀ f ∈ st.feedback, f._id ≠ id1)
    (hr1 : 1 ≤ r1 ∧ r1 ≤ 5) (hc1 : jsTrim c1 ≠ "")
    (hr2 : 1 ≤ r2 ∧ r2 ≤ 5) (hc2 : jsTrim c2 ≠ "") :
    (submitFeedback id1 now1 st user ⟨some T, some r1, some c1⟩).1.status = 201 ∧
    submitFeedback id2 now2 (submitFeedback id1 now1 st user ⟨some T, some r1, some c1⟩).2
        user ⟨some T, some r2, some c2⟩ =
      (⟨400, .messageDetails "Feedback already exists"
          "You have already provided feedback for this topic"⟩,
        (submitFeedback id1 now1 st user ⟨some T, some r1, some c1⟩).2) ∧
    ((submitFeedback id1 now1 st user ⟨some T, some r1, some c1⟩).2.feedback.filter
      (fun f => f.userId = user.userId && f.topicId = T)).length = 1 ∧
    ∀ (reqs : List FeedbackReq) (st0 : Store),
      FeedbackUnique st0 → FeedbackUnique (runFeedback st0 reqs) := by
  have hacc := submitFeedback_accept id1 now1 st user T r1 c1 hr1 hc1 ht hnone hfresh
  refine ⟨by rw [hacc], ?_, ?_, ?_⟩
  · rw [hacc]
    have h1 : ¬ (r2 = 0 ∨ r2 < 1 ∨ r2 > 5) := by
      rintro (h | h | h)
      · rw [h] at hr2; exact absurd hr2.1 (by norm_num)
      · exact absurd hr2.1 (not_le.2 h)
      · exact absurd hr2.2 (not_le.2 h)
    have h2 : ¬ (c2 = "" ∨ (jsTrim c2).length = 0) := by
      rintro (h | h)
      · rw [h] at hc2; exact hc2 (by decide)
      · exact hc2 ((string_length_zero _).1 h)
    obtain ⟨t, htm, hid⟩ := ht
    have h3 : ∃ d, findOne (fun t : Topic => t._id = T) st.topics = some d := by
      cases hf : findOne (fun t : Topic => t._id = T) st.topics with
      | none =>
        unfold findOne at hf
        rw [List.find?_eq_none] at hf
        exact absurd (by simpa using hid) (hf t htm)
      | some d => exact ⟨d, rfl⟩
    obtain ⟨d, h3⟩ := h3
    have h4 : ∃ g, findOne (fun f : Feedback => f.userId = user.userId && f.topicId = T)
        (st.feedback ++ [⟨id1, user.userId, T, r1, jsTrim c1, now1⟩]) = some g := by
      cases hf : findOne (fun f : Feedback => f.userId = user.userId && f.topicId = T)
          (st.feedback ++ [⟨id1, user.userId, T, r1, jsTrim c1, now1⟩]) with
      | none =>
        unfold findOne at hf
        rw [List.find?_eq_none] at hf
        have := hf ⟨id1, user.userId, T, r1, jsTrim c1, now1⟩ (by simp)
        simp at this
      | some g => exact ⟨g, rfl⟩
    obtain ⟨g, h4⟩ := h4
    simp only [submitFeedback, h3, h4]
    rw [if_neg h1, if_neg h2]
  · rw [hacc]
    have h0 : st.feedback.filter (fun f => f.userId = user.userId && f.topicId = T) = [] := by
      rw [List.filter_eq_nil_iff]
      intro f hf hp
      simp at hp
      exact hnone f hf hp
    simp [List.filter_append, h0]
  · intro reqs
    induction reqs with
    | nil => intro st0 h; exact h
    | cons q qs ih =>
      intro st0 h
      exact ih _ (submitFeedback_unique q.newId q.now st0 q.user q.body h)

/-- C11, at an instance: the first speaker sends feedback twice for the first
topic of the example store. -/
theorem feedback_twice_one_record_witness :
    (submitFeedback 32 1000 exStore exAuth ⟨some 10, some 4, some "Nice"⟩).1.status = 201 ∧
    submitFeedback 33 1100
        (submitFeedback 32 1000 exStore exAuth ⟨some 10, some 4, some "Nice"⟩).2
        exAuth ⟨some 10, some 5, some "Again"⟩ =
      (⟨400, .messageDetails "Feedback already exists"
          "You have already provided feedback for this topic"⟩,
        (submitFeedback 32 1000 exStore exAuth ⟨some 10, some 4, some "Nice"⟩).2) ∧
    ((submitFeedback 32 1000 exStore exAuth ⟨some 10, some 4, some "Nice"⟩).2.feedback.filter
      (fun f => f.userId = exAuth.userId && f.topicId = 10)).length = 1 ∧
    ∀ (reqs : List FeedbackReq) (st0 : Store),
      FeedbackUnique st0 → FeedbackUnique (runFeedback st0 reqs) :=
  feedback_twice_one_record exStore exAuth 10 4 5 "Nice" "Again" 32 33 1000 1100
    ⟨exTopic, by decide, by decide⟩ (by decide) (by decide) (by decide) (by decide)
    (by decide) (by decide)

/-- C12: for a numeric rating r, a stored topic, a non-blank comment and no
prior feedback by the user for the topic, the submission is answered 201
exactly when 1 ≤ r ≤ 5; then one record with rating r is appended, and
otherwise the answer is 400 and the store is unchanged.  Ratings 0 and 6 are
answered 400, ratings 1 and 5 are answered 201. -/
theorem feedback_rating_range (st : Store) (user : AuthUser) (T : ObjectId) (r : ℚ)
    (c : String) (newId : ObjectId) (now : Date)
    (ht : ∃ t ∈ st.topics, t._id = T) (hc : jsTrim c ≠ "")
    (hnone : ∀ f ∈ st.feedback, ¬ (f.userId = user.userId ∧ f.topicId = T))
    (hfresh : ∀ f ∈ st.feedback, f._id ≠ newId) :
    ((submitFeedback newId now st user ⟨some T, some r, some c⟩).1.status = 201 ↔
      1 ≤ r ∧ r ≤ 5) ∧
    (1 ≤ r ∧ r ≤ 5 →
      (submitFeedback newId now st user ⟨some T, some r, some c⟩).2 =
        { st with feedback :=
            st.feedback ++ [⟨newId, user.userId, T, r, jsTrim c, now⟩] }) ∧
    (¬ (1 ≤ r ∧ r ≤ 5) →
      submitFeedback newId now st user ⟨some T, some r, some c⟩ =
        (⟨400, .message "Rating must be a number between 1 and 5"⟩, st)) ∧
    (submitFeedback newId now st user ⟨some T, some 0, some c⟩).1.status = 400 ∧
    (submitFeedback newId now st user ⟨some T, some 6, some c⟩).1.status = 400 ∧
    (submitFeedback newId now st user ⟨some T, some 1, some c⟩).1.status = 201 ∧
    (submitFeedback newId now st user ⟨some T, some 5, some c⟩).1.status = 201 := by
  refine ⟨?_, ?_, ?_, ?_, ?_, ?_, ?_⟩
  · constructor
    · intro h
      by_contra hr
      rw [submitFeedback_reject_rating newId now st user T r (some c) hr] at h
      simp at h
    · intro hr
      rw [submitFeedback_accept newId now st user T r c hr hc ht hnone hfresh]
  · intro hr
    rw [submitFeedback_accept newId now st user T r c hr hc ht hnone hfresh]
  · intro hr
    exact submitFeedback_reject_rating newId now st user T r (some c) hr
  · rw [submitFeedback_reject_rating newId now st user T 0 (some c) (by norm_num)]
  · rw [submitFeedback_reject_rating newId now st user T 6 (some c) (by norm_num)]
  · rw [submitFeedback_accept newId now st user T 1 c (by norm_num) hc ht hnone hfresh]
  · rw [submitFeedback_accept newId now st user T 5 c (by norm_num) hc ht hnone hfresh]

/-- C12, at an instance: the first speaker rates the first topic of the
example store. -/
theorem feedback_rating_range_witness :
    ((submitFeedback 32 1000 exStore exAuth ⟨some 10, some 3, some "Nice"⟩).1.status = 201 ↔
      (1 : ℚ) ≤ 3 ∧ (3 : ℚ) ≤ 5) ∧
    ((1 : ℚ) ≤ 3 ∧ (3 : ℚ) ≤ 5 →
      (submitFeedback 32 1000 exStore exAuth ⟨some 10, some 3, some "Nice"⟩).2 =
        { exStore with feedback :=
            exStore.feedback ++ [⟨32, exAuth.userId, 10, 3, jsTrim "Nice", 1000⟩] }) ∧
    (¬ ((1 : ℚ) ≤ 3 ∧ (3 : ℚ) ≤ 5) →
      submitFeedback 32 1000 exStore exAuth ⟨some 10, some 3, some "Nice"⟩ =
        (⟨400, .message "Rating must be a number between 1 and 5"⟩, exStore)) ∧
    (submitFeedback 32 1000 exStore exAuth ⟨some 10, some 0, some "Nice"⟩).1.status = 400 ∧
    (submitFeedback 32 1000 exStore exAuth ⟨some 10, some 6, some "Nice"⟩).1.status = 400 ∧
    (submitFeedback 32 1000 exStore exAuth ⟨some 10, some 1, some "Nice"⟩).1.status = 201 ∧
    (submitFeedback 32 1000 exStore exAuth ⟨some 10, some 5, some "Nice"⟩).1.status = 201 :=
  feedback_rating_range exStore exAuth 10 3 "Nice" 32 1000
    ⟨exTopic, by decide, by decide⟩ (by decide) (by decide) (by decide)

/-- The account query finds nothing exactly when no stored user has the
pair. -/
theorem findOne_user_none (st : Store) (e role : String) :
    findOne (fun u : User => u.email = e && u.role = role) st.users = none ↔
      ∀ u ∈ st.users, ¬ (u.email = e ∧ u.role = role) := by
  unfold findOne
  rw [List.find?_eq_none]
  constructor
  · intro h u hu hp
    exact h u hu (by simpa using hp)
  · intro h u hu hp
    exact h u hu (by simpa using hp)

/-- A registration that passes every check appends the new account and is
answered 201 with a token for it. -/
theorem register_accept (toLowerCase : String → String)
    (hash : String → String) (secret : String) (newId : ObjectId)
    (now : Date) (st : Store) (email password role : String)
    (he : email ≠ "") (hp : password ≠ "") (hr : role ≠ "")
    (hnone : ∀ u ∈ st.users, ¬ (u.email = normEmail toLowerCase email ∧ u.role = role))
    (hvalid : validUser ⟨newId, normEmail toLowerCase email, hash password, role, none,
        none, none, none⟩
      = true)
    (hfresh : ∀ u ∈ st.users, u._id ≠ newId) :
    register toLowerCase hash secret newId now st ⟨some email, some password, some role⟩ =
      (⟨201, .registered "Registration successful" (jwtSign newId role secret now)
          (normEmail toLowerCase email) role⟩,
        { st with users := st.users ++
            [⟨newId, normEmail toLowerCase email, hash password, role, none, none, none,
                none⟩] }) := by
  have h1 : ¬ (email = "" ∨ password = "" ∨ role = "") := by
    rintro (h | h | h)
    · exact he h
    · exact hp h
    · exact hr h
  have h2 := (findOne_user_none st (normEmail toLowerCase email) role).2 hnone
  have h3 : userIndexConflict
      ⟨newId, normEmail toLowerCase email, hash password, role, none, none, none,
          none⟩ st.users = false := by
    unfold userIndexConflict
    rw [List.any_eq_false]
    intro u hu
    simpa using hnone u hu
  have h4 : st.users.any (fun u => u._id = newId) = false := by
    rw [List.any_eq_false]
    intro u hu
    simpa using hfresh u hu
  simp only [register, h2]
  rw [if_neg h1]
  simp [hvalid, h3, h4]

/-- A registration answered 201 passed every check. -/
theorem register_created (toLowerCase : String → String)
    (hash : String → String) (secret : String) (newId : ObjectId)
    (now : Date) (st : Store) (body : CredentialsBody)
    (h : (register toLowerCase hash secret newId now st body).1.status = 201) :
    ∃ email password role,
      body = ⟨some email, some password, some role⟩ ∧
      email ≠ "" ∧ password ≠ "" ∧ role ≠ "" ∧
      (∀ u ∈ st.users, ¬ (u.email = normEmail toLowerCase email ∧ u.role = role)) ∧
      validUser ⟨newId, normEmail toLowerCase email, hash password, role, none, none, none,
          none⟩ = true ∧
      (∀ u ∈ st.users, u._id ≠ newId) := by
  obtain ⟨email, password, role⟩ := body
  unfold register at h
  cases email with
  | none => simp at h
  | some email =>
    cases password with
    | none => simp at h
    | some password =>
      cases role with
      | none => simp at h
      | some role =>
        simp only at h
        by_cases h1 : email = "" ∨ password = "" ∨ role = ""
        · rw [if_pos h1] at h
          simp at h
        · rw [if_neg h1] at h
          cases hf : findOne (fun u : User => u.email = normEmail toLowerCase email &&
              u.role = role)
              st.users with
          | some u => simp [hf] at h
          | none =>
            simp only [hf] at h
            split at h
            · rename_i hc
              simp only [Bool.and_eq_true, Bool.not_eq_true'] at hc
              refine ⟨email, password, role, rfl, ?_, ?_, ?_,
                (findOne_user_none st _ _).1 hf, hc.1.1, ?_⟩
              · exact fun he => h1 (Or.inl he)
              · exact fun he => h1 (Or.inr (Or.inl he))
              · exact fun he => h1 (Or.inr (Or.inr he))
              · intro u hu hid
                have := hc.2
                rw [List.any_eq_false] at this
                exact this u hu (by simpa using hid)
            · simp at h

/-- A registration either leaves the store as it is or appends one account
whose (email, role) no stored account has. -/
theorem register_store (toLowerCase : String → String)
    (hash : String → String) (secret : String) (newId : ObjectId)
    (now : Date) (st : Store) (body : CredentialsBody) :
    (register toLowerCase hash secret newId now st body).2 = st ∨
      ∃ u, (register toLowerCase hash secret newId now st body).2 =
          { st with users := st.users ++ [u] } ∧
        ∀ d ∈ st.users, ¬ (d.email = u.email ∧ d.role = u.role) := by
  by_cases h : (register toLowerCase hash secret newId now st body).1.status = 201
  · obtain ⟨email, password, role, rfl, he, hp, hr, hnone, hvalid, hfresh⟩ :=
      register_created toLowerCase hash secret newId now st body h
    right
    rw [register_accept toLowerCase hash secret newId now st email password role he hp
        hr hnone hvalid
      hfresh]
    exact ⟨_, rfl, hnone⟩
  · left
    obtain ⟨email, password, role⟩ := body
    unfold register at h ⊢
    cases email with
    | none => rfl
    | some email =>
      cases password with
      | none => rfl
      | some password =>
        cases role with
        | none => rfl
        | some role =>
          simp only at h ⊢
          by_cases h1 : email = "" ∨ password = "" ∨ role = ""
          · rw [if_pos h1]
          · rw [if_neg h1] at h ⊢
            cases hf : findOne (fun u : User => u.email = normEmail toLowerCase email &&
                u.role = role)
                st.users with
            | some u => rfl
            | none =>
              simp only [hf] at h ⊢
              split
              · rename_i hc
                rw [if_pos hc] at h
                exact absurd rfl h
              · rfl

/-- One registration keeps the (email, role) pairs of the stored accounts
distinct. -/
theorem register_unique_step (toLowerCase : String → String)
    (hash : String → String) (secret : String) (newId : ObjectId)
    (now : Date) (st : Store) (body : CredentialsBody) (h : UsersUnique st) :
    UsersUnique (register toLowerCase hash secret newId now st body).2 := by
  rcases register_store toLowerCase hash secret newId now st body with h1 | ⟨u, h1, h2⟩
  · rw [h1]; exact h
  · rw [h1]
    unfold UsersUnique at h ⊢
    simp only [List.map_append, List.map_cons, List.map_nil]
    rw [List.nodup_append]
    refine ⟨h, List.nodup_singleton _, ?_⟩
    intro p hp hq
    rw [List.mem_singleton] at hq
    rw [List.mem_map] at hp
    obtain ⟨d, hd, hdp⟩ := hp
    rw [hq] at hdp
    simp only [Prod.mk.injEq] at hdp
    exact h2 d hd hdp

/-- C13: after a registration answered 201 for (email, role), every further
registration with the same email and role is answered 400 and leaves the
store unchanged, whatever its password; a registration with the same email
and another role of the enum, not yet registered, is answered 201 and appends
exactly one account with that email and role; and every sequence of
registrations started from a store without two accounts for one
(email, role) ends in such a store.  An email is stored, and looked up, as the
schema setters leave it: trimmed and passed through `toLowerCase`, whatever
that mapping does to it. -/
theorem register_pair_unique (toLowerCase : String → String)
    (hash : String → String) (secret : String) (id1 : ObjectId)
    (now1 : Date) (st : Store) (body : CredentialsBody)
    (h1 : (register toLowerCase hash secret id1 now1 st body).1.status = 201) :
    ∃ email password role, body = ⟨some email, some password, some role⟩ ∧
      (∀ (hash2 : String → String) (id2 : ObjectId) (now2 : Date) (pw2 : Option String),
        (register toLowerCase hash2 secret id2 now2
            (register toLowerCase hash secret id1 now1 st body).2
            ⟨some email, pw2, some role⟩).1.status = 400 ∧
        (register toLowerCase hash2 secret id2 now2
            (register toLowerCase hash secret id1 now1 st body).2
            ⟨some email, pw2, some role⟩).2 =
                (register toLowerCase hash secret id1 now1 st body).2) ∧
      (∀ (hash2 : String → String) (id2 : ObjectId) (now2 : Date) (pw2 role2 : String),
        pw2 ≠ "" → role2 ≠ role → (role2 = "listener" ∨ role2 = "speaker") →
        6 ≤ (hash2 pw2).length →
        (∀ u ∈ st.users, ¬ (u.email = normEmail toLowerCase email ∧ u.role = role2)) →
        (∀ u ∈ (register toLowerCase hash secret id1 now1 st body).2.users, u._id ≠ id2) →
        ∃ u, register toLowerCase hash2 secret id2 now2
            (register toLowerCase hash secret id1 now1 st body).2
              ⟨some email, some pw2, some role2⟩ =
            (⟨201, .registered "Registration successful" (jwtSign id2 role2 secret now2)
                (normEmail toLowerCase email) role2⟩,
              { (register toLowerCase hash secret id1 now1 st body).2 with
                users := (register toLowerCase hash secret id1 now1 st body).2.users ++ [u] }) ∧
          u._id = id2 ∧ u.email = normEmail toLowerCase email ∧ u.role = role2) ∧
      (∀ (secret2 : String) (reqs : List RegisterReq) (st0 : Store),
        UsersUnique st0 → UsersUnique (runRegister toLowerCase secret2 st0 reqs)) := by
  obtain ⟨email, password, role, rfl, he, hp, hr, hnone, hvalid, hfresh⟩ :=
    register_created toLowerCase hash secret id1 now1 st body h1
  have hacc := register_accept toLowerCase hash secret id1 now1 st email password role
      he hp hr hnone
    hvalid hfresh
  refine ⟨email, password, role, rfl, ?_, ?_, ?_⟩
  · intro hash2 id2 now2 pw2
    rw [hacc]
    cases pw2 with
    | none => exact ⟨rfl, rfl⟩
    | some pw =>
      simp only [register]
      by_cases hc : email = "" ∨ pw = "" ∨ role = ""
      · rw [if_pos hc]
        exact ⟨rfl, rfl⟩
      · rw [if_neg hc]
        cases hf : findOne (fun u : User => u.email = normEmail toLowerCase email && u.role = role)
            (st.users ++ [⟨id1, normEmail toLowerCase email, hash password, role, none,
                none, none, none⟩])
          with
        | some u => exact ⟨rfl, rfl⟩
        | none =>
          have := (findOne_user_none ⟨st.users ++
            [⟨id1, normEmail toLowerCase email, hash password, role, none, none, none,
                none⟩], st.topics,
            st.questions, st.feedback⟩ (normEmail toLowerCase email) role).1 hf
            ⟨id1, normEmail toLowerCase email, hash password, role, none, none, none,
                none⟩ (by simp)
          exact absurd ⟨rfl, rfl⟩ this
  · intro hash2 id2 now2 pw2 role2 hpw hne hrole hlen hnone2 hfresh2
    rw [hacc] at hfresh2 ⊢
    have hr2 : role2 ≠ "" := by
      rcases hrole with h | h <;> rw [h] <;> decide
    have hvalid2 : validUser ⟨id2, normEmail toLowerCase email, hash2 pw2, role2, none,
        none, none, none⟩
        = true := by
      simp only [validUser, Bool.and_eq_true, Bool.or_eq_true, decide_eq_true_eq] at hvalid ⊢
      exact ⟨⟨⟨hvalid.1.1.1, hvalid.1.1.2⟩, hlen⟩, hrole⟩
    have hnone3 : ∀ u ∈ st.users ++
        [⟨id1, normEmail toLowerCase email, hash password, role, none, none, none, none⟩],
        ¬ (u.email = normEmail toLowerCase email ∧ u.role = role2) := by
      intro u hu hp2
      rcases List.mem_append.1 hu with h | h
      · exact hnone2 u h hp2
      · rw [List.mem_singleton] at h
        rw [h] at hp2
        exact hne hp2.2.symm
    refine ⟨⟨id2, normEmail toLowerCase email, hash2 pw2, role2, none, none, none, none⟩, ?_,
        rfl, rfl, rfl⟩
    exact register_accept toLowerCase hash2 secret id2 now2 _ email pw2 role2 he hpw hr2
        hnone3 hvalid2
      hfresh2
  · intro secret2 reqs
    induction reqs with
    | nil => intro st0 h; exact h
    | cons q qs ih =>
      intro st0 h
      exact ih _ (register_unique_step toLowerCase q.hash secret2 q.newId q.now st0 q.body h)

/-- C13, at an instance: a listener account is registered in the example
account store. -/
theorem register_pair_unique_witness :
    (register exToLowerCase exHash "k" 2 5000 exAccounts exRegBody).1.status = 201 ∧
    ∃ email password role, exRegBody = ⟨some email, some password, some role⟩ ∧
      (∀ (hash2 : String → String) (id2 : ObjectId) (now2 : Date) (pw2 : Option String),
        (register exToLowerCase hash2 "k" id2 now2
            (register exToLowerCase exHash "k" 2 5000 exAccounts exRegBody).2
            ⟨some email, pw2, some role⟩).1.status = 400 ∧
        (register exToLowerCase hash2 "k" id2 now2
            (register exToLowerCase exHash "k" 2 5000 exAccounts exRegBody).2
            ⟨some email, pw2, some role⟩).2 =
          (register exToLowerCase exHash "k" 2 5000 exAccounts exRegBody).2) ∧
      (∀ (hash2 : String → String) (id2 : ObjectId) (now2 : Date) (pw2 role2 : String),
        pw2 ≠ "" → role2 ≠ role → (role2 = "listener" ∨ role2 = "speaker") →
        6 ≤ (hash2 pw2).length →
        (∀ u ∈ exAccounts.users, ¬ (u.email = normEmail exToLowerCase email ∧ u.role = role2)) →
        (∀ u ∈ (register exToLowerCase exHash "k" 2 5000 exAccounts exRegBody).2.users,
            u._id ≠ id2) →
        ∃ u, register exToLowerCase hash2 "k" id2 now2
            (register exToLowerCase exHash "k" 2 5000 exAccounts exRegBody).2
              ⟨some email, some pw2, some role2⟩ =
            (⟨201, .registered "Registration successful" (jwtSign id2 role2 "k" now2)
                (normEmail exToLowerCase email) role2⟩,
              { (register exToLowerCase exHash "k" 2 5000 exAccounts exRegBody).2 with
                users := (register exToLowerCase exHash "k" 2 5000 exAccounts
                    exRegBody).2.users ++ [u] }) ∧
          u._id = id2 ∧ u.email = normEmail exToLowerCase email ∧ u.role = role2) ∧
      (∀ (secret2 : String) (reqs : List RegisterReq) (st0 : Store),
        UsersUnique st0 → UsersUnique (runRegister exToLowerCase secret2 st0 reqs)) :=
  ⟨by decide, register_pair_unique exToLowerCase exHash "k" 2 5000 exAccounts exRegBody (by decide)⟩

/-- Two stored accounts with the same (email, role) are the same account. -/
theorem users_unique_eq (st : Store) (h : UsersUnique st) (u v : User)
    (hu : u ∈ st.users) (hv : v ∈ st.users) (he : u.email = v.email) (hr : u.role = v.role) :
    u = v :=
  List.inj_on_of_nodup_map h hu hv (by simp [he, hr])

/-- C14: for a login with email, password and role all present, the answer is
400 'Invalid credentials' exactly when no stored account has the (email,
role) or the password does not verify against the stored hash of the account
that has it; otherwise the answer is 200 with a token signed with the secret
over the userId and role of exactly that account, expiring 24 hours after
issue.  The store is unchanged in every case.  The account query is cast by
the schema setters, so the email is looked up trimmed and passed through
`toLowerCase`, whatever that mapping does to it. -/
theorem login_contract (toLowerCase : String → String)
    (compare : String → String → Bool) (secret : String) (now : Date)
    (st : Store) (email password role : String)
    (he : email ≠ "") (hp : password ≠ "") (hr : role ≠ "") (huniq : UsersUnique st) :
    ((login toLowerCase compare secret now st ⟨some email, some password, some role⟩).1 =
        ⟨400, .message "Invalid credentials"⟩ ↔
      (∀ u ∈ st.users, ¬ (u.email = normEmail toLowerCase email ∧ u.role = role)) ∨
      (∃ u ∈ st.users, u.email = normEmail toLowerCase email ∧ u.role = role ∧
        compare password u.password = false)) ∧
    ((login toLowerCase compare secret now st ⟨some email, some password, some role⟩).1 ≠
        ⟨400, .message "Invalid credentials"⟩ →
      ∃ u ∈ st.users, u.email = normEmail toLowerCase email ∧ u.role = role ∧
        compare password u.password = true ∧
        (login toLowerCase compare secret now st ⟨some email, some password, some role⟩).1 =
          ⟨200, .loggedIn (jwtSign u._id u.role secret now) u.role u.email⟩ ∧
        (jwtSign u._id u.role secret now).payload.userId = some u._id ∧
        (jwtSign u._id u.role secret now).payload.role = u.role ∧
        (jwtSign u._id u.role secret now).payload.exp =
          (jwtSign u._id u.role secret now).payload.iat + 24 * 60 * 60 ∧
        (jwtSign u._id u.role secret now).key = secret) ∧
    (login toLowerCase compare secret now st ⟨some email, some password, some role⟩).2 = st := by
  have h1 : ¬ (email = "" ∨ password = "" ∨ role = "") := by
    rintro (h | h | h)
    · exact he h
    · exact hp h
    · exact hr h
  cases hf : findOne (fun u : User => u.email = normEmail toLowerCase email && u.role =
      role) st.users with
  | none =>
    have hnone := (findOne_user_none st _ _).1 hf
    have hres : login toLowerCase compare secret now st ⟨some email, some password, some role⟩ =
        (⟨400, .message "Invalid credentials"⟩, st) := by
      simp only [login, hf]
      rw [if_neg h1]
    rw [hres]
    exact ⟨⟨fun _ => Or.inl hnone, fun _ => rfl⟩, fun h => absurd rfl h, rfl⟩
  | some user =>
    have hmem : user ∈ st.users := List.mem_of_find?_eq_some hf
    have hpair : user.email = normEmail toLowerCase email ∧ user.role = role := by
      have := List.find?_some hf
      simpa using this
    by_cases hc : compare password user.password = true
    · have hres : login toLowerCase compare secret now st ⟨some email, some password, some role⟩ =
          (⟨200, .loggedIn (jwtSign user._id user.role secret now) user.role user.email⟩,
            st) := by
        simp only [login, hf]
        rw [if_neg h1]
        simp [hc]
      rw [hres]
      refine ⟨⟨fun h => ?_, fun h => ?_⟩, fun _ => ?_, rfl⟩
      · simp at h
      · rcases h with h | ⟨u, hu, hue, hur, hcmp⟩
        · exact absurd hpair (h user hmem)
        · have huv := users_unique_eq st huniq u user hu hmem (hue.trans hpair.1.symm)
            (hur.trans hpair.2.symm)
          rw [huv, hc] at hcmp
          simp at hcmp
      · exact ⟨user, hmem, hpair.1, hpair.2, hc, rfl, rfl, rfl, rfl, rfl⟩
    · have hc2 : compare password user.password = false := by simpa using hc
      have hres : login toLowerCase compare secret now st ⟨some email, some password, some role⟩ =
          (⟨400, .message "Invalid credentials"⟩, st) := by
        simp only [login, hf]
        rw [if_neg h1]
        simp [hc2]
      rw [hres]
      exact ⟨⟨fun _ => Or.inr ⟨user, hmem, hpair.1, hpair.2, hc2⟩, fun _ => rfl⟩,
        fun h => absurd rfl h, rfl⟩

/-- C14, at an instance: the stored speaker logs in with the right
password. -/
theorem login_contract_witness :
    ((login exToLowerCase exCompare "k" 5000 exAccounts
          ⟨some "Ada@conf.org", some "secret1", some "speaker"⟩).1 =
        ⟨400, .message "Invalid credentials"⟩ ↔
      (∀ u ∈ exAccounts.users, ¬ (u.email = normEmail exToLowerCase "Ada@conf.org" ∧
          u.role = "speaker")) ∨
      (∃ u ∈ exAccounts.users, u.email = normEmail exToLowerCase "Ada@conf.org" ∧
          u.role = "speaker" ∧
        exCompare "secret1" u.password = false)) ∧
    ((login exToLowerCase exCompare "k" 5000 exAccounts
          ⟨some "Ada@conf.org", some "secret1", some "speaker"⟩).1 ≠
        ⟨400, .message "Invalid credentials"⟩ →
      ∃ u ∈ exAccounts.users, u.email = normEmail exToLowerCase "Ada@conf.org" ∧
          u.role = "speaker" ∧
        exCompare "secret1" u.password = true ∧
        (login exToLowerCase exCompare "k" 5000 exAccounts
            ⟨some "Ada@conf.org", some "secret1", some "speaker"⟩).1 =
          ⟨200, .loggedIn (jwtSign u._id u.role "k" 5000) u.role u.email⟩ ∧
        (jwtSign u._id u.role "k" 5000).payload.userId = some u._id ∧
        (jwtSign u._id u.role "k" 5000).payload.role = u.role ∧
        (jwtSign u._id u.role "k" 5000).payload.exp =
          (jwtSign u._id u.role "k" 5000).payload.iat + 24 * 60 * 60 ∧
        (jwtSign u._id u.role "k" 5000).key = "k") ∧
    (login exToLowerCase exCompare "k" 5000 exAccounts
        ⟨some "Ada@conf.org", some "secret1", some "speaker"⟩).2 = exAccounts :=
  login_contract exToLowerCase exCompare "k" 5000 exAccounts "Ada@conf.org" "secret1" "speaker"
    (by decide) (by decide) (by decide)
    (show (exAccounts.users.map (fun u => (u.email, u.role))).Nodup by decide)

/-- C15: the authentication gate calls the next handler exactly when the
header holds a token whose signature was made with the secret, that has not
expired, and whose payload carries a userId; the request context is then the
payload's userId and role.  In every other case the answer is 401.  A token
returned by login, or by register, is accepted for 24 hours and yields the
id and role of the account it was issued for. -/
theorem auth_gate (toLowerCase : String → String)
    (secret : String) (now : Date) (header : TokenHeader) :
    (∀ u, auth secret now header = .next u ↔
      ∃ t, header = .jwt t ∧ t.key = secret ∧ now / 1000 < t.payload.exp ∧
        t.payload.userId = some u.userId ∧ t.payload.role = u.role) ∧
    ((∀ u, auth secret now header ≠ .next u) →
      ∃ r, auth secret now header = .denied r ∧ r.status = 401) ∧
    (∀ (compare : String → String → Bool) (issued : Date) (st : Store)
        (body : CredentialsBody) (tk : Jwt) (role email : String),
      (login toLowerCase compare secret issued st body).1 = ⟨200, .loggedIn tk role email⟩ →
      now / 1000 < issued / 1000 + 86400 →
      ∃ u ∈ st.users, auth secret now (.jwt tk) = .next ⟨u._id, u.role⟩) ∧
    (∀ (hash : String → String) (newId : ObjectId) (issued : Date) (st : Store)
        (body : CredentialsBody) (msg : String) (tk : Jwt) (email role : String),
      (register toLowerCase hash secret newId issued st body).1 = ⟨201,
          .registered msg tk email role⟩ →
      now / 1000 < issued / 1000 + 86400 →
      ∃ u ∈ (register toLowerCase hash secret newId issued st body).2.users,
        u._id = newId ∧ auth secret now (.jwt tk) = .next ⟨u._id, u.role⟩) := by
  have hsign : ∀ (uid : ObjectId) (role : String) (issued : Date),
      now / 1000 < issued / 1000 + 86400 →
      auth secret now (.jwt (jwtSign uid role secret issued)) = .next ⟨uid, role⟩ := by
    intro uid role issued h
    simp [auth, jwtVerify, jwtSign, h]
  have hjwt : ∀ t : Jwt, auth secret now (.jwt t) =
      (match jwtVerify t secret now with
        | none => AuthResult.denied ⟨401, .message "Token is not valid"⟩
        | some decoded =>
          match decoded.userId with
          | none => AuthResult.denied ⟨401, .message "Invalid token structure"⟩
          | some userId => AuthResult.next ⟨userId, decoded.role⟩) := fun _ => rfl
  refine ⟨?_, ?_, ?_, ?_⟩
  · intro u
    cases header with
    | absent => simp [auth]
    | malformed => simp [auth]
    | jwt t =>
      rw [hjwt]
      by_cases hv : t.key = secret ∧ now / 1000 < t.payload.exp
      · rw [show jwtVerify t secret now = some t.payload from if_pos hv]
        cases hid : t.payload.userId with
        | none => simp [hid]
        | some uid =>
          obtain ⟨uid2, role2⟩ := u
          simp only [hid, AuthResult.next.injEq, AuthUser.mk.injEq, TokenHeader.jwt.injEq,
            exists_eq_left', Option.some.injEq]
          constructor
          · rintro ⟨h1, h2⟩
            exact ⟨hv.1, hv.2, h1, h2⟩
          · rintro ⟨-, -, h1, h2⟩
            exact ⟨h1, h2⟩
      · rw [show jwtVerify t secret now = none from if_neg hv]
        simp only [TokenHeader.jwt.injEq, exists_eq_left']
        constructor
        · intro h
          simp at h
        · rintro ⟨h1, h2, -, -⟩
          exact absurd ⟨h1, h2⟩ hv
  · intro hno
    cases header with
    | absent => exact ⟨_, rfl, rfl⟩
    | malformed => exact ⟨_, rfl, rfl⟩
    | jwt t =>
      rw [hjwt] at hno ⊢
      cases hv : jwtVerify t secret now with
      | none => exact ⟨_, rfl, rfl⟩
      | some decoded =>
        cases hid : decoded.userId with
        | none =>
          refine ⟨⟨401, .message "Invalid token structure"⟩, ?_, rfl⟩
          simp only [hid]
        | some uid =>
          simp only [hv, hid] at hno
          exact absurd rfl (hno ⟨uid, decoded.role⟩)
  · intro compare issued st body tk role email hlog hexp
    obtain ⟨e, p, r⟩ := body
    unfold login at hlog
    cases e with
    | none => simp at hlog
    | some e =>
      cases p with
      | none => simp at hlog
      | some p =>
        cases r with
        | none => simp at hlog
        | some r =>
          simp only at hlog
          split at hlog
          · simp at hlog
          · cases hf : findOne (fun u : User => u.email = normEmail toLowerCase e && u.role = r)
                st.users with
            | none => simp [hf] at hlog
            | some user =>
              simp only [hf] at hlog
              split at hlog
              · simp at hlog
              · simp only [Prod.mk.injEq, Response.mk.injEq, Body.loggedIn.injEq,
                  true_and] at hlog
                refine ⟨user, List.mem_of_find?_eq_some hf, ?_⟩
                rw [← hlog.1]
                exact hsign _ _ _ hexp
  · intro hash newId issued st body msg tk email role hreg hexp
    have hst : (register toLowerCase hash secret newId issued st body).1.status = 201
        := by rw [hreg]
    obtain ⟨e, p, r, rfl, he, hp, hr, hnone, hvalid, hfresh⟩ :=
      register_created toLowerCase hash secret newId issued st _ hst
    rw [register_accept toLowerCase hash secret newId issued st e p r he hp hr hnone hvalid hfresh]
      at hreg ⊢
    simp only [Response.mk.injEq, Body.registered.injEq, true_and] at hreg
    refine ⟨⟨newId, normEmail toLowerCase e, hash p, r, none, none, none, none⟩, by simp, rfl, ?_⟩
    rw [← hreg.2.1]
    exact hsign _ _ _ hexp

/-- C16: the speaker gate calls the next handler exactly when the request
context holds a user whose role is the string 'speaker', the listener gate
exactly when it is the string 'listener'; otherwise each answers 403. -/
theorem role_gates (user : Option AuthUser) :
    (speakerAuth user = none ↔ ∃ u, user = some u ∧ u.role = "speaker") ∧
    (speakerAuth user ≠ none → ∃ r, speakerAuth user = some r ∧ r.status = 403) ∧
    (listenerAuth user = none ↔ ∃ u, user = some u ∧ u.role = "listener") ∧
    (listenerAuth user ≠ none → ∃ r, listenerAuth user = some r ∧ r.status = 403) := by
  cases user with
  | none =>
    refine ⟨by simp [speakerAuth], fun _ => ⟨_, rfl, rfl⟩, by simp [listenerAuth],
      fun _ => ⟨_, rfl, rfl⟩⟩
  | some u =>
    refine ⟨?_, ?_, ?_, ?_⟩
    · by_cases h : u.role = "speaker" <;> simp [speakerAuth, h]
    · intro hne
      by_cases h : u.role = "speaker"
      · simp [speakerAuth, h] at hne
      · exact ⟨⟨403, .accessDenied "Access denied. Speaker only." (some u.role)⟩,
          by simp [speakerAuth, h], rfl⟩
    · by_cases h : u.role = "listener" <;> simp [listenerAuth, h]
    · intro hne
      by_cases h : u.role = "listener"
      · simp [listenerAuth, h] at hne
      · exact ⟨⟨403, .message "Access denied. Listener only."⟩,
          by simp [listenerAuth, h], rfl⟩

/-- The duplicate-name query of topic creation finds nothing exactly when the
speaker has no topic of that name. -/
theorem findOne_topic_name_none (st : Store) (uid : ObjectId) (name : String) :
    findOne (fun t : Topic => t.speakerId = uid && t.name = name) st.topics = none ↔
      ∀ t ∈ st.topics, ¬ (t.speakerId = uid ∧ t.name = name) := by
  unfold findOne
  rw [List.find?_eq_none]
  constructor
  · intro h t ht hp
    exact h t ht (by simpa using hp)
  · intro h t ht hp
    exact h t ht (by simpa using hp)

/-- A topic creation either leaves the store as it is, and is then not
answered 201, or is answered 201 and appends one topic of the requester with
the generated id, which no stored topic has, and a (speakerId, name) pair
that no stored topic has. -/
theorem createTopic_store (newId : ObjectId) (st : Store) (user : AuthUser)
    (body : CreateTopicBody) :
    ((createTopic newId st user body).2 = st ∧
        (createTopic newId st user body).1.status ≠ 201) ∨
      ∃ t, createTopic newId st user body =
          (⟨201, .topic t⟩, { st with topics := st.topics ++ [t] }) ∧
        t._id = newId ∧ t.speakerId = user.userId ∧
        (∀ d ∈ st.topics, d._id ≠ newId) ∧
        (∀ d ∈ st.topics, ¬ (d.speakerId = t.speakerId ∧ d.name = t.name)) := by
  obtain ⟨name, speakerInfo, startTime, endTime⟩ := body
  unfold createTopic
  cases hgate : speakerAuth (some user) with
  | some denied =>
    exact Or.inl ⟨rfl, by simp [speakerAuth_denied_status _ _ hgate]⟩
  | none =>
    cases name with
    | none => exact Or.inl ⟨rfl, by simp⟩
    | some name =>
      simp only
      split
      · exact Or.inl ⟨rfl, by simp⟩
      · cases speakerInfo with
        | none => exact Or.inl ⟨rfl, by simp⟩
        | some speakerInfo =>
          obtain ⟨speakerName, conferenceTime, duration⟩ := speakerInfo
          cases speakerName with
          | none => exact Or.inl ⟨rfl, by simp⟩
          | some speakerName =>
            simp only
            split
            · exact Or.inl ⟨rfl, by simp⟩
            · cases hdup : findOne (fun t : Topic =>
                  t.speakerId = user.userId && t.name = jsTrim name) st.topics with
              | some d => exact Or.inl ⟨rfl, by simp⟩
              | none =>
                cases findOne (fun u : User => u._id = user.userId) st.users with
                | none => exact Or.inl ⟨rfl, by simp⟩
                | some speaker =>
                  cases newDate conferenceTime with
                  | none => exact Or.inl ⟨rfl, by simp⟩
                  | some conferenceTime =>
                    cases newDate startTime with
                    | none => exact Or.inl ⟨rfl, by simp⟩
                    | some startTime =>
                      cases newDate endTime with
                      | none => exact Or.inl ⟨rfl, by simp⟩
                      | some endTime =>
                        simp only
                        split
                        · rename_i hc
                          simp only [Bool.and_eq_true, Bool.not_eq_true'] at hc
                          refine Or.inr ⟨_, rfl, rfl, rfl, ?_, ?_⟩
                          · intro d hd hid
                            have := hc.2
                            rw [List.any_eq_false] at this
                            exact this d hd (by simpa using hid)
                          · exact (findOne_topic_name_none st _ _).1 hdup
                        · exact Or.inl ⟨rfl, by simp⟩

/-- A topic update either leaves the store as it is or replaces the stored
topic of that id, owned by the requester, with the merged document, whose
(speakerId, name) pair no other stored topic has. -/
theorem patchTopic_store (st : Store) (user : AuthUser) (topicId : ObjectId)
    (body : TopicPatch) :
    (patchTopic st user topicId body).2 = st ∨
      ∃ topic, topic ∈ st.topics ∧ topic._id = topicId ∧ topic.speakerId = user.userId ∧
        (patchTopic st user topicId body).2 =
          { st with topics := replaceTopic (assignTopic topic body) st.topics } ∧
        (∀ d ∈ st.topics, d._id ≠ topicId →
          ¬ (d.speakerId = (assignTopic topic body).speakerId ∧
            d.name = (assignTopic topic body).name)) := by
  unfold patchTopic
  cases speakerAuth (some user) with
  | some denied => exact Or.inl rfl
  | none =>
    cases hf : findOne (fun t : Topic => t._id = topicId && t.speakerId = user.userId)
        st.topics with
    | none => exact Or.inl rfl
    | some topic =>
      have hp := List.find?_some hf
      simp only [Bool.and_eq_true, decide_eq_true_eq] at hp
      simp only
      split
      · rename_i hc
        simp only [Bool.and_eq_true, Bool.not_eq_true'] at hc
        refine Or.inr ⟨topic, List.mem_of_find?_eq_some hf, hp.1, hp.2, rfl, ?_⟩
        intro d hd hid hpair
        have := hc.2
        unfold topicIndexConflict at this
        rw [List.any_eq_false] at this
        have h2 := this d hd
        have hid2 : d._id ≠ (assignTopic topic body)._id := by
          show d._id ≠ topic._id
          rw [hp.1]; exact hid
        simp [hid2, hpair.1, hpair.2] at h2
      · exact Or.inl rfl

/-- A topic delete leaves a sublist of the stored topics. -/
theorem deleteTopic_topics_sublist (st : Store) (user : AuthUser) (topicId : ObjectId) :
    (deleteTopic st user topicId).2.topics.Sublist st.topics := by
  unfold deleteTopic
  cases speakerAuth (some user) with
  | some denied => exact List.Sublist.refl _
  | none =>
    cases findOne (fun t : Topic => t._id = topicId && t.speakerId = user.userId)
        st.topics with
    | none => exact List.Sublist.refl _
    | some topic => exact List.eraseP_sublist _

/-- Replacing a stored topic by a document with the same id keeps the ids. -/
theorem replaceTopic_ids (t : Topic) (docs : List Topic) :
    (replaceTopic t docs).map (fun d => d._id) = docs.map (fun d => d._id) := by
  unfold replaceTopic
  rw [List.map_map]
  apply List.map_congr_left
  intro d _
  by_cases h : d._id = t._id <;> simp [h]

/-- Replacing a stored topic keeps the (speakerId, name) pairs distinct when
no other stored topic has the new pair. -/
theorem replaceTopic_pairs_nodup (t : Topic) (docs : List Topic)
    (hids : (docs.map (fun d => d._id)).Nodup)
    (hpairs : (docs.map (fun d => (d.speakerId, d.name))).Nodup)
    (hfree : ∀ d ∈ docs, d._id ≠ t._id → ¬ (d.speakerId = t.speakerId ∧ d.name = t.name)) :
    ((replaceTopic t docs).map (fun d => (d.speakerId, d.name))).Nodup := by
  induction docs with
  | nil => exact List.nodup_nil
  | cons x xs ih =>
    rw [List.map_cons, List.nodup_cons] at hids hpairs
    have hfree2 : ∀ d ∈ xs, d._id ≠ t._id →
        ¬ (d.speakerId = t.speakerId ∧ d.name = t.name) :=
      fun d hd => hfree d (List.mem_cons_of_mem _ hd)
    have ih2 := ih hids.2 hpairs.2 hfree2
    have hmem : ∀ p ∈ (replaceTopic t xs).map (fun d => (d.speakerId, d.name)),
        p ∈ xs.map (fun d => (d.speakerId, d.name)) ∨
          (p = (t.speakerId, t.name) ∧ ∃ d ∈ xs, d._id = t._id) := by
      intro p hp
      unfold replaceTopic at hp
      rw [List.map_map, List.mem_map] at hp
      obtain ⟨d, hd, hdp⟩ := hp
      by_cases h : d._id = t._id
      · right
        simp only [Function.comp_apply, h, if_true] at hdp
        exact ⟨hdp.symm, d, hd, h⟩
      · left
        simp only [Function.comp_apply, h, if_false] at hdp
        exact List.mem_map.2 ⟨d, hd, hdp⟩
    unfold replaceTopic at ih2 ⊢
    rw [List.map_cons, List.map_cons, List.nodup_cons]
    refine ⟨?_, ih2⟩
    intro hin
    by_cases hx : x._id = t._id
    · simp only [hx, if_true] at hin
      rcases hmem _ hin with h | ⟨-, d, hd, hdt⟩
      · rw [List.mem_map] at h
        obtain ⟨d, hd, hdp⟩ := h
        simp only [Prod.mk.injEq] at hdp
        have hdid : d._id ≠ t._id := by
          intro hdt
          exact hids.1 (List.mem_map.2 ⟨d, hd, by rw [hdt, hx]⟩)
        exact hfree2 d hd hdid hdp
      · exact hids.1 (List.mem_map.2 ⟨d, hd, by rw [hdt, hx]⟩)
    · simp only [hx, if_false] at hin
      rcases hmem _ hin with h | ⟨h, -⟩
      · exact hpairs.1 h
      · simp only [Prod.mk.injEq] at h
        exact hfree x (List.mem_cons_self _ _) hx h

/-- C17 as stated fails: the body `exTopicBodyNoStart` sent by the first
speaker has a non-blank name, a speakerName and a conferenceTime, and the
speaker has no topic of that name, yet no topic is added: without a
`startTime` the request is answered 500 and the store is unchanged. -/
theorem createTopic_missing_startTime :
    exAuth.role = "speaker" ∧
    exTopicBodyNoStart.name = some " Networks " ∧ jsTrim " Networks " = "Networks" ∧
    (∃ si, exTopicBodyNoStart.speakerInfo = some si ∧ si.speakerName = some "Ada" ∧
      si.conferenceTime = .date 5000) ∧
    (∀ t ∈ exStore.topics, ¬ (t.speakerId = exAuth.userId ∧ t.name = "Networks")) ∧
    createTopic 12 exStore exAuth exTopicBodyNoStart =
      (⟨500, .failure "Error creating topic"⟩, exStore) := by
  refine ⟨by decide, by decide, by decide, ⟨_, rfl, by decide, by decide⟩, by decide,
    by decide⟩

/-- C17, amended: a POST /topics by a speaker S is answered 400 with the store
unchanged if the name is missing or blank after trimming, if speakerInfo is
missing or lacks speakerName or conferenceTime, or if S already has a topic
whose name is the trimmed name.  Otherwise, when conferenceTime, startTime and
endTime are dates, the account of S is stored and the generated id is new,
the answer is 201 and exactly one topic is appended, with the trimmed name,
speakerId S and the generated id. -/
theorem createTopic_contract (newId : ObjectId) (st : Store) (user : AuthUser)
    (body : CreateTopicBody) (hrole : user.role = "speaker") :
    ((body.name = none ∨ (∃ n, body.name = some n ∧ jsTrim n = "") ∨
        body.speakerInfo = none ∨
        (∃ si, body.speakerInfo = some si ∧
          (si.speakerName = none ∨ si.speakerName = some "" ∨
            si.conferenceTime = .missing)) ∨
        (∃ n, body.name = some n ∧
          ∃ t ∈ st.topics, t.speakerId = user.userId ∧ t.name = jsTrim n)) →
      (createTopic newId st user body).1.status = 400 ∧
        (createTopic newId st user body).2 = st) ∧
    (∀ (n sn : String) (ct s e : Date) (dur : Option Nat),
      body = ⟨some n, some ⟨some sn, .date ct, dur⟩, .date s, .date e⟩ →
      jsTrim n ≠ "" → sn ≠ "" →
      (∀ t ∈ st.topics, ¬ (t.speakerId = user.userId ∧ t.name = jsTrim n)) →
      (∃ u ∈ st.users, u._id = user.userId) →
      (∀ t ∈ st.topics, t._id ≠ newId) →
      ∃ t, createTopic newId st user body =
          (⟨201, .topic t⟩, { st with topics := st.topics ++ [t] }) ∧
        t.name = jsTrim n ∧ t.speakerId = user.userId ∧ t._id = newId) := by
  constructor
  · intro hrej
    obtain ⟨name, speakerInfo, startTime, endTime⟩ := body
    simp only [createTopic, speakerAuth, hrole]
    simp only [ne_eq, not_true_eq_false, if_false]
    cases name with
    | none => exact ⟨rfl, rfl⟩
    | some name =>
      simp only
      by_cases hn : name = "" ∨ jsTrim name = ""
      · rw [if_pos hn]
        exact ⟨rfl, rfl⟩
      · rw [if_neg hn]
        cases speakerInfo with
        | none => exact ⟨rfl, rfl⟩
        | some speakerInfo =>
          obtain ⟨speakerName, conferenceTime, duration⟩ := speakerInfo
          cases speakerName with
          | none => exact ⟨rfl, rfl⟩
          | some speakerName =>
            simp only
            by_cases hs : speakerName = "" ∨ conferenceTime = .missing
            · rw [if_pos hs]
              exact ⟨rfl, rfl⟩
            · rw [if_neg hs]
              cases hdup : findOne (fun t : Topic =>
                  t.speakerId = user.userId && t.name = jsTrim name) st.topics with
              | some d => exact ⟨rfl, rfl⟩
              | none =>
                exfalso
                have hnodup := (findOne_topic_name_none st _ _).1 hdup
                rcases hrej with h | ⟨n, h1, h2⟩ | h | ⟨si, h1, h2⟩ | ⟨n, h1, t, ht, h2⟩
                · simp at h
                · simp only [Option.some.injEq] at h1
                  rw [← h1] at h2
                  exact hn (Or.inr h2)
                · simp at h
                · simp only [Option.some.injEq] at h1
                  rw [← h1] at h2
                  rcases h2 with h | h | h
                  · simp at h
                  · simp only [Option.some.injEq] at h
                    exact hs (Or.inl h)
                  · exact hs (Or.inr h)
                · simp only [Option.some.injEq] at h1
                  rw [← h1] at h2
                  exact hnodup t ht h2
  · intro n sn ct s e dur hb hn hsn hnodup huser hfresh
    subst hb
    have h1 : ¬ (n = "" ∨ jsTrim n = "") := by
      rintro (h | h)
      · rw [h] at hn; exact hn (by decide)
      · exact hn h
    have h2 : ¬ (sn = "" ∨ DateInput.date ct = DateInput.missing) := by
      rintro (h | h)
      · exact hsn h
      · simp at h
    have h3 := (findOne_topic_name_none st user.userId (jsTrim n)).2 hnodup
    have h4 : ∃ sp, findOne (fun u : User => u._id = user.userId) st.users = some sp := by
      obtain ⟨u, hu, hid⟩ := huser
      cases hf : findOne (fun u : User => u._id = user.userId) st.users with
      | none =>
        unfold findOne at hf
        rw [List.find?_eq_none] at hf
        exact absurd (by simpa using hid) (hf u hu)
      | some sp => exact ⟨sp, rfl⟩
    obtain ⟨sp, h4⟩ := h4
    have h5 : ∀ t : Topic, t.name = jsTrim n → t.speakerId = user.userId →
        t.speakerInfo.speakerName = sn → t.status = "upcoming" → t._id = newId →
        (validTopic t && !topicIndexConflict t st.topics &&
          !st.topics.any (fun d => d._id = newId)) = true := by
      intro t htn hts htsn htst htid
      have hv : validTopic t = true := by
        simp [validTopic, htn, hn, htsn, hsn, htst]
      have hi : topicIndexConflict t st.topics = false := by
        unfold topicIndexConflict
        rw [List.any_eq_false]
        intro d hd
        have := hnodup d hd
        rw [htn, hts]
        simp only [Bool.and_eq_true, decide_eq_true_eq, not_and]
        intro hsp hnm
        exact this ⟨hsp.2, hnm⟩
      have hf : st.topics.any (fun d => d._id = newId) = false := by
        rw [List.any_eq_false]
        intro d hd
        simpa using hfresh d hd
      simp [hv, hi, hf]
    refine ⟨⟨newId, jsTrim n, user.userId,
      ⟨sn, ct, durationOrDefault dur, avatarOrNull sp.profileAvatar⟩, s, e, "upcoming"⟩,
      ?_, rfl, rfl, rfl⟩
    simp only [createTopic, speakerAuth, hrole, h3, h4, newDate]
    simp only [ne_eq, not_true_eq_false, if_false]
    rw [if_neg h1, if_neg h2]
    rw [if_pos (h5 _ rfl rfl rfl rfl rfl)]

/-- C17 amended, at an instance: the first speaker creates a topic named
" Networks " in the example store. -/
theorem createTopic_contract_witness :
    ∃ t, createTopic 12 exStore exAuth exTopicBody =
        (⟨201, .topic t⟩, { exStore with topics := exStore.topics ++ [t] }) ∧
      t.name = jsTrim " Networks " ∧ t.speakerId = exAuth.userId ∧ t._id = 12 :=
  (createTopic_contract 12 exStore exAuth exTopicBody (by decide)).2
    " Networks " "Ada" 5000 5000 9000 none rfl (by decide) (by decide) (by decide)
    ⟨exSpeaker, by decide, by decide⟩ (by decide)

/-- One topic request keeps the topic ids and the (speakerId, name) pairs
distinct. -/
theorem topicStep_unique (st : Store) (r : TopicReq)
    (hids : (st.topics.map (fun t => t._id)).Nodup)
    (hpairs : (st.topics.map (fun t => (t.speakerId, t.name))).Nodup) :
    ((topicStep st r).topics.map (fun t => t._id)).Nodup ∧
      ((topicStep st r).topics.map (fun t => (t.speakerId, t.name))).Nodup := by
  cases r with
  | create user newId body =>
    rcases createTopic_store newId st user body with ⟨h, -⟩ | ⟨t, h, hid, -, hfresh, hfree⟩
    · simp only [topicStep, h]
      exact ⟨hids, hpairs⟩
    · simp only [topicStep, h, List.map_append, List.map_cons, List.map_nil]
      constructor
      · rw [List.nodup_append]
        refine ⟨hids, List.nodup_singleton _, ?_⟩
        intro a ha hb
        rw [List.mem_singleton] at hb
        rw [List.mem_map] at ha
        obtain ⟨d, hd, hda⟩ := ha
        exact hfresh d hd (by rw [hda, hb, hid])
      · rw [List.nodup_append]
        refine ⟨hpairs, List.nodup_singleton _, ?_⟩
        intro a ha hb
        rw [List.mem_singleton] at hb
        rw [List.mem_map] at ha
        obtain ⟨d, hd, hda⟩ := ha
        rw [hb] at hda
        simp only [Prod.mk.injEq] at hda
        exact hfree d hd hda
  | patch user topicId body =>
    rcases patchTopic_store st user topicId body with h | ⟨topic, -, htid, -, h, hfree⟩
    · simp only [topicStep, h]
      exact ⟨hids, hpairs⟩
    · simp only [topicStep, h]
      constructor
      · rw [replaceTopic_ids]; exact hids
      · apply replaceTopic_pairs_nodup _ _ hids hpairs
        intro d hd hid
        exact hfree d hd (by rw [← htid]; exact hid)
  | delete user topicId =>
    have hsub := deleteTopic_topics_sublist st user topicId
    exact ⟨hids.sublist (hsub.map _), hpairs.sublist (hsub.map _)⟩

/-- C18: along every sequence of topic create, update and delete requests,
started from a store whose topics have distinct ids and distinct
(speakerId, name) pairs (the empty store is one), no two stored topics have
the same (speakerId, name) pair. -/
theorem topics_pair_invariant (st : Store) (reqs : List TopicReq)
    (hids : (st.topics.map (fun t => t._id)).Nodup)
    (hpairs : (st.topics.map (fun t => (t.speakerId, t.name))).Nodup) :
    ((runTopics st reqs).topics.map (fun t => (t.speakerId, t.name))).Nodup ∧
      ((runTopics st reqs).topics.map (fun t => t._id)).Nodup := by
  induction reqs generalizing st with
  | nil => exact ⟨hpairs, hids⟩
  | cons r rs ih =>
    have hstep := topicStep_unique st r hids hpairs
    exact ih (topicStep st r) hstep.1 hstep.2

/-- C18, at an instance: a create, a refused rename and a delete on the
example store. -/
theorem topics_pair_invariant_witness :
    ((runTopics exStore exTopicReqs).topics.map (fun t => (t.speakerId, t.name))).Nodup ∧
      ((runTopics exStore exTopicReqs).topics.map (fun t => t._id)).Nodup :=
  topics_pair_invariant exStore exTopicReqs (by decide) (by decide)

/-- C19 as stated fails: the first speaker creates topic 12 and then sends
PATCH /topics/12 with a body that carries speakerId 2; both requests succeed
and the topic made by speaker 1 is then owned by speaker 2. -/
theorem topic_owner_changed_by_patch :
    exAuth.userId = 1 ∧
    (createTopic 12 exStore exAuth exTopicBody).1.status = 201 ∧
    (patchTopic (createTopic 12 exStore exAuth exTopicBody).2 exAuth 12 exGiveAway).1.status
      = 200 ∧
    ((runTopics exStore exCreateThenGiveAway).topics.filter (fun t => t._id = 12)).map
      (fun t => t.speakerId) = [2] := by
  refine ⟨by decide, by decide, by decide, by decide⟩

/-- One topic request other than a PATCH of topic T that carries a speakerId,
and other than a create that reuses the id T, keeps the owner of topic T. -/
theorem topicStep_owner (st : Store) (r : TopicReq) (T : ObjectId)
    (hpatch : ∀ user body, r = .patch user T body → body.speakerId = none)
    (hcreate : ∀ user body, r ≠ .create user T body) :
    ∀ t2 ∈ (topicStep st r).topics, t2._id = T →
      ∃ t ∈ st.topics, t._id = T ∧ t2.speakerId = t.speakerId := by
  intro t2 ht2 hid2
  cases r with
  | create user newId body =>
    rcases createTopic_store newId st user body with ⟨h, -⟩ | ⟨t, h, hid, -, -, -⟩
    · simp only [topicStep, h] at ht2
      exact ⟨t2, ht2, hid2, rfl⟩
    · simp only [topicStep, h, List.mem_append, List.mem_singleton] at ht2
      rcases ht2 with h1 | h1
      · exact ⟨t2, h1, hid2, rfl⟩
      · exfalso
        rw [h1, hid] at hid2
        exact hcreate user body (by rw [hid2])
  | patch user topicId body =>
    rcases patchTopic_store st user topicId body with h | ⟨topic, hmem, htid, -, h, -⟩
    · simp only [topicStep, h] at ht2
      exact ⟨t2, ht2, hid2, rfl⟩
    · simp only [topicStep, h, replaceTopic, List.mem_map] at ht2
      obtain ⟨d, hd, hdt⟩ := ht2
      by_cases hc : d._id = (assignTopic topic body)._id
      · rw [if_pos hc] at hdt
        have hT : topicId = T := by
          rw [← hid2, ← hdt, ← htid]; rfl
        have hnone := hpatch user body (by rw [hT])
        refine ⟨topic, hmem, by rw [htid, hT], ?_⟩
        rw [← hdt]
        simp [assignTopic, hnone]
      · rw [if_neg hc] at hdt
        rw [← hdt] at hid2 ⊢
        exact ⟨d, hd, hid2, rfl⟩
  | delete user topicId =>
    have hsub := deleteTopic_topics_sublist st user topicId
    exact ⟨t2, hsub.subset ht2, hid2, rfl⟩

/-- C19, amended: a successful create stores a topic owned by the creating
speaker, and along every sequence of topic create, update and delete requests
in which no PATCH of topic T carries a speakerId and no create reuses the id
T, topic T, as long as it is stored, keeps the speakerId it had before the
sequence. -/
theorem topic_owner_frame (st : Store) (reqs : List TopicReq) (T : ObjectId) (t : Topic)
    (hids : (st.topics.map (fun t => t._id)).Nodup) (ht : t ∈ st.topics) (hid : t._id = T)
    (hpatch : ∀ user body, TopicReq.patch user T body ∈ reqs → body.speakerId = none)
    (hcreate : ∀ user body, TopicReq.create user T body ∉ reqs) :
    (∀ t2 ∈ (runTopics st reqs).topics, t2._id = T → t2.speakerId = t.speakerId) ∧
    (∀ (newId : ObjectId) (st0 : Store) (user : AuthUser) (body : CreateTopicBody),
      (createTopic newId st0 user body).1.status = 201 →
      ∃ t0, createTopic newId st0 user body =
          (⟨201, .topic t0⟩, { st0 with topics := st0.topics ++ [t0] }) ∧
        t0.speakerId = user.userId) := by
  constructor
  · have gen : ∀ (rs : List TopicReq) (s0 : Store),
        (∀ user body, TopicReq.patch user T body ∈ rs → body.speakerId = none) →
        (∀ user body, TopicReq.create user T body ∉ rs) →
        ∀ t2 ∈ (runTopics s0 rs).topics, t2._id = T →
          ∃ t1 ∈ s0.topics, t1._id = T ∧ t2.speakerId = t1.speakerId := by
      intro rs
      induction rs with
      | nil =>
        intro s0 _ _ t2 ht2 hid2
        exact ⟨t2, ht2, hid2, rfl⟩
      | cons r rs ih =>
        intro s0 hp hc t2 ht2 hid2
        obtain ⟨t1, ht1, hid1, hsp⟩ := ih (topicStep s0 r)
          (fun user body hm => hp user body (List.mem_cons_of_mem _ hm))
          (fun user body hm => hc user body (List.mem_cons_of_mem _ hm)) t2 ht2 hid2
        obtain ⟨t0, ht0, hid0, hsp0⟩ := topicStep_owner s0 r T
          (fun user body hr => hp user body (by rw [hr]; exact List.mem_cons_self _ _))
          (fun user body hr => hc user body (by rw [← hr]; exact List.mem_cons_self _ _))
          t1 ht1 hid1
        exact ⟨t0, ht0, hid0, hsp.trans hsp0⟩
    intro t2 ht2 hid2
    obtain ⟨t1, ht1, hid1, hsp⟩ := gen reqs st hpatch hcreate t2 ht2 hid2
    have : t1 = t := List.inj_on_of_nodup_map hids ht1 ht (by simp [hid1, hid])
    rw [hsp, this]
  · intro newId st0 user body hok
    rcases createTopic_store newId st0 user body with ⟨-, h⟩ | ⟨t0, h, -, hsp, -, -⟩
    · exact absurd hok h
    · exact ⟨t0, h, hsp⟩

/-- C19 amended, at an instance: a create, a refused rename and a delete of
another topic leave the owner of topic 11 of the example store as it was. -/
theorem topic_owner_frame_witness :
    (∀ t2 ∈ (runTopics exStore exTopicReqs).topics, t2._id = 11 →
      t2.speakerId = exTopic2.speakerId) ∧
    (∀ (newId : ObjectId) (st0 : Store) (user : AuthUser) (body : CreateTopicBody),
      (createTopic newId st0 user body).1.status = 201 →
      ∃ t0, createTopic newId st0 user body =
          (⟨201, .topic t0⟩, { st0 with topics := st0.topics ++ [t0] }) ∧
        t0.speakerId = user.userId) :=
  topic_owner_frame exStore exTopicReqs 11 exTopic2 (by decide) (by decide) (by decide)
    (by intro user body h; simp [exTopicReqs] at h)
    (by intro user body h; simp [exTopicReqs] at h)

/-- C20: for a stored question (valid as every stored question is: content
and userEmail non-empty), whatever its current status, and a target status t
among pending, approved and rejected, PATCH /questions/:id/status with
status t sent by a speaker is answered 200 with the question carrying status
t; in the next store that question has status t and its other fields as
before, and every other question is unchanged. -/
theorem status_free_transition (st : Store) (user : AuthUser) (questionId : ObjectId)
    (q : Question) (t : String)
    (hids : (st.questions.map (fun q => q._id)).Nodup)
    (hrole : user.role = "speaker") (hq : q ∈ st.questions) (hid : q._id = questionId)
    (hcontent : q.content ≠ "") (hemail : q.userEmail ≠ "")
    (ht : t = "pending" ∨ t = "approved" ∨ t = "rejected") :
    patchQuestionStatus st user questionId t =
        (⟨200, .question { q with status := t }⟩,
          { st with questions :=
              st.questions.map (fun d => if d._id = questionId then { q with status := t }
                else d) }) ∧
    (∀ d ∈ (patchQuestionStatus st user questionId t).2.questions,
      d._id = questionId → d = { q with status := t }) ∧
    { q with status := t } ∈ (patchQuestionStatus st user questionId t).2.questions := by
  have hfind : findOne (fun d : Question => d._id = questionId) st.questions = some q := by
    cases hf : findOne (fun d : Question => d._id = questionId) st.questions with
    | none =>
      unfold findOne at hf
      rw [List.find?_eq_none] at hf
      exact absurd (by simp [hid]) (hf q hq)
    | some d =>
      have hp := List.find?_some hf
      simp only [decide_eq_true_eq] at hp
      have : d = q :=
        List.inj_on_of_nodup_map hids (List.mem_of_find?_eq_some hf) hq (by simp [hp, hid])
      rw [this]
  have hvalid : validQuestion { q with status := t } = true := by
    rcases ht with h | h | h <;> simp [validQuestion, hcontent, hemail, h]
  have hres : patchQuestionStatus st user questionId t =
      (⟨200, .question { q with status := t }⟩,
        { st with questions :=
            st.questions.map (fun d => if d._id = questionId then { q with status := t }
              else d) }) := by
    subst hid
    simp only [patchQuestionStatus, speakerAuth, hrole, hfind, replaceQuestion]
    simp only [ne_eq, not_true_eq_false, if_false, hvalid, if_true]
  refine ⟨hres, ?_, ?_⟩
  · intro d hd hdid
    rw [hres] at hd
    simp only [List.mem_map] at hd
    obtain ⟨x, -, hx⟩ := hd
    by_cases hc : x._id = questionId
    · rw [if_pos hc] at hx; exact hx.symm
    · rw [if_neg hc] at hx
      rw [← hx] at hdid
      exact absurd hdid hc
  · rw [hres]
    simp only [List.mem_map]
    exact ⟨q, hq, by rw [if_pos hid]⟩

/-- C20, at an instance: the second speaker moves question 20 of the example
store from pending to rejected. -/
theorem status_free_transition_witness :
    patchQuestionStatus exStore exAuth2 20 "rejected" =
        (⟨200, .question { exQuestion with status := "rejected" }⟩,
          { exStore with questions :=
              exStore.questions.map (fun d => if d._id = 20 then
                { exQuestion with status := "rejected" } else d) }) ∧
    (∀ d ∈ (patchQuestionStatus exStore exAuth2 20 "rejected").2.questions,
      d._id = 20 → d = { exQuestion with status := "rejected" }) ∧
    { exQuestion with status := "rejected" } ∈
      (patchQuestionStatus exStore exAuth2 20 "rejected").2.questions :=
  status_free_transition exStore exAuth2 20 exQuestion "rejected" (by decide) (by decide)
    (by decide) (by decide) (by decide) (by decide) (by decide)

/-- The speaker listing never writes. -/
theorem getSpeakerQuestions_store (st : Store) (user : AuthUser) :
    (getSpeakerQuestions st user).2 = st := by
  unfold getSpeakerQuestions
  cases speakerAuth (some user) with
  | some denied => rfl
  | none =>
    simp only
    split
    · rfl
    · split <;> rfl

/-- A status update either leaves the store as it is or, for a speaker,
replaces the stored question of that id by itself with the new status. -/
theorem patchQuestionStatus_store (st : Store) (user : AuthUser) (questionId : ObjectId)
    (status : String) :
    (patchQuestionStatus st user questionId status).2 = st ∨
      ∃ question, question ∈ st.questions ∧ question._id = questionId ∧
        user.role = "speaker" ∧
        (patchQuestionStatus st user questionId status).2 =
          { st with questions :=
              replaceQuestion { question with status := status } st.questions } := by
  unfold patchQuestionStatus
  by_cases hrole : user.role = "speaker"
  · have hgate : speakerAuth (some user) = none := by simp [speakerAuth, hrole]
    simp only [hgate]
    cases hf : findOne (fun q : Question => q._id = questionId) st.questions with
    | none => exact Or.inl rfl
    | some question =>
      have hp := List.find?_some hf
      simp only [decide_eq_true_eq] at hp
      simp only
      split
      · exact Or.inr ⟨question, List.mem_of_find?_eq_some hf, hp, hrole, rfl⟩
      · exact Or.inl rfl
  · left
    simp [speakerAuth, hrole]

/-- Replacing a stored question by itself with another status changes no
field but the status, of no question, when ids are unique. -/
theorem replaceQuestion_withoutStatus (question : Question) (status : String)
    (docs : List Question) (hids : (docs.map (fun q => q._id)).Nodup)
    (hq : question ∈ docs) :
    (replaceQuestion { question with status := status } docs).map Question.withoutStatus =
      docs.map Question.withoutStatus := by
  unfold replaceQuestion
  rw [List.map_map]
  apply List.map_congr_left
  intro d hd
  by_cases h : d._id = question._id
  · have hdq : d = question := List.inj_on_of_nodup_map hids hd hq h
    simp [h, hdq, Question.withoutStatus]
  · simp [h]

/-- C21: the status route lets a speaker who does not own the question's
topic change the question.  Question 20 of the example store belongs to topic
10 of speaker 1 and is pending; speaker 2, who owns neither, sends
PATCH /questions/20/status with status rejected, is answered 200, and the
stored question is then rejected. -/
theorem status_changed_by_other_speaker :
    exQuestion ∈ exStore.questions ∧ exQuestion._id = 20 ∧ exQuestion.status = "pending" ∧
    exQuestion.speakerId ≠ exAuth2.userId ∧
    (∀ t ∈ exStore.topics, t._id = exQuestion.topicId → t.speakerId ≠ exAuth2.userId) ∧
    exAuth2.role = "speaker" ∧
    (patchQuestionStatus exStore exAuth2 20 "rejected").1.status = 200 ∧
    ((patchQuestionStatus exStore exAuth2 20 "rejected").2.questions.filter
      (fun q => q._id = 20)).map (fun q => q.status) = ["rejected"] := by
  refine ⟨by decide, by decide, by decide, by decide, by decide, by decide, by decide,
    by decide⟩

/-- What the status route does check and keep: sent by an authenticated user
whose role is not speaker, PATCH /questions/Q/status is answered 403 and
leaves the store unchanged; sent by anyone, it changes at most the status
field of stored questions: every other field of every question, and the
users, topics and feedback, are as before. -/
theorem status_patch_role_only (st : Store) (user : AuthUser) (questionId : ObjectId)
    (status : String) (hids : (st.questions.map (fun q => q._id)).Nodup) :
    (user.role ≠ "speaker" →
      (patchQuestionStatus st user questionId status).1.status = 403 ∧
        (patchQuestionStatus st user questionId status).2 = st) ∧
    (patchQuestionStatus st user questionId status).2.questions.map Question.withoutStatus =
      st.questions.map Question.withoutStatus ∧
    (patchQuestionStatus st user questionId status).2.users = st.users ∧
    (patchQuestionStatus st user questionId status).2.topics = st.topics ∧
    (patchQuestionStatus st user questionId status).2.feedback = st.feedback := by
  refine ⟨?_, ?_⟩
  · intro hrole
    simp [patchQuestionStatus, speakerAuth, hrole]
  · rcases patchQuestionStatus_store st user questionId status with h | ⟨q, hq, -, -, h⟩
    · rw [h]
      exact ⟨rfl, rfl, rfl, rfl⟩
    · rw [h]
      exact ⟨replaceQuestion_withoutStatus q status st.questions hids hq, rfl, rfl, rfl⟩

/-- The role gate of the status route at an instance: the listener tries to
reject question 20 of the example store. -/
theorem status_patch_role_only_witness :
    (exAuthListener.role ≠ "speaker" →
      (patchQuestionStatus exStore exAuthListener 20 "rejected").1.status = 403 ∧
        (patchQuestionStatus exStore exAuthListener 20 "rejected").2 = exStore) ∧
    (patchQuestionStatus exStore exAuthListener 20 "rejected").2.questions.map
        Question.withoutStatus = exStore.questions.map Question.withoutStatus ∧
    (patchQuestionStatus exStore exAuthListener 20 "rejected").2.users = exStore.users ∧
    (patchQuestionStatus exStore exAuthListener 20 "rejected").2.topics = exStore.topics ∧
    (patchQuestionStatus exStore exAuthListener 20 "rejected").2.feedback = exStore.feedback :=
  status_patch_role_only exStore exAuthListener 20 "rejected" (by decide)

/-- One request that does not delete questions keeps every field of every
question but the status, and only a status update touches the questions. -/
theorem laterStep_frame (st : Store) (r : LaterReq)
    (hids : (st.questions.map (fun q => q._id)).Nodup) :
    (laterStep st r).questions.map Question.withoutStatus =
        st.questions.map Question.withoutStatus ∧
      ((∀ user questionId status, r ≠ .statusUpdate user questionId status) →
        (laterStep st r).questions = st.questions) := by
  cases r with
  | statusUpdate user questionId status =>
    refine ⟨?_, fun h => absurd rfl (h user questionId status)⟩
    rcases patchQuestionStatus_store st user questionId status with h | ⟨q, hq, -, -, h⟩
    · simp only [laterStep, h]
    · simp only [laterStep, h]
      exact replaceQuestion_withoutStatus q status st.questions hids hq
  | topicUpdate user topicId body =>
    have : (patchTopic st user topicId body).2.questions = st.questions := by
      rcases patchTopic_store st user topicId body with h | ⟨t, -, -, -, h, -⟩ <;> rw [h]
    exact ⟨by simp only [laterStep, this], fun _ => by simp only [laterStep, this]⟩
  | feedback user newId now body =>
    have : (submitFeedback newId now st user body).2.questions = st.questions := by
      rcases submitFeedback_store newId now st user body with h | ⟨f, h, -, -⟩ <;> rw [h]
    exact ⟨by simp only [laterStep, this], fun _ => by simp only [laterStep, this]⟩
  | listing user =>
    exact ⟨by simp only [laterStep, getSpeakerQuestions_store],
      fun _ => by simp only [laterStep, getSpeakerQuestions_store]⟩

/-- C22: along every sequence of status updates, topic updates, feedback
submissions and listings, the stored questions keep every field but the
status: each stored question is still stored with the same _id, isRelevant,
confidence, score, content, userId, topicId and speakerId; and a request
other than a status update leaves the questions entirely unchanged. -/
theorem question_fields_frame (st : Store) (reqs : List LaterReq)
    (hids : (st.questions.map (fun q => q._id)).Nodup) :
    (runLater st reqs).questions.map Question.withoutStatus =
        st.questions.map Question.withoutStatus ∧
    (∀ q ∈ st.questions, ∃ q2 ∈ (runLater st reqs).questions,
      q2._id = q._id ∧ q2.isRelevant = q.isRelevant ∧ q2.confidence = q.confidence ∧
        q2.score = q.score ∧ q2.content = q.content ∧ q2.userId = q.userId ∧
        q2.topicId = q.topicId ∧ q2.speakerId = q.speakerId) ∧
    (∀ (s0 : Store) (r : LaterReq),
      (∀ user questionId status, r ≠ .statusUpdate user questionId status) →
      (laterStep s0 r).questions = s0.questions) := by
  have hmap : (runLater st reqs).questions.map Question.withoutStatus =
      st.questions.map Question.withoutStatus := by
    induction reqs generalizing st with
    | nil => rfl
    | cons r rs ih =>
      have hstep := (laterStep_frame st r hids).1
      have hids2 : ((laterStep st r).questions.map (fun q => q._id)).Nodup := by
        have h1 : (laterStep st r).questions.map (fun q => q._id) =
            ((laterStep st r).questions.map Question.withoutStatus).map (fun q => q._id) := by
          rw [List.map_map]; rfl
        have h2 : st.questions.map (fun q => q._id) =
            (st.questions.map Question.withoutStatus).map (fun q => q._id) := by
          rw [List.map_map]; rfl
        rw [h1, hstep, ← h2]
        exact hids
      exact (ih (laterStep st r) hids2).trans hstep
  refine ⟨hmap, ?_, ?_⟩
  · intro q hq
    have hmem : q.withoutStatus ∈ (runLater st reqs).questions.map Question.withoutStatus := by
      rw [hmap]
      exact List.mem_map_of_mem _ hq
    rw [List.mem_map] at hmem
    obtain ⟨q2, hq2, heq⟩ := hmem
    simp only [Question.withoutStatus, Question.mk.injEq] at heq
    obtain ⟨h1, h2, h3, h4, h5, -, h7, h8, h9, h10, h11, h12, h13⟩ := heq
    exact ⟨q2, hq2, h1, h11, h12, h13, h5, h2, h3, h4⟩
  · intro s0 r hr
    cases r with
    | statusUpdate user questionId status => exact absurd rfl (hr user questionId status)
    | topicUpdate user topicId body =>
      rcases patchTopic_store s0 user topicId body with h | ⟨t, -, -, -, h, -⟩ <;>
        simp only [laterStep, h]
    | feedback user newId now body =>
      rcases submitFeedback_store newId now s0 user body with h | ⟨f, h, -, -⟩ <;>
        simp only [laterStep, h]
    | listing user => simp only [laterStep, getSpeakerQuestions_store]

/-- C22, at an instance: a status update, a topic rename, a feedback
submission and a listing on the example store. -/
theorem question_fields_frame_witness :
    (runLater exStore exLaterReqs).questions.map Question.withoutStatus =
        exStore.questions.map Question.withoutStatus ∧
    (∀ q ∈ exStore.questions, ∃ q2 ∈ (runLater exStore exLaterReqs).questions,
      q2._id = q._id ∧ q2.isRelevant = q.isRelevant ∧ q2.confidence = q.confidence ∧
        q2.score = q.score ∧ q2.content = q.content ∧ q2.userId = q.userId ∧
        q2.topicId = q.topicId ∧ q2.speakerId = q.speakerId) ∧
    (∀ (s0 : Store) (r : LaterReq),
      (∀ user questionId status, r ≠ .statusUpdate user questionId status) →
      (laterStep s0 r).questions = s0.questions) :=
  question_fields_frame exStore exLaterReqs (by decide)

/-- C23: validation failures of the question routes are answered 500, not
400.  A submission to a stored topic without content, or without userEmail
(missing or empty), is answered 500 'Error creating question' whatever the
classifier says, and a speaker's status update of a stored question with a
status outside pending, approved, rejected is answered 500 'Error updating
question status'; the store is unchanged in both cases.  The submission
`exBodyNoContent` and the status "done" are instances. -/
theorem question_validation_answers_500 :
    (∀ (predict : PredictRequest → HttpOutcome) (newId : ObjectId) (now : Date) (st : Store)
        (user : AuthUser) (body : SubmitBody) (topic : Topic),
      findOne (fun t : Topic => t._id = body.topicId && t.speakerId = body.speakerId)
        st.topics = some topic →
      (body.content = none ∨ body.content = some "" ∨ body.userEmail = none ∨
        body.userEmail = some "") →
      (submitQuestion predict newId now st user body).response =
          ⟨500, .message "Error creating question"⟩ ∧
        (submitQuestion predict newId now st user body).store = st) ∧
    (∀ (st : Store) (user : AuthUser) (questionId : ObjectId) (status : String)
        (q : Question),
      user.role = "speaker" →
      findOne (fun d : Question => d._id = questionId) st.questions = some q →
      status ≠ "pending" → status ≠ "approved" → status ≠ "rejected" →
      patchQuestionStatus st user questionId status =
        (⟨500, .message "Error updating question status"⟩, st)) ∧
    (submitQuestion exPredict 23 1000 exStore exAuthListener exBodyNoContent).response =
      ⟨500, .message "Error creating question"⟩ ∧
    patchQuestionStatus exStore exAuth 20 "done" =
      (⟨500, .message "Error updating question status"⟩, exStore) := by
  refine ⟨?_, ?_, by decide, by decide⟩
  · intro predict newId now st user body topic hf hbad
    have hnew : ∀ ai, newQuestion newId now user topic body ai = none := by
      intro ai
      unfold newQuestion
      split
      · rename_i c e hc he
        split
        · rename_i hne
          exfalso
          rcases hbad with h | h | h | h
          · rw [h] at hc; simp at hc
          · rw [h] at hc
            simp only [Option.some.injEq] at hc
            exact hne.1 hc.symm
          · rw [h] at he; simp at he
          · rw [h] at he
            simp only [Option.some.injEq] at he
            exact hne.2 he.symm
        · rfl
      · rfl
    unfold submitQuestion
    simp only [hf]
    cases analyzeQuestion predict body.content topic.name with
    | none => exact ⟨rfl, rfl⟩
    | some ai => simp [hnew ai]
  · intro st user questionId status q hrole hf h1 h2 h3
    have hgate : speakerAuth (some user) = none := by simp [speakerAuth, hrole]
    have hv : validQuestion { q with status := status } = false := by
      simp [validQuestion, h1, h2, h3]
    simp only [patchQuestionStatus, hgate, hf, hv]
    simp

/-- C24: POST /feedback answers a topic id that names no stored topic with
400, not 404.  Every otherwise valid submission whose topicId is the id of
no stored topic is answered 400 'Topic not found' with the store unchanged,
as `exFeedbackNoTopic` is on the example store, while question submission,
question status update, topic update and topic delete answer 404 for their
missing target. -/
theorem feedback_missing_topic_answers_400 :
    (∀ (newId : ObjectId) (now : Date) (st : Store) (user : AuthUser) (T : ObjectId) (r : ℚ)
        (c : String),
      1 ≤ r ∧ r ≤ 5 → jsTrim c ≠ "" → (∀ t ∈ st.topics, t._id ≠ T) →
      submitFeedback newId now st user ⟨some T, some r, some c⟩ =
        (⟨400, .message "Topic not found"⟩, st)) ∧
    submitFeedback 32 1000 exStore exAuth exFeedbackNoTopic =
      (⟨400, .message "Topic not found"⟩, exStore) ∧
    (submitQuestion exPredict 23 1000 exStore exAuthListener
        ⟨99, 1, some "Why?", some true, none, some "eve@mail.org"⟩).response.status = 404 ∧
    (patchQuestionStatus exStore exAuth 99 "approved").1.status = 404 ∧
    (patchTopic exStore exAuth 99 exGiveAway).1.status = 404 ∧
    (deleteTopic exStore exAuth 99).1.status = 404 := by
  refine ⟨?_, by decide, by decide, by decide, by decide, by decide⟩
  intro newId now st user T r c hr hc hnone
  have h1 : ¬ (r = 0 ∨ r < 1 ∨ r > 5) := by
    rintro (h | h | h)
    · rw [h] at hr; exact absurd hr.1 (by norm_num)
    · exact absurd hr.1 (not_le.2 h)
    · exact absurd hr.2 (not_le.2 h)
  have h2 : ¬ (c = "" ∨ (jsTrim c).length = 0) := by
    rintro (h | h)
    · rw [h] at hc; exact hc (by decide)
    · exact hc ((string_length_zero _).1 h)
  have h3 : findOne (fun t : Topic => t._id = T) st.topics = none := by
    unfold findOne
    rw [List.find?_eq_none]
    intro t ht hp
    exact hnone t ht (by simpa using hp)
  simp only [submitFeedback, h3]
  rw [if_neg h1, if_neg h2]

/-- C25 as stated fails: the file photo.png sent with content type
image/jpeg, which is not the type matching its extension, passes the filter;
the upload is answered 200 and the avatar path of the user is overwritten. -/
theorem avatar_filter_mismatched_type :
    extname "photo.png" = ".png" ∧
    fileFilter exToLowerCase ⟨"photo.png", "image/jpeg", 1000⟩ = true ∧
    (uploadAvatar exToLowerCase "1-2" exStore exAuth (some ⟨"photo.png", "image/jpeg", 1000⟩)).1 =
      ⟨200, .avatarUploaded "Avatar uploaded successfully"
        "/uploads/avatars/avatar-1-2.png"⟩ ∧
    ((uploadAvatar exToLowerCase "1-2" exStore exAuth (some ⟨"photo.png", "image/jpeg",
        1000⟩)).2.users.filter
      (fun u => u._id = 1)).map (fun u => u.profileAvatar) =
        [some "/uploads/avatars/avatar-1-2.png"] ∧
    (exStore.users.filter (fun u => u._id = 1)).map (fun u => u.profileAvatar) = [none] := by
  refine ⟨by decide, by decide, by decide, by decide, by decide⟩

/-- C25, amended: the avatar file filter accepts every file whose extension
is, case-insensitively, one of .jpeg, .jpg, .png, .gif and whose content type
is one of image/jpeg, image/png, image/gif, whether or not the two match; it
rejects every file whose lower-cased extension contains none of jpeg, jpg,
png, gif or whose content type contains none of them; and every rejected
file is answered 400 'Only image files are allowed!' with the store, and so
the stored avatar path, unchanged. -/
theorem avatar_filter_contract (toLowerCase : String → String)
    (uniqueSuffix : String) (st : Store) (user : AuthUser)
    (file : UploadedFile) :
    (toLowerCase (extname file.originalname) ∈ [".jpeg", ".jpg", ".png", ".gif"] →
      file.mimetype ∈ ["image/jpeg", "image/png", "image/gif"] →
      fileFilter toLowerCase file = true) ∧
    (allowedTypes (toLowerCase (extname file.originalname)) = false ∨
        allowedTypes file.mimetype = false →
      fileFilter toLowerCase file = false) ∧
    (fileFilter toLowerCase file = false →
      uploadAvatar toLowerCase uniqueSuffix st user (some file) =
        (⟨400, .message "Only image files are allowed!"⟩, st)) := by
  refine ⟨?_, ?_, ?_⟩
  · intro hext hmime
    have h1 : allowedTypes (toLowerCase (extname file.originalname)) = true := by
      simp only [List.mem_cons, List.mem_singleton, List.not_mem_nil, or_false] at hext
      rcases hext with h | h | h | h <;> rw [h] <;> decide
    have h2 : allowedTypes file.mimetype = true := by
      simp only [List.mem_cons, List.mem_singleton, List.not_mem_nil, or_false] at hmime
      rcases hmime with h | h | h <;> rw [h] <;> decide
    simp [fileFilter, h1, h2]
  · rintro (h | h) <;> simp [fileFilter, h]
  · intro h
    simp [uploadAvatar, h]

/-- C25 amended, at an instance: a PDF is rejected and a PNG with an
upper-case extension is accepted. -/
theorem avatar_filter_contract_witness :
    uploadAvatar exToLowerCase "1-2" exStore exAuth (some ⟨"cv.pdf", "application/pdf", 1000⟩) =
      (⟨400, .message "Only image files are allowed!"⟩, exStore) ∧
    fileFilter exToLowerCase ⟨"photo.PNG", "image/png", 1000⟩ = true :=
  ⟨(avatar_filter_contract exToLowerCase "1-2" exStore exAuth ⟨"cv.pdf",
      "application/pdf", 1000⟩).2.2
      (by decide),
    (avatar_filter_contract exToLowerCase "1-2" exStore exAuth ⟨"photo.PNG", "image/png", 1000⟩).1
      (by decide) (by decide)⟩

/-- The handler of POST /feedback is its read phase followed by its save. -/
theorem submitFeedback_phases (newId : ObjectId) (now : Date) (st : Store) (user : AuthUser)
    (body : FeedbackBody) :
    submitFeedback newId now st user body =
      match feedbackCheck newId now st user body with
      | .answered response => (response, st)
      | .ready feedback => feedbackSave st feedback := by
  unfold submitFeedback feedbackCheck
  cases body.topicId with
  | none => rfl
  | some topicId =>
    cases body.rating with
    | none => rfl
    | some rating =>
      simp only
      split
      · rfl
      · cases body.comment with
        | none => rfl
        | some comment =>
          simp only
          split
          · rfl
          · cases findOne (fun t : Topic => t._id = topicId) st.topics with
            | none => rfl
            | some t =>
              cases findOne (fun f : Feedback =>
                  f.userId = user.userId && f.topicId = topicId) st.feedback with
              | some g => rfl
              | none => rfl

/-- C26: two valid feedback submissions of one user for one topic, handled
concurrently, can both be stored.  On the example store, when both existence
checks run before either save, both submissions are answered 201 and two
records for the (user, topic) pair are stored; when the first submission
completes before the second starts, the second is answered 400 and one record
is stored. -/
theorem feedback_race_two_records :
    exRaceA.user = exRaceB.user ∧ exRaceA.body.topicId = exRaceB.body.topicId ∧
    (exStore.feedback.filter (fun f => f.userId = 1 && f.topicId = 10)).length = 0 ∧
    (runRace exRaceA exRaceB ⟨exStore, .start, .start⟩ [false, true, false, true]).first =
      .done ⟨201, .feedbackCreated "Feedback submitted successfully"
        ⟨32, 1, 10, 4, "Nice", 1000⟩⟩ ∧
    (runRace exRaceA exRaceB ⟨exStore, .start, .start⟩ [false, true, false, true]).second =
      .done ⟨201, .feedbackCreated "Feedback submitted successfully"
        ⟨33, 1, 10, 5, "Again", 1001⟩⟩ ∧
    ((runRace exRaceA exRaceB ⟨exStore, .start, .start⟩ [false, true, false,
        true]).st.feedback.filter
      (fun f => f.userId = 1 && f.topicId = 10)).length = 2 ∧
    (runRace exRaceA exRaceB ⟨exStore, .start, .start⟩ [false, false, true, true]).second =
      .done ⟨400, .messageDetails "Feedback already exists"
        "You have already provided feedback for this topic"⟩ ∧
    ((runRace exRaceA exRaceB ⟨exStore, .start, .start⟩ [false, false, true,
        true]).st.feedback.filter
      (fun f => f.userId = 1 && f.topicId = 10)).length = 1 := by
  refine ⟨by decide, by decide, by decide, by decide, by decide, by decide, by decide,
    by decide⟩

/-- C28: the flag that `handleSubmit` records after a successful submission is
not the existence flag of GET /feedback/check.  On the example store the
listener has feedback for topic 10; the submission `exBody` succeeds, the
check answers exists = true, which `checkExistingFeedback` records, but
`handleSubmit` reads the property `hasFeedback`, which the answer does not
have, and records undefined.  It records undefined after every successful
submission. -/
theorem handleSubmit_flag_undefined :
    (submitQuestion exPredict 23 1000 exStore exAuthListener exBody).response.status = 201 ∧
    (checkFeedback (submitQuestion exPredict 23 1000 exStore exAuthListener exBody).store
        exAuthListener exBody.topicId).1 =
      ⟨200, .feedbackCheck true (some (5, "Great", 800))⟩ ∧
    checkExistingFeedbackFlag
        (submitQuestion exPredict 23 1000 exStore exAuthListener exBody).store
        exAuthListener exBody.topicId = .bool true ∧
    handleSubmitFeedbackFlag exPredict 23 1000 exStore exAuthListener exBody =
      some .undefined ∧
    ∀ (predict : PredictRequest → HttpOutcome) (newId : ObjectId) (now : Date) (st : Store)
        (user : AuthUser) (body : SubmitBody),
      handleSubmitFeedbackFlag predict newId now st user body = none ∨
        handleSubmitFeedbackFlag predict newId now st user body = some .undefined := by
  refine ⟨by decide, by decide, by decide, by decide, ?_⟩
  intro predict newId now st user body
  unfold handleSubmitFeedbackFlag
  simp only
  split
  · right
    simp [feedbackCheckProp, checkFeedback]
  · left
    rfl

/-- Padding the decimal form of a number below 100 to two characters puts a
zero before a single digit and changes nothing else. -/
theorem padStart2_toString :
    ∀ d, d < 100 →
      padStart2 (toString d) = (if d < 10 then "0" else "") ++ toString d ∧
        (padStart2 (toString d)).length = 2 := by
  decide

/-- When the zone offset at the instant shifted by the offset is the offset
at the instant itself: for an instant whose UTC calendar fields are day d,
month index mo, year y, hour h (0..23) and minute m, formatDateTime returns
the day and the month number padded with a zero to two digits, the year, the
hour H of the 12-hour clock, the minute padded to two digits and AM or PM, as
'dd-mm-yyyy H:mm AM|PM'; H lies in 1..12, is 12 when h is 0 or 12 and h mod 12
otherwise, and the suffix is PM exactly when h ≥ 12. -/
theorem formatDateTime_format (clock : Clock) (time : Int)
    (hoff : clock.timezoneOffset (time + clock.timezoneOffset time * 60000) =
      clock.timezoneOffset time)
    (hd : (clock.utcFields time).date ≤ 31) (hmo : (clock.utcFields time).month ≤ 11)
    (hh : (clock.utcFields time).hours ≤ 23) (hmi : (clock.utcFields time).minutes ≤ 59) :
    formatDateTime clock time =
      ((if (clock.utcFields time).date < 10 then "0" else "") ++
          toString (clock.utcFields time).date) ++ "-" ++
        ((if (clock.utcFields time).month + 1 < 10 then "0" else "") ++
          toString ((clock.utcFields time).month + 1)) ++ "-" ++
        toString (clock.utcFields time).year ++ " " ++
        (toString (if (clock.utcFields time).hours % 12 ≠ 0
            then (clock.utcFields time).hours % 12 else 12) ++ ":" ++
          ((if (clock.utcFields time).minutes < 10 then "0" else "") ++
            toString (clock.utcFields time).minutes) ++ " " ++
          (if (clock.utcFields time).hours ≥ 12 then "PM" else "AM")) ∧
    1 ≤ (if (clock.utcFields time).hours % 12 ≠ 0
        then (clock.utcFields time).hours % 12 else 12) ∧
    (if (clock.utcFields time).hours % 12 ≠ 0
        then (clock.utcFields time).hours % 12 else 12) ≤ 12 ∧
    ((clock.utcFields time).hours = 0 ∨ (clock.utcFields time).hours = 12 →
      (if (clock.utcFields time).hours % 12 ≠ 0
        then (clock.utcFields time).hours % 12 else 12) = 12) ∧
    ((clock.utcFields time).hours ≠ 0 → (clock.utcFields time).hours ≠ 12 →
      (if (clock.utcFields time).hours % 12 ≠ 0
        then (clock.utcFields time).hours % 12 else 12) = (clock.utcFields time).hours % 12) ∧
    (((if (clock.utcFields time).hours ≥ 12 then "PM" else "AM") = "PM") ↔
      (clock.utcFields time).hours ≥ 12) ∧
    ((if (clock.utcFields time).date < 10 then "0" else "") ++
      toString (clock.utcFields time).date).length = 2 ∧
    ((if (clock.utcFields time).month + 1 < 10 then "0" else "") ++
      toString ((clock.utcFields time).month + 1)).length = 2 ∧
    ((if (clock.utcFields time).minutes < 10 then "0" else "") ++
      toString (clock.utcFields time).minutes).length = 2 := by
  have hcancel : time + clock.timezoneOffset time * 60000 -
      clock.timezoneOffset (time + clock.timezoneOffset time * 60000) * 60000 = time := by
    rw [hoff]
    exact add_sub_cancel_right _ _
  have k1 := padStart2_toString (clock.utcFields time).date (by omega)
  have k2 := padStart2_toString ((clock.utcFields time).month + 1) (by omega)
  have k3 := padStart2_toString (clock.utcFields time).minutes (by omega)
  refine ⟨?_, ?_, ?_, ?_, ?_, ?_, ?_, ?_, ?_⟩
  · simp only [formatDateTime, localFields, hcancel]
    rw [k1.1, k2.1, k3.1]
  · split <;> omega
  · split <;> omega
  · rintro (h | h) <;> rw [h] <;> decide
  · intro h0 h12
    have : (clock.utcFields time).hours % 12 ≠ 0 := by omega
    rw [if_pos this]
  · by_cases h : (clock.utcFields time).hours ≥ 12
    · simp [h]
    · simp [h]
  · rw [← k1.1]; exact k1.2
  · rw [← k2.1]; exact k2.2
  · rw [← k3.1]; exact k3.2

/-- C29: formatDateTime does not print the UTC fields at every instant.  The
instant 2025-03-09T03:30:00Z has UTC hour 3 and minute 30.  In the zone
America/New_York the offset is 300 minutes at that instant and 240 minutes at
the instant shifted by it, which lies after the start of daylight saving
time, so the local getters of the shifted Date give 04:30 and the function
returns '09-03-2025 4:30 AM', not 3:30 AM.  In a zone whose offset does not
change the UTC fields are printed, as for `exClock`. -/
theorem formatDateTime_offset_change :
    exClockNewYork.utcFields exInstantSpring = ⟨2025, 2, 9, 3, 30⟩ ∧
    exClockNewYork.timezoneOffset exInstantSpring = 300 ∧
    exClockNewYork.timezoneOffset (exInstantSpring + 300 * 60000) = 240 ∧
    formatDateTime exClockNewYork exInstantSpring = "09-03-2025 4:30 AM" ∧
    exClock.utcFields exInstant = ⟨2025, 2, 5, 0, 7⟩ ∧
    formatDateTime exClock exInstant = "05-03-2025 12:07 AM" := by
  refine ⟨by decide, by decide, by decide, by decide, by decide, by decide⟩

/-- With pairwise distinct topic names, none of them `__proto__`, the
`questionsByTopic` object has exactly one entry per topic. -/
theorem groupByTopic_perm (topics : List Topic) (pq : List QuestionObj)
    (hnd : (topics.map (fun t => t.name)).Nodup)
    (hproto : ∀ t ∈ topics, t.name ≠ "__proto__") :
    (groupByTopic topics pq).Perm (topics.map (fun t => (t.name, topicGroup t pq))) := by
  have gen : ∀ (ts : List Topic) (acc : List (String × TopicGroup)),
      (ts.map (fun t => t.name)).Nodup →
      (∀ t ∈ ts, t.name ≠ "__proto__") →
      (∀ t ∈ ts, ∀ e ∈ acc, e.1 ≠ t.name) →
      (ts.foldl (fun o t => objSet o t.name (topicGroup t pq)) acc).Perm
        (acc ++ ts.map (fun t => (t.name, topicGroup t pq))) := by
    intro ts
    induction ts with
    | nil => intro acc _ _ _; simp
    | cons t ts ih =>
      intro acc hn hp hfree
      rw [List.map_cons, List.nodup_cons] at hn
      have hset := objSet_perm acc t.name (topicGroup t pq) (hp t (List.mem_cons_self _ _))
        (fun e he => hfree t (List.mem_cons_self _ _) e he)
      rw [List.foldl_cons]
      refine (ih _ hn.2 (fun t2 ht2 => hp t2 (List.mem_cons_of_mem _ ht2)) ?_).trans ?_
      · intro t2 ht2 e he
        rcases mem_objSet _ _ _ _ he with h | h
        · exact hfree t2 (List.mem_cons_of_mem _ ht2) e h
        · rw [h]
          intro heq
          exact hn.1 (List.mem_map.2 ⟨t2, ht2, heq.symm⟩)
      · rw [List.map_cons]
        have := hset.append_right (ts.map (fun t => (t.name, topicGroup t pq)))
        simpa using this
  have := gen topics [] hnd hproto (fun _ _ e he => by simp at he)
  simpa [groupByTopic] using this

/-- Among topics with distinct ids exactly one has a given stored id. -/
theorem sum_topic_indicator (topics : List Topic) (x : ObjectId)
    (hids : (topics.map (fun t => t._id)).Nodup) (hx : ∃ t ∈ topics, t._id = x) :
    (topics.map (fun t => if t._id = x then 1 else 0)).sum = 1 := by
  induction topics with
  | nil => obtain ⟨t, ht, -⟩ := hx; simp at ht
  | cons a as ih =>
    rw [List.map_cons, List.nodup_cons] at hids
    rw [List.map_cons, List.sum_cons]
    by_cases ha : a._id = x
    · have hzero : (as.map (fun t => if t._id = x then 1 else 0)).sum = 0 := by
        apply List.sum_eq_zero
        intro n hn
        rw [List.mem_map] at hn
        obtain ⟨t, ht, htn⟩ := hn
        have : t._id ≠ x := by
          intro h
          exact hids.1 (List.mem_map.2 ⟨t, ht, by rw [h, ha]⟩)
        simp [this] at htn
        exact htn.symm
      simp [ha, hzero]
    · obtain ⟨t, ht, htx⟩ := hx
      have ht2 : t ∈ as := by
        rcases List.mem_cons.1 ht with h | h
        · rw [h] at htx; exact absurd htx ha
        · exact h
      simp [ha, ih hids.2 ⟨t, ht2, htx⟩]

/-- Splitting a list of processed questions by topic loses and repeats
nothing: the per-topic counts of the questions that satisfy `p` add up to
their number. -/
theorem sum_topic_partition (topics : List Topic) (p : QuestionObj → Bool)
    (l : List QuestionObj) (hids : (topics.map (fun t => t._id)).Nodup)
    (hcover : ∀ q ∈ l, ∃ t ∈ topics, q.topicId.map (fun r => r._id) = some t._id) :
    (topics.map (fun t => ((topicQuestions t l).filter p).length)).sum =
      (l.filter p).length := by
  induction l with
  | nil => simp [topicQuestions]
  | cons q l ih =>
    have ih2 := ih (fun d hd => hcover d (List.mem_cons_of_mem _ hd))
    obtain ⟨t0, ht0, hq0⟩ := hcover q (List.mem_cons_self _ _)
    have hcons : ∀ t : Topic, topicQuestions t (q :: l) =
        if some t0._id = some t._id then q :: topicQuestions t l else topicQuestions t l := by
      intro t
      unfold topicQuestions
      rw [List.filter_cons, hq0]
      simp only [decide_eq_true_eq]
    have hsplit : ∀ t : Topic, ((topicQuestions t (q :: l)).filter p).length =
        (if t._id = t0._id then (if p q = true then 1 else 0) else 0) +
          ((topicQuestions t l).filter p).length := by
      intro t
      rw [hcons t]
      by_cases ht : t._id = t0._id
      · rw [if_pos (by rw [ht]), if_pos ht, List.filter_cons]
        by_cases hp : p q = true
        · rw [if_pos hp, if_pos hp, List.length_cons]; omega
        · rw [if_neg hp, if_neg hp]; omega
      · have hne : ¬ (some t0._id = some t._id) := by
          intro h
          exact ht (Option.some.inj h).symm
        rw [if_neg hne, if_neg ht]; omega
    have hfun : (fun t : Topic => ((topicQuestions t (q :: l)).filter p).length) =
        (fun t => (if t._id = t0._id then (if p q = true then 1 else 0) else 0) +
          ((topicQuestions t l).filter p).length) := funext hsplit
    rw [hfun, List.sum_map_add, ih2]
    have hind : (topics.map (fun t : Topic =>
        if t._id = t0._id then (if p q = true then 1 else 0) else 0)).sum =
        (if p q = true then 1 else 0) := by
      by_cases hp : p q = true
      · simp only [hp, if_true]
        exact sum_topic_indicator topics t0._id hids ⟨t0, ht0, rfl⟩
      · simp [hp]
    rw [hind]
    by_cases hp : p q = true
    · simp [List.filter_cons, hp]; omega
    · simp [List.filter_cons, hp]

/-- For a speaker with at least one topic, none of them named `__proto__`
(topic names of one speaker are pairwise distinct by the unique index), the
listing is answered 200 and its counts.relevant is the sum of the lengths of
the relevant lists of the `questionsByTopic` entries, its counts.nonRelevant
the sum of the lengths of the nonRelevant lists, and the two counts add up to
the number of stored questions whose topicId is one of the speaker's
topics. -/
theorem speakerQuestions_counts (st : Store) (user : AuthUser) (t0 : Topic)
    (hwf : st.WF) (hrole : user.role = "speaker")
    (ht0 : t0 ∈ st.topics) (hown0 : t0.speakerId = user.userId)
    (hproto : ∀ t ∈ st.topics, t.speakerId = user.userId → t.name ≠ "__proto__") :
    ∃ qbt r n,
      (getSpeakerQuestions st user).1 = ⟨200, .speakerQuestions qbt r n⟩ ∧
      r = (qbt.map (fun e => e.2.relevant.length)).sum ∧
      n = (qbt.map (fun e => e.2.nonRelevant.length)).sum ∧
      r + n = (st.questions.filter (fun q => q.topicId ∈
        (st.topics.filter (fun t => t.speakerId = user.userId)).map (fun t => t._id))).length := by
  have heq := getSpeakerQuestions_eq st user t0 hrole ht0 hown0
  have hsub : ∀ d ∈ st.topics.filter (fun t => t.speakerId = user.userId), d ∈ st.topics :=
    fun d hd => (List.mem_filter.1 hd).1
  have hnames := speakerTopics_names_nodup st user.userId hwf
  have hids : ((st.topics.filter (fun t => t.speakerId = user.userId)).map
      (fun t => t._id)).Nodup :=
    hwf.topicIds.sublist ((List.filter_sublist _).map _)
  have hcover : ∀ q ∈ speakerProcessedQuestions st
      (st.topics.filter (fun t => t.speakerId = user.userId)),
      ∃ t ∈ st.topics.filter (fun t => t.speakerId = user.userId),
        q.topicId.map (fun r => r._id) = some t._id := by
    intro qo hqo
    obtain ⟨q, -, hid, rfl⟩ := (mem_speakerProcessedQuestions st _ qo).1 hqo
    rw [List.mem_map] at hid
    obtain ⟨d, hd, hdq⟩ := hid
    refine ⟨d, hd, ?_⟩
    rw [(processQuestion_fields _).2.2.1, populate_topicId st q d (hsub d hd) hdq.symm, hdq]
  have hgroup := groupByTopic_perm (st.topics.filter (fun t => t.speakerId = user.userId))
    (speakerProcessedQuestions st (st.topics.filter (fun t => t.speakerId = user.userId)))
    hnames (fun t ht => hproto t (List.mem_filter.1 ht).1
      (by simpa using (List.mem_filter.1 ht).2))
  refine ⟨_, _, _, by rw [heq], ?_, ?_, ?_⟩
  · rw [(hgroup.map _).sum_eq, List.map_map]
    exact (sum_topic_partition _ (fun q => q.isRelevant) _ hids hcover).symm
  · rw [(hgroup.map _).sum_eq, List.map_map]
    exact (sum_topic_partition _ (fun q => !q.isRelevant) _ hids hcover).symm
  · have hlen := (speakerProcessedQuestions st
      (st.topics.filter (fun t => t.speakerId = user.userId))).length_eq_length_filter_add
      (fun q => q.isRelevant)
    rw [← hlen]
    simp [speakerProcessedQuestions, sortNewestFirst, List.length_insertionSort]

/-- Inserting into a list gives the same list for two relations that agree
on the inserted element against the members of the list. -/
theorem orderedInsert_congr {α : Type} (r s : α → α → Prop) [DecidableRel r]
    [DecidableRel s] (a : α) (l : List α) (h : ∀ b ∈ l, (r a b ↔ s a b)) :
    l.orderedInsert r a = l.orderedInsert s a := by
  induction l with
  | nil => rfl
  | cons b l ih =>
    simp only [List.orderedInsert]
    by_cases hr : r a b
    · rw [if_pos hr, if_pos ((h b (List.mem_cons_self _ _)).1 hr)]
    · rw [if_neg hr, if_neg (fun hs => hr ((h b (List.mem_cons_self _ _)).2 hs)),
        ih (fun c hc => h c (List.mem_cons_of_mem _ hc))]

/-- Insertion sort gives the same list for two relations that agree on the
members of the list. -/
theorem insertionSort_congr {α : Type} (r s : α → α → Prop) [DecidableRel r]
    [DecidableRel s] (l : List α) (h : ∀ a ∈ l, ∀ b ∈ l, (r a b ↔ s a b)) :
    l.insertionSort r = l.insertionSort s := by
  induction l with
  | nil => rfl
  | cons a l ih =>
    simp only [List.insertionSort]
    rw [ih (fun x hx y hy => h x (List.mem_cons_of_mem _ hx) y (List.mem_cons_of_mem _ hy))]
    apply orderedInsert_congr
    intro b hb
    exact h a (List.mem_cons_self _ _) b
      (List.mem_cons_of_mem _ ((List.perm_insertionSort s l).subset hb))

/-- The sort of the dashboard keeps the elements, each as often as before. -/
theorem jsSort_perm (compare : DashQuestion → DashQuestion → Option Int)
    (l : List DashQuestion) : (jsSort compare l).Perm l :=
  List.perm_insertionSort _ l

/-- The sort under 'latest' orders by createdAt, newest first. -/
theorem jsSort_latest (l : List DashQuestion) :
    (jsSort (compareQuestions "latest") l).Pairwise
      (fun a b => b.createdAt ≤ a.createdAt) := by
  have htotal : IsTotal DashQuestion
      (fun a b => notAfter (compareQuestions "latest") a b = true) :=
    ⟨fun a b => by simp only [notAfter, compareQuestions, if_true, decide_eq_true_eq]; omega⟩
  have htrans : IsTrans DashQuestion
      (fun a b => notAfter (compareQuestions "latest") a b = true) :=
    ⟨fun a b c => by
      simp only [notAfter, compareQuestions, if_true, decide_eq_true_eq]; omega⟩
  have hsorted := List.sorted_insertionSort
    (fun a b => notAfter (compareQuestions "latest") a b = true) l
  refine List.Pairwise.imp ?_ hsorted
  intro a b hab
  simp only [notAfter, compareQuestions, if_true, decide_eq_true_eq] at hab
  have hle : (b.createdAt : Int) ≤ (a.createdAt : Int) := by omega
  exact Int.ofNat_le.1 hle

/-- The sort under 'earliest' orders by createdAt, oldest first. -/
theorem jsSort_earliest (l : List DashQuestion) :
    (jsSort (compareQuestions "earliest") l).Pairwise
      (fun a b => a.createdAt ≤ b.createdAt) := by
  have hne : ("earliest" : String) ≠ "latest" := by decide
  have htotal : IsTotal DashQuestion
      (fun a b => notAfter (compareQuestions "earliest") a b = true) :=
    ⟨fun a b => by
      simp only [notAfter, compareQuestions, if_neg hne, if_true, decide_eq_true_eq]; omega⟩
  have htrans : IsTrans DashQuestion
      (fun a b => notAfter (compareQuestions "earliest") a b = true) :=
    ⟨fun a b c => by
      simp only [notAfter, compareQuestions, if_neg hne, if_true, decide_eq_true_eq]; omega⟩
  have hsorted := List.sorted_insertionSort
    (fun a b => notAfter (compareQuestions "earliest") a b = true) l
  refine List.Pairwise.imp ?_ hsorted
  intro a b hab
  simp only [notAfter, compareQuestions, if_neg hne, if_true, decide_eq_true_eq] at hab
  have hle : (a.createdAt : Int) ≤ (b.createdAt : Int) := by omega
  exact Int.ofNat_le.1 hle

/-- On questions whose status is one of the three of the schema, the
comparator of 'status' compares the ranks approved, pending, rejected. -/
theorem notAfter_status (a b : DashQuestion)
    (ha : a.status ∈ ["pending", "approved", "rejected"])
    (hb : b.status ∈ ["pending", "approved", "rejected"]) :
    (notAfter (compareQuestions "status") a b = true ↔
      (statusOrder a.status).getD 0 ≤ (statusOrder b.status).getD 0) := by
  simp only [List.mem_cons, List.mem_singleton, List.not_mem_nil, or_false] at ha hb
  rcases ha with ha | ha | ha <;> rcases hb with hb | hb | hb <;>
    simp [notAfter, compareQuestions, statusOrder, ha, hb]

/-- The sort under 'status', on questions whose status is one of the three of
the schema: no pending question stands before an approved one, and no
rejected question before a pending or an approved one. -/
theorem jsSort_status (l : List DashQuestion)
    (hstatus : ∀ q ∈ l, q.status ∈ ["pending", "approved", "rejected"]) :
    (jsSort (compareQuestions "status") l).Pairwise (fun a b =>
      ¬ (a.status = "pending" ∧ b.status = "approved") ∧
      ¬ (a.status = "rejected" ∧ b.status = "pending") ∧
      ¬ (a.status = "rejected" ∧ b.status = "approved")) := by
  have hcongr : jsSort (compareQuestions "status") l =
      l.insertionSort (fun a b : DashQuestion =>
        (statusOrder a.status).getD 0 ≤ (statusOrder b.status).getD 0) :=
    insertionSort_congr _ _ l
      (fun a ha b hb => notAfter_status a b (hstatus a ha) (hstatus b hb))
  have htotal : IsTotal DashQuestion (fun a b : DashQuestion =>
      (statusOrder a.status).getD 0 ≤ (statusOrder b.status).getD 0) :=
    ⟨fun a b => le_total _ _⟩
  have htrans : IsTrans DashQuestion (fun a b : DashQuestion =>
      (statusOrder a.status).getD 0 ≤ (statusOrder b.status).getD 0) :=
    ⟨fun a b c hab hbc => le_trans hab hbc⟩
  have hsorted := List.sorted_insertionSort (fun a b : DashQuestion =>
      (statusOrder a.status).getD 0 ≤ (statusOrder b.status).getD 0) l
  rw [hcongr]
  refine List.Pairwise.imp ?_ hsorted
  intro a b hab
  refine ⟨?_, ?_, ?_⟩ <;>
  · rintro ⟨h1, h2⟩
    simp [statusOrder, h1, h2] at hab

/-- The questions that `getSortedQuestions` keeps, as one filter. -/
theorem getSortedQuestions_eq (toLowerCase : String → String) (searchQuery : String)
    (sortByMap : String → Option String) (questions : List DashQuestion)
    (topicName : String) :
    getSortedQuestions toLowerCase searchQuery sortByMap questions topicName =
      jsSort (fun a b =>
          match sortByOf sortByMap topicName with
          | some mode => compareQuestions mode a b
          | none => some 0)
        (questions.filter (fun q => decide (q.topic = some topicName) && q.isRelevant &&
          (decide (searchQuery = "") ||
            jsIncludes (toLowerCase q.content) (toLowerCase searchQuery)))) := by
  unfold getSortedQuestions
  by_cases hs : searchQuery = ""
  · simp [hs, List.filter_filter, Bool.and_comm]
  · simp [hs, List.filter_filter, Bool.and_comm, Bool.and_assoc, Bool.and_left_comm]

/-- For every question list, topic name, search string and sort state,
`getSortedQuestions` returns a rearrangement (each element as often as in the
input) of the questions of that topic with isRelevant true whose lower-cased
content includes the lower-cased search string (all of them when the search
string is empty); with the choice 'latest', or with no choice for a topic
whose name is no property of `Object.prototype`, the result is ordered by
createdAt from newest to oldest; with 'earliest' from oldest to newest; with
'status', when every question's status is one of the three values of the
schema, no pending question stands before an approved one and no rejected
question before a pending or approved one. -/
theorem getSortedQuestions_contract (toLowerCase : String → String) (searchQuery : String)
    (sortByMap : String → Option String) (questions : List DashQuestion)
    (topicName : String) :
    (getSortedQuestions toLowerCase searchQuery sortByMap questions topicName).Perm
      (questions.filter (fun q => decide (q.topic = some topicName) && q.isRelevant &&
        (decide (searchQuery = "") ||
          jsIncludes (toLowerCase q.content) (toLowerCase searchQuery)))) ∧
    (((sortByMap topicName = none ∨ sortByMap topicName = some "") ∧
          topicName ∉ objectPrototypeKeys ∨
        sortByMap topicName = some "" ∨ sortByMap topicName = some "latest") →
      (getSortedQuestions toLowerCase searchQuery sortByMap questions topicName).Pairwise
        (fun a b => b.createdAt ≤ a.createdAt)) ∧
    (sortByMap topicName = some "earliest" →
      (getSortedQuestions toLowerCase searchQuery sortByMap questions topicName).Pairwise
        (fun a b => a.createdAt ≤ b.createdAt)) ∧
    (sortByMap topicName = some "status" →
      (∀ q ∈ questions, q.status ∈ ["pending", "approved", "rejected"]) →
      (getSortedQuestions toLowerCase searchQuery sortByMap questions topicName).Pairwise
        (fun a b =>
          ¬ (a.status = "pending" ∧ b.status = "approved") ∧
          ¬ (a.status = "rejected" ∧ b.status = "pending") ∧
          ¬ (a.status = "rejected" ∧ b.status = "approved"))) := by
  rw [getSortedQuestions_eq]
  refine ⟨jsSort_perm _ _, ?_, ?_, ?_⟩
  · intro hmode
    have hsort : sortByOf sortByMap topicName = some "latest" := by
      rcases hmode with ⟨h | h, hkey⟩ | h | h
      · simp [sortByOf, h, hkey]
      · simp [sortByOf, h]
      · simp [sortByOf, h]
      · simp [sortByOf, h]
    rw [hsort]
    exact jsSort_latest _
  · intro hmode
    have hsort : sortByOf sortByMap topicName = some "earliest" := by
      simp [sortByOf, hmode]
    rw [hsort]
    exact jsSort_earliest _
  · intro hmode hstatus
    have hsort : sortByOf sortByMap topicName = some "status" := by
      simp [sortByOf, hmode]
    rw [hsort]
    exact jsSort_status _ (fun q hq => hstatus q (List.mem_filter.1 hq).1)

/-- The contract at an instance: the first topic of the example dashboard,
searched for 'OPINION' and sorted by status, gives question 23 (approved) and
then question 20 (pending). -/
theorem getSortedQuestions_contract_witness :
    (getSortedQuestions exToLowerCase "OPINION" (fun _ => some "status") exDash
        "Intro to Systems").map (fun q => q._id) = [23, 20] ∧
    (getSortedQuestions exToLowerCase "OPINION" (fun _ => some "status") exDash
        "Intro to Systems").Pairwise (fun a b =>
      ¬ (a.status = "pending" ∧ b.status = "approved") ∧
      ¬ (a.status = "rejected" ∧ b.status = "pending") ∧
      ¬ (a.status = "rejected" ∧ b.status = "approved")) :=
  ⟨by decide,
   (getSortedQuestions_contract exToLowerCase "OPINION" (fun _ => some "status") exDash
      "Intro to Systems").2.2.2 rfl (by decide)⟩

/-- C27: with no sort choice stored, `getSortedQuestions` does not order the
questions of every topic newest first.  For a topic named 'constructor' the
lookup `sortByMap[topicName]` finds the function inherited from
`Object.prototype`, which is truthy, so the default 'latest' is not taken, the
switch reaches its default case and the comparator is constantly 0: the three
questions, created at 500, 700 and 650, come back in their input order 20,
23, 24, which is not newest first.  The same questions under a topic name
that is no property of `Object.prototype` come back as 23, 24, 20. -/
theorem getSortedQuestions_inherited_key :
    exDashConstructor.map (fun q => (q._id, q.createdAt)) = [(20, 500), (23, 700), (24, 650)] ∧
    sortByOf (fun _ => none) "constructor" = none ∧
    (getSortedQuestions exToLowerCase "" (fun _ => none) exDashConstructor
        "constructor").map (fun q => q._id) = [20, 23, 24] ∧
    ¬ (getSortedQuestions exToLowerCase "" (fun _ => none) exDashConstructor
        "constructor").Pairwise (fun a b => b.createdAt ≤ a.createdAt) ∧
    sortByOf (fun _ => none) "Intro to Systems" = some "latest" ∧
    (getSortedQuestions exToLowerCase "" (fun _ => none) exDash
        "Intro to Systems").map (fun q => q._id) = [23, 24, 20] := by
  refine ⟨by decide, by decide, by decide, by decide, by decide, by decide⟩

/-- C10: a topic named `__proto__` gets no entry in `questionsByTopic`.
POST /topics accepts the name: the first speaker's request `exTopicBodyProto`
is answered 201 with the topic `exTopicProto`.  In the store `exStoreProto`
the first speaker owns the topics 'Intro to Systems' and `__proto__`, and
question 25 is the one question stored on the latter.  The listing is
answered 200; its `questionsByTopic` object has the single entry 'Intro to
Systems', no entry under `__proto__`, and question 25 is in no entry. -/
theorem speakerQuestions_proto_no_entry :
    (createTopic 12 exStore exAuth exTopicBodyProto).1 = ⟨201, .topic exTopicProto⟩ ∧
    exTopicProto ∈ exStoreProto.topics ∧ exTopicProto.speakerId = exAuth.userId ∧
    exStoreProto.questions.filter (fun q => q.topicId = exTopicProto._id) =
      [exQuestionProto] ∧
    (getSpeakerQuestions exStoreProto exAuth).1 =
      ⟨200, .speakerQuestions exListingProto 2 1⟩ ∧
    exListingProto.map (fun e => e.1) = ["Intro to Systems"] ∧
    objGet exListingProto exTopicProto.name = none ∧
    (∀ e ∈ exListingProto, ∀ q ∈ e.2.relevant ++ e.2.nonRelevant, q._id ≠ 25) := by
  refine ⟨by decide, by decide, by decide, by decide, by decide, by decide, by decide,
    by decide⟩

/-- C30: the counts of the listing are not the sums over the entries of
`questionsByTopic` when a topic is named `__proto__`.  In the store
`exStoreProto` the first speaker has two topics with distinct names and three
stored questions on them, two relevant and one not.  The listing reports
counts.relevant 2 and counts.nonRelevant 1, while the relevant lists of the
entries of `questionsByTopic` have 1 element in all and the nonRelevant lists
1: the question on the topic `__proto__` is counted but is in no entry. -/
theorem speakerQuestions_counts_exceed_entries :
    ((exStoreProto.topics.filter (fun t => t.speakerId = exAuth.userId)).map
      (fun t => t.name)) = ["Intro to Systems", "__proto__"] ∧
    (exStoreProto.questions.filter (fun q => q.topicId ∈
      (exStoreProto.topics.filter (fun t => t.speakerId = exAuth.userId)).map
        (fun t => t._id))).map (fun q => (q._id, q.isRelevant)) =
      [(20, true), (21, false), (25, true)] ∧
    (getSpeakerQuestions exStoreProto exAuth).1 =
      ⟨200, .speakerQuestions exListingProto 2 1⟩ ∧
    (exListingProto.map (fun e => e.2.relevant.length)).sum = 1 ∧
    (exListingProto.map (fun e => e.2.nonRelevant.length)).sum = 1 := by
  refine ⟨by decide, by decide, by decide, by decide, by decide⟩

end QnAGenie
